import Mathlib

/-!
# The slab allocator of RaSqueue (`src/slabs.c`)

A shallow embedding of the power-of-two slab allocator and the properties of
its specification.

Modelling conventions.

* The three statics `slabclass`, `mem_limit` and `mem_malloced` form the record
  `State`; every operation takes the state and returns the new one, with the C
  return value in front when there is one.
* Pointers are natural numbers and `0` is the null pointer; pointer arithmetic
  is addition.  The arrays behind `slots` and `slab_list` are maps from index to
  stored pointer; `realloc` keeps the stored entries, and a null array is the
  map that is `0` everywhere.  The contents of the slabs themselves (`memset`)
  are not part of the state.
* The answers of the C library are inputs of the operations: whether a
  `realloc` succeeds (a `Bool`) and which pointer `malloc` returns (`0` when it
  fails).
* `unsigned int` arithmetic is reduced modulo `2^32` where a wrap is within
  reach of a run: the byte counter `mem_malloced` and the ceiling test in
  `slabs_newslab` (4096 slabs suffice), the products and the difference that
  `slabs_stats` prints, and the decrement `--end_page_free`.  The array counters
  `sl_curr`, `sl_total`, `slabs` and `list_size` count pointers stored in arrays
  that exist in memory and are incremented or doubled only; they are naturals.
* The build without `USE_SYSTEM_MALLOC` is modelled (the macro is defined
  nowhere in the repository).
-/

namespace Slabs

/-! ## Constants and data model -/

def POWER_SMALLEST : Nat := 3

def POWER_LARGEST : Nat := 20

def POWER_BLOCK : Nat := 1048576

/-- Modulus of `unsigned int` arithmetic (32 bits). -/
def UINT_MOD : Nat := 4294967296

/-- The struct `slabclass_t`; `slots` and `slab_list` are the arrays the two
pointers refer to, indexed from zero. -/
structure slabclass_t where
  size : Nat
  perslab : Nat
  slots : Nat → Nat
  sl_total : Nat
  sl_curr : Nat
  end_page_ptr : Nat
  end_page_free : Nat
  slabs : Nat
  slab_list : Nat → Nat
  list_size : Nat
  killing : Nat

/-- The statics of `slabs.c`: the class table, the ceiling and the byte counter. -/
structure State where
  slabclass : Nat → slabclass_t
  mem_limit : Nat
  mem_malloced : Nat

/-- What the C library answers during one call: whether `realloc` returns a
non-null array, and the pointer `malloc(POWER_BLOCK)` returns (`0` is failure). -/
structure Env where
  realloc_ok : Bool
  malloc_ptr : Nat

/-- The assignment `a[i] = v`. -/
def store (a : Nat → Nat) (i v : Nat) : Nat → Nat :=
  fun j => if j = i then v else a j

/-- The assignment `slabclass[id] = p`. -/
def State.setClass (s : State) (id : Nat) (p : slabclass_t) : State :=
  { s with slabclass := fun j => if j = id then p else s.slabclass j }

/-- A zeroed `slabclass_t`, as static storage starts out. -/
def zero_class : slabclass_t :=
  { size := 0, perslab := 0, slots := fun _ => 0, sl_total := 0, sl_curr := 0,
    end_page_ptr := 0, end_page_free := 0, slabs := 0, slab_list := fun _ => 0,
    list_size := 0, killing := 0 }

/-- The state of the program before any call: static storage is zeroed and
`mem_limit`, `mem_malloced` are initialised to `0`. -/
def initial : State :=
  { slabclass := fun _ => zero_class, mem_limit := 0, mem_malloced := 0 }

/-- The entries of a class's free list, oldest first: `slots[0 .. sl_curr-1]`. -/
def free_list (p : slabclass_t) : List Nat :=
  (List.range p.sl_curr).map p.slots

/-- The recorded slab base addresses of a class: `slab_list[0 .. slabs-1]`. -/
def slab_bases (p : slabclass_t) : List Nat :=
  (List.range p.slabs).map p.slab_list

/-! ## `slabs_clsid` -/

/-- The loop `while (size >>= 1) res++;` run for at most `fuel` iterations
(32 iterations exhaust a 32-bit `size`). -/
def clsid_loop : Nat → Nat → Nat → Nat
  | 0, _, res => res
  | fuel + 1, size, res =>
    if size / 2 ≠ 0 then clsid_loop fuel (size / 2) (res + 1) else res

def slabs_clsid (size : Nat) : Nat :=
  if size = 0 then 0
  else
    let res := clsid_loop 32 (size - 1) 1
    let res := if res < POWER_SMALLEST then POWER_SMALLEST else res
    if res > POWER_LARGEST then 0 else res

/-! ## `slabs_init` -/

/-- The body of the loop of `slabs_init` for one class of item size `size`. -/
def init_class (size : Nat) : slabclass_t :=
  { size := size, perslab := POWER_BLOCK / size, slots := fun _ => 0,
    sl_total := 0, sl_curr := 0, end_page_ptr := 0, end_page_free := 0,
    slabs := 0, slab_list := fun _ => 0, list_size := 0, killing := 0 }

/-- The loop `for (i = ..; i <= POWER_LARGEST; i++, size *= 2)` with `n`
iterations left, at index `i` and item size `size`. -/
def init_loop : Nat → Nat → Nat → (Nat → slabclass_t) → (Nat → slabclass_t)
  | 0, _, _, tbl => tbl
  | n + 1, i, size, tbl =>
    init_loop n (i + 1) (size * 2) (fun j => if j = i then init_class size else tbl j)

def slabs_init (limit : Nat) (s : State) : State :=
  { s with mem_limit := limit,
           slabclass := init_loop (POWER_LARGEST + 1) 0 1 s.slabclass }

/-! ## `grow_slab_list` and `slabs_newslab` -/

def grow_slab_list (ok : Bool) (id : Nat) (s : State) : Nat × State :=
  let p := s.slabclass id
  if p.slabs = p.list_size then
    let new_size := if p.list_size ≠ 0 then p.list_size * 2 else 16
    if ok = false then (0, s)
    else (1, s.setClass id { p with list_size := new_size })
  else (1, s)

def slabs_newslab (e : Env) (id : Nat) (s : State) : Nat × State :=
  let num := (s.slabclass id).perslab
  let len := POWER_BLOCK
  if s.mem_limit ≠ 0 ∧ (s.mem_malloced + len) % UINT_MOD > s.mem_limit then (0, s)
  else
    let g := grow_slab_list e.realloc_ok id s
    if g.1 = 0 then (0, g.2)
    else
      let ptr := e.malloc_ptr
      if ptr = 0 then (0, g.2)
      else
        let p := g.2.slabclass id
        { fst := 1,
          snd :=
            { g.2.setClass id
                { p with end_page_ptr := ptr, end_page_free := num,
                         slab_list := store p.slab_list p.slabs ptr,
                         slabs := p.slabs + 1 } with
              mem_malloced := (g.2.mem_malloced + len) % UINT_MOD } }

/-! ## `slabs_alloc` and `slabs_free` -/

def slabs_alloc (e : Env) (size : Nat) (s : State) : Nat × State :=
  let id := slabs_clsid size % 256
  if id < POWER_SMALLEST ∨ id > POWER_LARGEST then (0, s)
  else
    let p0 := s.slabclass id
    let r := if p0.end_page_ptr ≠ 0 ∨ p0.sl_curr ≠ 0 then (1, s) else slabs_newslab e id s
    if r.1 = 0 then (0, r.2)
    else
      let p := r.2.slabclass id
      if p.sl_curr ≠ 0 then
        (p.slots (p.sl_curr - 1), r.2.setClass id { p with sl_curr := p.sl_curr - 1 })
      else if p.end_page_ptr ≠ 0 then
        let left := (p.end_page_free + UINT_MOD - 1) % UINT_MOD
        if left ≠ 0 then
          (p.end_page_ptr,
            r.2.setClass id
              { p with end_page_free := left, end_page_ptr := p.end_page_ptr + p.size })
        else
          (p.end_page_ptr,
            r.2.setClass id { p with end_page_free := left, end_page_ptr := 0 })
      else (0, r.2)

def slabs_free (ok : Bool) (ptr size : Nat) (s : State) : State :=
  let id := slabs_clsid size % 256
  if id < POWER_SMALLEST ∨ id > POWER_LARGEST then s
  else
    let p := s.slabclass id
    if p.sl_curr = p.sl_total then
      let new_size := if p.sl_total ≠ 0 then p.sl_total * 2 else 16
      if ok = false then s
      else
        s.setClass id
          { p with sl_total := new_size, slots := store p.slots p.sl_curr ptr,
                   sl_curr := p.sl_curr + 1 }
    else
      s.setClass id { p with slots := store p.slots p.sl_curr ptr, sl_curr := p.sl_curr + 1 }

/-- The two serving branches that end `slabs_alloc`, on class `id`: pop the
free list if it is non-empty, else take the next chunk of the bump region. -/
def alloc_serve (id : Nat) (s : State) : Nat × State :=
  let p := s.slabclass id
  if p.sl_curr ≠ 0 then
    (p.slots (p.sl_curr - 1), s.setClass id { p with sl_curr := p.sl_curr - 1 })
  else if p.end_page_ptr ≠ 0 then
    let left := (p.end_page_free + UINT_MOD - 1) % UINT_MOD
    if left ≠ 0 then
      (p.end_page_ptr,
        s.setClass id { p with end_page_free := left, end_page_ptr := p.end_page_ptr + p.size })
    else
      (p.end_page_ptr, s.setClass id { p with end_page_free := left, end_page_ptr := 0 })
  else (0, s)

/-- The ceiling test of `slabs_newslab`, in `unsigned int` arithmetic. -/
def over_budget (s : State) : Prop :=
  s.mem_limit ≠ 0 ∧ (s.mem_malloced + POWER_BLOCK) % UINT_MOD > s.mem_limit

instance (s : State) : Decidable (over_budget s) := by
  unfold over_budget; infer_instance

/-! ## `slabs_stats` -/

/-- The numbers of the seven `STAT <id>:...` lines of one class. -/
structure class_stat where
  id : Nat
  chunk_size : Nat
  chunks_per_page : Nat
  total_pages : Nat
  total_chunks : Nat
  used_chunks : Nat
  free_chunks : Nat
  free_chunks_end : Nat
deriving DecidableEq

/-- The numbers of the whole report: the per-class lines in the order they are
written, then `active_slabs` and `total_malloced`. -/
structure stats_report where
  classes : List class_stat
  active_slabs : Nat
  total_malloced : Nat
deriving DecidableEq

/-- The seven `sprintf` calls for class `i`; the products and the difference are
`unsigned int` expressions. -/
def class_lines (i : Nat) (p : slabclass_t) : class_stat :=
  let slabs := p.slabs
  let perslab := p.perslab
  { id := i, chunk_size := p.size, chunks_per_page := perslab, total_pages := slabs,
    total_chunks := (slabs * perslab) % UINT_MOD,
    used_chunks := ((slabs * perslab) % UINT_MOD + UINT_MOD - p.sl_curr % UINT_MOD) % UINT_MOD,
    free_chunks := p.sl_curr, free_chunks_end := p.end_page_free }

/-- The loop `for (i = ..; i <= POWER_LARGEST; i++)` of `slabs_stats` with `n`
iterations left; the accumulator holds the lines written so far and `total`. -/
def stats_loop : Nat → Nat → State → List class_stat × Nat → List class_stat × Nat
  | 0, _, _, acc => acc
  | n + 1, i, s, acc =>
    if (s.slabclass i).slabs ≠ 0 then
      stats_loop n (i + 1) s (acc.1 ++ [class_lines i (s.slabclass i)], acc.2 + 1)
    else stats_loop n (i + 1) s acc

/-- The report, or `none` when `malloc(8192)` fails (`buf_ok = false`). -/
def slabs_stats (buf_ok : Bool) (s : State) : Option stats_report :=
  if buf_ok = false then none
  else
    let r := stats_loop (POWER_LARGEST + 1 - POWER_SMALLEST) POWER_SMALLEST s ([], 0)
    some { classes := r.1, active_slabs := r.2, total_malloced := s.mem_malloced }

/-- The classes with at least one slab among `i, i+1, .., i+n-1`. -/
def active_ids (s : State) (i n : Nat) : List Nat :=
  (List.range' i n).filter (fun j => (s.slabclass j).slabs ≠ 0)

/-! ## Runs of the allocator -/

/-- States reached from the initial state of the program by `slabs_init limit`
followed by any calls of `slabs_alloc`, `slabs_free` and `slabs_newslab`, with
any answers of the C library. -/
inductive Reachable (limit : Nat) : State → Prop
  | init : Reachable limit (slabs_init limit initial)
  | alloc {s : State} (e : Env) (size : Nat) :
      Reachable limit s → Reachable limit (slabs_alloc e size s).2
  | free {s : State} (ok : Bool) (ptr size : Nat) :
      Reachable limit s → Reachable limit (slabs_free ok ptr size s)
  | newslab {s : State} (e : Env) (id : Nat) :
      id ≤ POWER_LARGEST → Reachable limit s → Reachable limit (slabs_newslab e id s).2

/-- The block `[b, b + POWER_BLOCK)` overlaps no slab recorded in classes
`0..POWER_LARGEST`. -/
def FreshBlock (s : State) (b : Nat) : Prop :=
  ∀ id ∈ List.range (POWER_LARGEST + 1), ∀ x ∈ slab_bases (s.slabclass id),
    b + POWER_BLOCK ≤ x ∨ x + POWER_BLOCK ≤ b

instance (s : State) (b : Nat) : Decidable (FreshBlock s b) := by
  unfold FreshBlock; infer_instance

/-- The call `slabs_alloc(size)` registers a new slab in the class of `size`. -/
def acquires (e : Env) (size : Nat) (s : State) : Prop :=
  ((slabs_alloc e size s).2.slabclass (slabs_clsid size)).slabs
    ≠ (s.slabclass (slabs_clsid size)).slabs

instance (e : Env) (size : Nat) (s : State) : Decidable (acquires e size s) := by
  unfold acquires; infer_instance

/-- The list of held chunks after `slabs_alloc` returned `r` for `size`. -/
def hold (r size : Nat) (held : List (Nat × Nat)) : List (Nat × Nat) :=
  if r = 0 then held else (r, slabs_clsid size) :: held

/-- Runs of `slabs_alloc` and `slabs_free` after `slabs_init` that respect the
caller contract, together with the chunks the caller holds (address and class):
every free releases a held chunk with a size of the class it was allocated
with, and every block the system hands out overlaps no earlier block. -/
inductive Owned : State → List (Nat × Nat) → Prop
  | init (limit : Nat) (s0 : State) : Owned (slabs_init limit s0) []
  | alloc {s : State} {held : List (Nat × Nat)} (e : Env) (size : Nat) :
      Owned s held → (acquires e size s → FreshBlock s e.malloc_ptr) →
      Owned (slabs_alloc e size s).2 (hold (slabs_alloc e size s).1 size held)
  | free {s : State} {held : List (Nat × Nat)} (ok : Bool) (ptr size : Nat) :
      Owned s held → (ptr, slabs_clsid size) ∈ held →
      Owned (slabs_free ok ptr size s) (held.erase (ptr, slabs_clsid size))

/-- The run of `n` consecutive calls `slabs_alloc(1048576)` in which every
`realloc` succeeds and the `k`-th `malloc` returns the block at `k * 2^20`. -/
def alloc_blocks : Nat → State → State
  | 0, s => s
  | n + 1, s =>
    (slabs_alloc ⟨true, (n + 1) * POWER_BLOCK⟩ POWER_BLOCK (alloc_blocks n s)).2

/-! ## Invariants of contract-respecting runs -/

/-- The address `a` is a chunk of the class: a recorded slab base plus `k` chunk
sizes, for some `k < perslab`. -/
def IsChunk (p : slabclass_t) (a : Nat) : Prop :=
  ∃ i k, i < p.slabs ∧ k < p.perslab ∧ a = p.slab_list i + k * p.size

/-- The address `a` is none of the chunks still waiting in the bump region:
`a ≠ end_page_ptr + m * size` for every `m < end_page_free`. -/
def Served (p : slabclass_t) (a : Nat) : Prop :=
  ∀ m, m < p.end_page_free → a ≠ p.end_page_ptr + m * p.size

/-- The bump fields are consistent: either there is no bump region, or
`end_page_ptr` points into the last slab, `end_page_free` chunks before its end. -/
def BumpOk (p : slabclass_t) : Prop :=
  (p.end_page_ptr = 0 ∧ p.end_page_free = 0) ∨
  (p.end_page_ptr ≠ 0 ∧ 0 < p.slabs ∧ 1 ≤ p.end_page_free ∧ p.end_page_free ≤ p.perslab ∧
    p.end_page_ptr = p.slab_list (p.slabs - 1) + (p.perslab - p.end_page_free) * p.size)

/-- The recorded slabs of classes `0..POWER_LARGEST` are pairwise disjoint blocks
of `POWER_BLOCK` bytes. -/
def BlocksDisjoint (s : State) : Prop :=
  ∀ id i id2 i2, id ≤ POWER_LARGEST → id2 ≤ POWER_LARGEST →
    i < (s.slabclass id).slabs → i2 < (s.slabclass id2).slabs → (id ≠ id2 ∨ i ≠ i2) →
    (s.slabclass id).slab_list i + POWER_BLOCK ≤ (s.slabclass id2).slab_list i2 ∨
    (s.slabclass id2).slab_list i2 + POWER_BLOCK ≤ (s.slabclass id).slab_list i

/-- The invariant of a run that respects the caller contract, relating the
state to the list `held` of chunks (address, class) the caller holds. -/
structure Inv (s : State) (held : List (Nat × Nat)) : Prop where
  geom : ∀ id, id ≤ POWER_LARGEST →
    (s.slabclass id).size = 2 ^ id ∧ (s.slabclass id).perslab = 2 ^ (POWER_LARGEST - id)
  blocks : BlocksDisjoint s
  bump : ∀ id, id ≤ POWER_LARGEST → BumpOk (s.slabclass id)
  free_chunks : ∀ id, id ≤ POWER_LARGEST → ∀ a ∈ free_list (s.slabclass id),
    IsChunk (s.slabclass id) a ∧ Served (s.slabclass id) a ∧ (a, id) ∉ held
  free_nodup : ∀ id, id ≤ POWER_LARGEST → (free_list (s.slabclass id)).Nodup
  held_chunks : ∀ q j, (q, j) ∈ held →
    j ≤ POWER_LARGEST ∧ IsChunk (s.slabclass j) q ∧ Served (s.slabclass j) q
  held_nodup : held.Nodup

/-- The two records agree on the geometry and on the recorded slabs. -/
def SameLayout (p q : slabclass_t) : Prop :=
  q.size = p.size ∧ q.perslab = p.perslab ∧ q.slabs = p.slabs ∧ q.slab_list = p.slab_list

/-- The two records agree on the bump fields. -/
def SameBump (p q : slabclass_t) : Prop :=
  q.end_page_ptr = p.end_page_ptr ∧ q.end_page_free = p.end_page_free

/-- The number of slabs recorded in classes `0..POWER_LARGEST`. -/
def total_slabs (s : State) : Nat :=
  ((List.range (POWER_LARGEST + 1)).map (fun id => (s.slabclass id).slabs)).sum

/-- How a step moves the slab counts and the byte counter: not at all, or one
class in `0..POWER_LARGEST` gains a slab after a passed ceiling test and the
counter advances by `POWER_BLOCK` modulo `2^32`. -/
def CountStep (s t : State) : Prop :=
  ((∀ j, (t.slabclass j).slabs = (s.slabclass j).slabs) ∧ t.mem_malloced = s.mem_malloced) ∨
  (¬ over_budget s ∧ total_slabs t = total_slabs s + 1 ∧
    t.mem_malloced = (s.mem_malloced + POWER_BLOCK) % UINT_MOD)

/-- States reached by `slabs_init` (run on any prior state) followed by any
calls of `slabs_alloc`, `slabs_free` and `slabs_newslab`, with any arguments
and any answers of the C library. -/
inductive Run : State → Prop
  | init (limit : Nat) (s0 : State) : Run (slabs_init limit s0)
  | alloc {s : State} (e : Env) (size : Nat) : Run s → Run (slabs_alloc e size s).2
  | free {s : State} (ok : Bool) (ptr size : Nat) : Run s → Run (slabs_free ok ptr size s)
  | newslab {s : State} (e : Env) (id : Nat) :
      id ≤ POWER_LARGEST → Run s → Run (slabs_newslab e id s).2

/-- Every class `0..POWER_LARGEST` has the geometry set by `slabs_init` and
consistent bump fields. -/
def Shaped (s : State) : Prop :=
  ∀ id, id ≤ POWER_LARGEST →
    (s.slabclass id).size = 2 ^ id ∧ (s.slabclass id).perslab = 2 ^ (POWER_LARGEST - id) ∧
    BumpOk (s.slabclass id)

/-- The state after `n` consecutive calls `slabs_alloc(size)`, the C library
answering the `k`-th call (counted from zero) with `envs k`. -/
def alloc_run (envs : Nat → Env) (size : Nat) : Nat → State → State
  | 0, s => s
  | n + 1, s => (slabs_alloc (envs n) size (alloc_run envs size n s)).2

/-- The state `u` is `t` with one more slab at `b` in class `id`, of which `k`
chunks have been served by the bump branch; the free list of the class is
empty. -/
def FillState (t : State) (id b k : Nat) (u : State) : Prop :=
  u.mem_limit = t.mem_limit ∧
  u.mem_malloced = (t.mem_malloced + POWER_BLOCK) % UINT_MOD ∧
  (∀ j, j ≠ id → u.slabclass j = t.slabclass j) ∧
  (u.slabclass id).size = (t.slabclass id).size ∧
  (u.slabclass id).perslab = (t.slabclass id).perslab ∧
  (u.slabclass id).sl_curr = 0 ∧
  (u.slabclass id).slabs = (t.slabclass id).slabs + 1 ∧
  (u.slabclass id).end_page_free = (t.slabclass id).perslab - k ∧
  (u.slabclass id).end_page_ptr
    = if k < (t.slabclass id).perslab then b + k * (t.slabclass id).size else 0

/-! ## Chunk accounting -/

/-- The number of held chunks of class `id`. -/
def held_count (held : List (Nat × Nat)) (id : Nat) : Nat :=
  held.countP (fun x => x.2 = id)

/-- Runs of `slabs_alloc` and `slabs_free` after `slabs_init`, together with the
chunks the caller holds (address and class), in which every free releases a held
chunk with a size of the class it was allocated with, and the `realloc` that
grows a full free list succeeds.  Nothing is assumed of the blocks `malloc`
returns. -/
inductive Conserving : State → List (Nat × Nat) → Prop
  | init (limit : Nat) (s0 : State) : Conserving (slabs_init limit s0) []
  | alloc {s : State} {held : List (Nat × Nat)} (e : Env) (size : Nat) :
      Conserving s held →
      Conserving (slabs_alloc e size s).2 (hold (slabs_alloc e size s).1 size held)
  | free {s : State} {held : List (Nat × Nat)} (ok : Bool) (ptr size : Nat) :
      Conserving s held → (ptr, slabs_clsid size) ∈ held →
      ((s.slabclass (slabs_clsid size)).sl_curr = (s.slabclass (slabs_clsid size)).sl_total →
        ok = true) →
      Conserving (slabs_free ok ptr size s) (held.erase (ptr, slabs_clsid size))

/-- The accounting invariant of `Conserving` runs: held chunks are non-null and
of a supported class, free-list entries are non-null, and in every class the
held chunks, the free list and the bump region together make up the slabs. -/
def Tally (s : State) (held : List (Nat × Nat)) : Prop :=
  (∀ x ∈ held, x.1 ≠ 0 ∧ x.2 ≠ 0) ∧
  (∀ id, id ≤ POWER_LARGEST → ∀ i, i < (s.slabclass id).sl_curr →
    (s.slabclass id).slots i ≠ 0) ∧
  (∀ id, id ≤ POWER_LARGEST →
    held_count held id + (s.slabclass id).sl_curr + (s.slabclass id).end_page_free
      = (s.slabclass id).slabs * (s.slabclass id).perslab)

/-- The chunks held after the `n` calls of `alloc_run`, none of them freed. -/
def alloc_held (envs : Nat → Env) (size : Nat) : Nat → State → List (Nat × Nat)
  | 0, _ => []
  | n + 1, s =>
    hold (slabs_alloc (envs n) size (alloc_run envs size n s)).1 size (alloc_held envs size n s)

/-- Answers of the C library in which every `realloc` succeeds and the `malloc`
of call `k` returns the address `2^20 + 8 * k`: a run of `slabs_alloc(8)` asks for
a block every 131072 calls and so receives the adjacent blocks `2^20`,
`2 * 2^20`, `3 * 2^20`, and so on. -/
def adjacent_blocks (k : Nat) : Env :=
  ⟨true, POWER_BLOCK + 8 * k⟩

/-! ## The size-class resolver -/

theorem clsid_loop_spec (fuel : Nat) : ∀ n res : Nat, n < 2 ^ fuel →
    ∃ k, clsid_loop fuel n res = res + k ∧ n < 2 ^ (k + 1) ∧ (k ≠ 0 → 2 ^ k ≤ n) := by
  induction fuel with
  | zero =>
    intro n res h
    refine ⟨0, ?_, ?_, ?_⟩
    · simp [clsid_loop]
    · simp at h; omega
    · simp
  | succ f ih =>
    intro n res h
    by_cases hn : n / 2 = 0
    · refine ⟨0, ?_, ?_, ?_⟩
      · simp [clsid_loop, hn]
      · simp; omega
      · simp
    · have hlt : n / 2 < 2 ^ f := by
        rw [pow_succ] at h; omega
      obtain ⟨k, hk, hub, hlb⟩ := ih (n / 2) (res + 1) hlt
      refine ⟨k + 1, ?_, ?_, ?_⟩
      · simp [clsid_loop, hn, hk]; omega
      · rw [pow_succ]; omega
      · intro _
        by_cases hk0 : k = 0
        · subst hk0; simp; omega
        · have := hlb hk0
          rw [pow_succ]; omega

/-- The loop needs no more than 32 iterations on a 32-bit value: more fuel
does not change its result. -/
theorem clsid_loop_fuel (fuel : Nat) : ∀ n res extra : Nat, n < 2 ^ fuel →
    clsid_loop (fuel + extra) n res = clsid_loop fuel n res := by
  induction fuel with
  | zero =>
    intro n res extra h
    have hn : n = 0 := by simp at h; omega
    subst hn
    cases extra <;> simp [clsid_loop]
  | succ f ih =>
    intro n res extra h
    have hlt : n / 2 < 2 ^ f := by
      rw [pow_succ] at h; omega
    have e1 : f + 1 + extra = (f + extra) + 1 := by omega
    rw [e1]
    simp only [clsid_loop]
    rw [ih (n / 2) (res + 1) extra hlt]

/-- The value of `res` after the loop of `slabs_clsid`, for a 32-bit `size ≥ 1`:
`size ≤ 2^res`, and `2^(res-1) < size` unless `res = 1`. -/
theorem clsid_res_spec (size : Nat) (h1 : 1 ≤ size) (h32 : size < 2 ^ 32) :
    1 ≤ clsid_loop 32 (size - 1) 1 ∧ size ≤ 2 ^ clsid_loop 32 (size - 1) 1 ∧
      (clsid_loop 32 (size - 1) 1 ≠ 1 → 2 ^ (clsid_loop 32 (size - 1) 1 - 1) < size) := by
  obtain ⟨k, hk, hub, hlb⟩ := clsid_loop_spec 32 (size - 1) 1 (by omega)
  rw [hk]
  refine ⟨by omega, ?_, ?_⟩
  · rw [Nat.add_comm 1 k]; omega
  · intro hne
    have hk0 : k ≠ 0 := by omega
    have := hlb hk0
    have e : 1 + k - 1 = k := by omega
    rw [e]; omega

theorem slabs_clsid_unfold (size : Nat) (h1 : 1 ≤ size) :
    slabs_clsid size =
      if (if clsid_loop 32 (size - 1) 1 < 3 then 3 else clsid_loop 32 (size - 1) 1) > 20
      then 0
      else (if clsid_loop 32 (size - 1) 1 < 3 then 3 else clsid_loop 32 (size - 1) 1) := by
  have : size ≠ 0 := by omega
  simp [slabs_clsid, this, POWER_SMALLEST, POWER_LARGEST]

/-- The resolver on supported sizes: the least class in `3..20` whose chunk
size `2^id` holds `size` bytes. -/
theorem slabs_clsid_spec (size : Nat) (h1 : 1 ≤ size) (h2 : size ≤ 2 ^ 20) :
    3 ≤ slabs_clsid size ∧ slabs_clsid size ≤ 20 ∧ size ≤ 2 ^ slabs_clsid size ∧
      ∀ j, 3 ≤ j → size ≤ 2 ^ j → slabs_clsid size ≤ j := by
  have h32 : size < 2 ^ 32 := by
    have : (2 : Nat) ^ 20 < 2 ^ 32 := by norm_num
    omega
  obtain ⟨hr1, hub, hlb⟩ := clsid_res_spec size h1 h32
  rw [slabs_clsid_unfold size h1]
  generalize clsid_loop 32 (size - 1) 1 = r at hr1 hub hlb
  have hr20 : r ≤ 20 := by
    by_contra hcon
    have hne : r ≠ 1 := by omega
    have hlt := hlb hne
    have hmono : (2 : Nat) ^ 20 ≤ 2 ^ (r - 1) := Nat.pow_le_pow_right (by norm_num) (by omega)
    omega
  by_cases hr3 : r < 3
  · simp only [hr3, if_true]
    refine ⟨by norm_num, by norm_num, ?_, ?_⟩
    · have hmono : (2 : Nat) ^ r ≤ 2 ^ 3 := Nat.pow_le_pow_right (by norm_num) (by omega)
      simp only [gt_iff_lt, Nat.reduceLT, if_false]
      omega
    · intro j hj _
      simpa using hj
  · have hgt : ¬ r > 20 := by omega
    simp only [hr3, if_false, hgt]
    refine ⟨by omega, hr20, hub, ?_⟩
    intro j _ hle
    by_contra hcon
    have hne : r ≠ 1 := by omega
    have hlt := hlb hne
    have hmono : (2 : Nat) ^ j ≤ 2 ^ (r - 1) := Nat.pow_le_pow_right (by norm_num) (by omega)
    omega

/-- The resolver rejects every 32-bit size above `2^20`. -/
theorem slabs_clsid_large (size : Nat) (h2 : 2 ^ 20 < size) (h32 : size < 2 ^ 32) :
    slabs_clsid size = 0 := by
  have h1 : 1 ≤ size := by omega
  obtain ⟨hr1, hub, hlb⟩ := clsid_res_spec size h1 h32
  rw [slabs_clsid_unfold size h1]
  generalize clsid_loop 32 (size - 1) 1 = r at hr1 hub hlb
  have hr : 20 < r := by
    by_contra hcon
    have hmono : (2 : Nat) ^ r ≤ 2 ^ 20 := Nat.pow_le_pow_right (by norm_num) (by omega)
    omega
  have h3 : ¬ r < 3 := by omega
  simp [h3, hr]

theorem slabs_clsid_zero : slabs_clsid 0 = 0 := by
  simp [slabs_clsid]

/-- The resolver never leaves `{0} ∪ [3, 20]`. -/
theorem slabs_clsid_range (size : Nat) :
    slabs_clsid size = 0 ∨ (3 ≤ slabs_clsid size ∧ slabs_clsid size ≤ 20) := by
  unfold slabs_clsid
  simp only [POWER_SMALLEST, POWER_LARGEST]
  by_cases h0 : size = 0
  · left; simp [h0]
  · generalize clsid_loop 32 (size - 1) 1 = r
    by_cases h3 : r < 3
    · right; simp [h0, h3]
    · by_cases h20 : r > 20
      · left; simp [h0, h3, h20]
      · right; simp only [h0, h3, h20, if_false]; omega

/-- The narrowing to `unsigned char` in `slabs_alloc` and `slabs_free` keeps
the class id. -/
theorem slabs_clsid_mod (size : Nat) : slabs_clsid size % 256 = slabs_clsid size := by
  rcases slabs_clsid_range size with h | h
  · rw [h]
  · exact Nat.mod_eq_of_lt (by omega)

/-! ## Claims C1 and C2 -/

/-- C1: for every size with `1 ≤ size ≤ 2^20`, `slabs_clsid size` is the smallest
id in `[POWER_SMALLEST, POWER_LARGEST] = [3, 20]` with `2^id ≥ size`; in
particular every size from 1 to 8 resolves to class 3 and `2^20` to class 20. -/
theorem slabs_clsid_smallest_class (size : Nat) (h1 : 1 ≤ size) (h2 : size ≤ 2 ^ 20) :
    (POWER_SMALLEST ≤ slabs_clsid size ∧ slabs_clsid size ≤ POWER_LARGEST ∧
      size ≤ 2 ^ slabs_clsid size ∧
      ∀ j, POWER_SMALLEST ≤ j → j ≤ POWER_LARGEST → size ≤ 2 ^ j → slabs_clsid size ≤ j) ∧
    (size ≤ 8 → slabs_clsid size = 3) ∧
    (size = 2 ^ 20 → slabs_clsid size = 20) := by
  obtain ⟨h3, h20, hfit, hmin⟩ := slabs_clsid_spec size h1 h2
  refine ⟨⟨h3, h20, hfit, fun j hj _ hle => hmin j hj hle⟩, ?_, ?_⟩
  · intro h8
    have := hmin 3 (by norm_num) (by norm_num; omega)
    omega
  · intro he
    by_contra hcon
    have hlt : slabs_clsid size ≤ 19 := by omega
    have hmono : (2 : Nat) ^ slabs_clsid size ≤ 2 ^ 19 :=
      Nat.pow_le_pow_right (by norm_num) hlt
    have : (2 : Nat) ^ 19 < 2 ^ 20 := by norm_num
    omega

theorem slabs_clsid_smallest_class_witness :
    (POWER_SMALLEST ≤ slabs_clsid 100 ∧ slabs_clsid 100 ≤ POWER_LARGEST ∧
      100 ≤ 2 ^ slabs_clsid 100 ∧
      ∀ j, POWER_SMALLEST ≤ j → j ≤ POWER_LARGEST → 100 ≤ 2 ^ j → slabs_clsid 100 ≤ j) ∧
    (100 ≤ 8 → slabs_clsid 100 = 3) ∧
    (100 = 2 ^ 20 → slabs_clsid 100 = 20) :=
  slabs_clsid_smallest_class 100 (by decide) (by norm_num)

/-- C2: for every 32-bit unsigned size, `slabs_clsid size` is the sentinel `0`
if and only if `size = 0` or `size > 2^20`; every other result lies in
`[3, 20]`.  (The 32 iterations granted to the loop are enough for such a size:
more iterations give the same `res`.) -/
theorem slabs_clsid_sentinel_iff (size : Nat) (h32 : size < 2 ^ 32) :
    (slabs_clsid size = 0 ↔ (size = 0 ∨ 2 ^ 20 < size)) ∧
    (slabs_clsid size ≠ 0 →
      POWER_SMALLEST ≤ slabs_clsid size ∧ slabs_clsid size ≤ POWER_LARGEST) ∧
    (∀ extra, clsid_loop (32 + extra) (size - 1) 1 = clsid_loop 32 (size - 1) 1) := by
  refine ⟨?_, ?_, ?_⟩
  · constructor
    · intro h0
      by_contra hcon
      push_neg at hcon
      have := (slabs_clsid_spec size (by omega) hcon.2).1
      omega
    · rintro (h | h)
      · subst h; exact slabs_clsid_zero
      · exact slabs_clsid_large size h h32
  · intro hne
    rcases slabs_clsid_range size with h | h
    · exact absurd h hne
    · exact h
  · intro extra
    exact clsid_loop_fuel 32 (size - 1) 1 extra (by omega)

theorem slabs_clsid_sentinel_iff_witness :
    (slabs_clsid 2000000 = 0 ↔ (2000000 = 0 ∨ 2 ^ 20 < 2000000)) ∧
    (slabs_clsid 2000000 ≠ 0 →
      POWER_SMALLEST ≤ slabs_clsid 2000000 ∧ slabs_clsid 2000000 ≤ POWER_LARGEST) ∧
    (∀ extra, clsid_loop (32 + extra) (2000000 - 1) 1 = clsid_loop 32 (2000000 - 1) 1) :=
  slabs_clsid_sentinel_iff 2000000 (by norm_num)

/-! ## Basic facts about the state -/

@[simp] theorem setClass_same (s : State) (id : Nat) (p : slabclass_t) :
    (s.setClass id p).slabclass id = p := by
  simp [State.setClass]

theorem setClass_other (s : State) (id j : Nat) (p : slabclass_t) (h : j ≠ id) :
    (s.setClass id p).slabclass j = s.slabclass j := by
  simp [State.setClass, h]

@[simp] theorem setClass_mem_limit (s : State) (id : Nat) (p : slabclass_t) :
    (s.setClass id p).mem_limit = s.mem_limit := rfl

@[simp] theorem setClass_mem_malloced (s : State) (id : Nat) (p : slabclass_t) :
    (s.setClass id p).mem_malloced = s.mem_malloced := rfl

@[simp] theorem store_same (a : Nat → Nat) (i v : Nat) : store a i v i = v := by
  simp [store]

theorem store_other (a : Nat → Nat) (i j v : Nat) (h : j ≠ i) : store a i v j = a j := by
  simp [store, h]

/-- The size guard of `slabs_alloc` and `slabs_free` passes exactly on the
non-sentinel classes. -/
theorem guard_iff (size : Nat) :
    (slabs_clsid size % 256 < POWER_SMALLEST ∨ slabs_clsid size % 256 > POWER_LARGEST) ↔
      slabs_clsid size = 0 := by
  rw [slabs_clsid_mod]
  simp only [POWER_SMALLEST, POWER_LARGEST]
  rcases slabs_clsid_range size with h | h <;> omega

/-- The effect of `slabs_free` on a supported size. -/
theorem slabs_free_supported (ok : Bool) (ptr size : Nat) (s : State)
    (hid : slabs_clsid size ≠ 0) :
    slabs_free ok ptr size s =
      if (s.slabclass (slabs_clsid size)).sl_curr = (s.slabclass (slabs_clsid size)).sl_total
      then
        if ok = false then s
        else
          s.setClass (slabs_clsid size)
            { s.slabclass (slabs_clsid size) with
              sl_total :=
                if (s.slabclass (slabs_clsid size)).sl_total ≠ 0
                then (s.slabclass (slabs_clsid size)).sl_total * 2 else 16,
              slots :=
                store (s.slabclass (slabs_clsid size)).slots
                  (s.slabclass (slabs_clsid size)).sl_curr ptr,
              sl_curr := (s.slabclass (slabs_clsid size)).sl_curr + 1 }
      else
        s.setClass (slabs_clsid size)
          { s.slabclass (slabs_clsid size) with
            slots :=
              store (s.slabclass (slabs_clsid size)).slots
                (s.slabclass (slabs_clsid size)).sl_curr ptr,
            sl_curr := (s.slabclass (slabs_clsid size)).sl_curr + 1 } := by
  have hg := (guard_iff size).not.mpr hid
  rw [slabs_clsid_mod] at hg
  unfold slabs_free
  simp only [slabs_clsid_mod, hg, if_false]

/-- The effect of `slabs_free` on an unsupported size. -/
theorem slabs_free_unsupported (ok : Bool) (ptr size : Nat) (s : State)
    (hid : slabs_clsid size = 0) : slabs_free ok ptr size s = s := by
  have hg := (guard_iff size).mpr hid
  unfold slabs_free
  simp only [hg, if_true]

/-- The free-list path of `slabs_alloc`: with a non-empty free list the newest
entry is popped and nothing else changes. -/
theorem slabs_alloc_pop (e : Env) (size : Nat) (s : State) (hid : slabs_clsid size ≠ 0)
    (hcur : (s.slabclass (slabs_clsid size)).sl_curr ≠ 0) :
    slabs_alloc e size s =
      ((s.slabclass (slabs_clsid size)).slots ((s.slabclass (slabs_clsid size)).sl_curr - 1),
        s.setClass (slabs_clsid size)
          { s.slabclass (slabs_clsid size) with
            sl_curr := (s.slabclass (slabs_clsid size)).sl_curr - 1 }) := by
  have hg := (guard_iff size).not.mpr hid
  rw [slabs_clsid_mod] at hg
  unfold slabs_alloc
  simp only [slabs_clsid_mod, hg, if_false, hcur, ne_eq, not_false_eq_true, or_true, if_true,
    one_ne_zero]

theorem free_list_store (p : slabclass_t) (v : Nat) :
    (List.range p.sl_curr).map (store p.slots p.sl_curr v) = free_list p := by
  unfold free_list
  apply List.map_congr_left
  intro i hi
  rw [List.mem_range] at hi
  exact store_other _ _ _ _ (by omega)

/-! ## Claim C3 -/

/-- C3 (LIFO reuse): in every allocator state, for every address `h` and every
supported size `size`, when the capacity growth inside `slabs_free` succeeds,
`slabs_free(h, size)` followed by `slabs_alloc(size2)` for any `size2` of the same
class returns exactly `h` and leaves the free-list contents and count of the
class as they were before the free; in particular `h = allocate(100);
free(h, 100); allocate(100)` returns `h`. -/
theorem free_then_alloc_returns_same (s : State) (h size size2 : Nat) (e : Env)
    (h1 : 1 ≤ size) (h2 : size ≤ 2 ^ 20) (hcls : slabs_clsid size2 = slabs_clsid size) :
    (slabs_alloc e size2 (slabs_free true h size s)).1 = h ∧
    free_list ((slabs_alloc e size2 (slabs_free true h size s)).2.slabclass (slabs_clsid size))
      = free_list (s.slabclass (slabs_clsid size)) ∧
    ((slabs_alloc e size2 (slabs_free true h size s)).2.slabclass (slabs_clsid size)).sl_curr
      = (s.slabclass (slabs_clsid size)).sl_curr ∧
    (∀ (e0 : Env) (s0 : State),
      (slabs_alloc e 100 (slabs_free true (slabs_alloc e0 100 s0).1 100
        (slabs_alloc e0 100 s0).2)).1 = (slabs_alloc e0 100 s0).1) := by
  have key : ∀ (t : State) (a sz sz2 : Nat), slabs_clsid sz ≠ 0 →
      slabs_clsid sz2 = slabs_clsid sz →
      (slabs_alloc e sz2 (slabs_free true a sz t)).1 = a ∧
      free_list ((slabs_alloc e sz2 (slabs_free true a sz t)).2.slabclass (slabs_clsid sz))
        = free_list (t.slabclass (slabs_clsid sz)) ∧
      ((slabs_alloc e sz2 (slabs_free true a sz t)).2.slabclass (slabs_clsid sz)).sl_curr
        = (t.slabclass (slabs_clsid sz)).sl_curr := by
    intro t a sz sz2 hid hc
    have hid2 : slabs_clsid sz2 ≠ 0 := by rw [hc]; exact hid
    rw [slabs_free_supported true a sz t hid]
    by_cases hfull : (t.slabclass (slabs_clsid sz)).sl_curr = (t.slabclass (slabs_clsid sz)).sl_total
    · simp only [hfull, if_true, Bool.true_eq_false, if_false]
      rw [slabs_alloc_pop e sz2 _ hid2 (by rw [hc]; simp)]
      simp only [hc, setClass_same, Nat.add_sub_cancel, store_same, true_and]
      rw [← hfull]
      exact ⟨free_list_store _ a, trivial⟩
    · simp only [hfull, if_false]
      rw [slabs_alloc_pop e sz2 _ hid2 (by rw [hc]; simp)]
      simp only [hc, setClass_same, Nat.add_sub_cancel, store_same, true_and]
      exact ⟨free_list_store _ a, trivial⟩
  have hid : slabs_clsid size ≠ 0 := by
    have := (slabs_clsid_spec size h1 h2).1
    omega
  obtain ⟨k1, k2, k3⟩ := key s h size size2 hid hcls
  refine ⟨k1, k2, k3, ?_⟩
  intro e0 s0
  exact (key (slabs_alloc e0 100 s0).2 (slabs_alloc e0 100 s0).1 100 100 (by decide) rfl).1

theorem free_then_alloc_returns_same_witness :
    (slabs_alloc ⟨true, 0⟩ 65 (slabs_free true 4096 100 (slabs_init 0 initial))).1 = 4096 :=
  (free_then_alloc_returns_same (slabs_init 0 initial) 4096 100 65 ⟨true, 0⟩
    (by decide) (by norm_num) (by decide)).1

/-! ## Frame facts of the operations -/

theorem grow_slab_list_full (ok : Bool) (id : Nat) (s : State)
    (h : (s.slabclass id).slabs = (s.slabclass id).list_size) :
    grow_slab_list ok id s =
      if ok = false then (0, s)
      else (1, s.setClass id
        { s.slabclass id with
          list_size :=
            if (s.slabclass id).list_size ≠ 0 then (s.slabclass id).list_size * 2 else 16 }) := by
  unfold grow_slab_list
  exact if_pos h

theorem grow_slab_list_room (ok : Bool) (id : Nat) (s : State)
    (h : (s.slabclass id).slabs ≠ (s.slabclass id).list_size) :
    grow_slab_list ok id s = (1, s) := by
  unfold grow_slab_list
  exact if_neg h

/-- What `grow_slab_list` changes: nothing when it fails, at most `list_size`
of class `id` when it succeeds. -/
theorem grow_slab_list_class (ok : Bool) (id : Nat) (s : State) :
    ((grow_slab_list ok id s).1 = 0 ∨ (grow_slab_list ok id s).1 = 1) ∧
    ((grow_slab_list ok id s).1 = 0 → (grow_slab_list ok id s).2 = s) ∧
    (grow_slab_list ok id s).2.mem_limit = s.mem_limit ∧
    (grow_slab_list ok id s).2.mem_malloced = s.mem_malloced ∧
    (∀ j, j ≠ id → (grow_slab_list ok id s).2.slabclass j = s.slabclass j) ∧
    ∃ n, (grow_slab_list ok id s).2.slabclass id = { s.slabclass id with list_size := n } := by
  by_cases h : (s.slabclass id).slabs = (s.slabclass id).list_size
  · rw [grow_slab_list_full ok id s h]
    cases ok
    · exact ⟨Or.inl rfl, fun _ => rfl, rfl, rfl, fun _ _ => rfl,
        ⟨(s.slabclass id).list_size, rfl⟩⟩
    · refine ⟨Or.inr rfl, fun h0 => absurd h0 Nat.one_ne_zero, rfl, rfl,
        fun j hj => setClass_other _ _ _ _ hj, ?_⟩
      exact ⟨_, setClass_same _ _ _⟩
  · rw [grow_slab_list_room ok id s h]
    exact ⟨Or.inr rfl, fun h0 => absurd h0 Nat.one_ne_zero, rfl, rfl, fun _ _ => rfl,
      ⟨(s.slabclass id).list_size, rfl⟩⟩

theorem slabs_newslab_unfold (e : Env) (id : Nat) (s : State) :
    slabs_newslab e id s =
      if over_budget s then (0, s)
      else if (grow_slab_list e.realloc_ok id s).1 = 0 then (0, (grow_slab_list e.realloc_ok id s).2)
      else if e.malloc_ptr = 0 then (0, (grow_slab_list e.realloc_ok id s).2)
      else
        (1,
          { (grow_slab_list e.realloc_ok id s).2.setClass id
              { (grow_slab_list e.realloc_ok id s).2.slabclass id with
                end_page_ptr := e.malloc_ptr, end_page_free := (s.slabclass id).perslab,
                slab_list :=
                  store ((grow_slab_list e.realloc_ok id s).2.slabclass id).slab_list
                    ((grow_slab_list e.realloc_ok id s).2.slabclass id).slabs e.malloc_ptr,
                slabs := ((grow_slab_list e.realloc_ok id s).2.slabclass id).slabs + 1 } with
            mem_malloced :=
              ((grow_slab_list e.realloc_ok id s).2.mem_malloced + POWER_BLOCK) % UINT_MOD }) :=
  rfl

/-- A failing `slabs_newslab` changes at most `list_size` of class `id`. -/
theorem slabs_newslab_fail (e : Env) (id : Nat) (s : State)
    (h : (slabs_newslab e id s).1 = 0) :
    (slabs_newslab e id s).2.mem_limit = s.mem_limit ∧
    (slabs_newslab e id s).2.mem_malloced = s.mem_malloced ∧
    (∀ j, j ≠ id → (slabs_newslab e id s).2.slabclass j = s.slabclass j) ∧
    ∃ n, (slabs_newslab e id s).2.slabclass id = { s.slabclass id with list_size := n } := by
  obtain ⟨_, g0, gl, gm, gother, n, gid⟩ := grow_slab_list_class e.realloc_ok id s
  rw [slabs_newslab_unfold] at h ⊢
  by_cases hb : over_budget s
  · rw [if_pos hb]
    exact ⟨rfl, rfl, fun _ _ => rfl, ⟨(s.slabclass id).list_size, rfl⟩⟩
  · rw [if_neg hb] at h ⊢
    by_cases hg : (grow_slab_list e.realloc_ok id s).1 = 0
    · rw [if_pos hg]
      exact ⟨gl, gm, gother, n, gid⟩
    · rw [if_neg hg] at h ⊢
      by_cases hp : e.malloc_ptr = 0
      · rw [if_pos hp]
        exact ⟨gl, gm, gother, n, gid⟩
      · rw [if_neg hp] at h
        exact absurd h Nat.one_ne_zero

/-- A successful `slabs_newslab`: the ceiling test passed, `malloc` returned a
non-null block, the block is appended to `slab_list` and becomes the bump
region, and the byte counter advances by `POWER_BLOCK` modulo `2^32`. -/
theorem slabs_newslab_ok (e : Env) (id : Nat) (s : State)
    (h : (slabs_newslab e id s).1 ≠ 0) :
    (slabs_newslab e id s).1 = 1 ∧ ¬ over_budget s ∧ e.malloc_ptr ≠ 0 ∧
    (slabs_newslab e id s).2.mem_limit = s.mem_limit ∧
    (slabs_newslab e id s).2.mem_malloced = (s.mem_malloced + POWER_BLOCK) % UINT_MOD ∧
    (∀ j, j ≠ id → (slabs_newslab e id s).2.slabclass j = s.slabclass j) ∧
    ∃ n, (slabs_newslab e id s).2.slabclass id =
      { s.slabclass id with
        list_size := n, end_page_ptr := e.malloc_ptr,
        end_page_free := (s.slabclass id).perslab,
        slab_list := store (s.slabclass id).slab_list (s.slabclass id).slabs e.malloc_ptr,
        slabs := (s.slabclass id).slabs + 1 } := by
  obtain ⟨_, g0, gl, gm, gother, n, gid⟩ := grow_slab_list_class e.realloc_ok id s
  rw [slabs_newslab_unfold] at h ⊢
  by_cases hb : over_budget s
  · rw [if_pos hb] at h; exact absurd rfl h
  · rw [if_neg hb] at h ⊢
    by_cases hg : (grow_slab_list e.realloc_ok id s).1 = 0
    · rw [if_pos hg] at h; exact absurd rfl h
    · rw [if_neg hg] at h ⊢
      by_cases hp : e.malloc_ptr = 0
      · rw [if_pos hp] at h; exact absurd rfl h
      · rw [if_neg hp]
        refine ⟨rfl, hb, hp, gl, ?_, ?_, ?_⟩
        · dsimp only
          rw [gm]
        · intro j hj
          dsimp only
          rw [setClass_other _ _ _ _ hj]
          exact gother j hj
        · refine ⟨n, ?_⟩
          dsimp only
          rw [setClass_same, gid]

theorem slabs_newslab_ret (e : Env) (id : Nat) (s : State) :
    (slabs_newslab e id s).1 = 0 ∨ (slabs_newslab e id s).1 = 1 := by
  by_cases h : (slabs_newslab e id s).1 = 0
  · exact Or.inl h
  · exact Or.inr (slabs_newslab_ok e id s h).1

/-- On a supported size `slabs_alloc` is: grow when both the bump region and
the free list are empty, fail if that fails, else serve. -/
theorem slabs_alloc_supported (e : Env) (size : Nat) (s : State) (hid : slabs_clsid size ≠ 0) :
    slabs_alloc e size s =
      if (if (s.slabclass (slabs_clsid size)).end_page_ptr ≠ 0 ∨
              (s.slabclass (slabs_clsid size)).sl_curr ≠ 0
          then ((1 : Nat), s) else slabs_newslab e (slabs_clsid size) s).1 = 0
      then (0, (if (s.slabclass (slabs_clsid size)).end_page_ptr ≠ 0 ∨
              (s.slabclass (slabs_clsid size)).sl_curr ≠ 0
          then ((1 : Nat), s) else slabs_newslab e (slabs_clsid size) s).2)
      else alloc_serve (slabs_clsid size)
        (if (s.slabclass (slabs_clsid size)).end_page_ptr ≠ 0 ∨
              (s.slabclass (slabs_clsid size)).sl_curr ≠ 0
          then ((1 : Nat), s) else slabs_newslab e (slabs_clsid size) s).2 := by
  have hg := (guard_iff size).not.mpr hid
  unfold slabs_alloc alloc_serve
  rw [if_neg hg, slabs_clsid_mod]

theorem slabs_alloc_unsupported (e : Env) (size : Nat) (s : State) (hid : slabs_clsid size = 0) :
    slabs_alloc e size s = (0, s) := by
  have hg := (guard_iff size).mpr hid
  unfold slabs_alloc
  rw [if_pos hg]

/-- No growth is attempted while the bump region or the free list has a chunk. -/
theorem slabs_alloc_ready (e : Env) (size : Nat) (s : State) (hid : slabs_clsid size ≠ 0)
    (h : (s.slabclass (slabs_clsid size)).end_page_ptr ≠ 0 ∨
      (s.slabclass (slabs_clsid size)).sl_curr ≠ 0) :
    slabs_alloc e size s = alloc_serve (slabs_clsid size) s := by
  rw [slabs_alloc_supported e size s hid, if_pos h]
  exact if_neg Nat.one_ne_zero

/-- With nothing to serve, `slabs_alloc` is `slabs_newslab` followed, on
success, by a serve. -/
theorem slabs_alloc_grow (e : Env) (size : Nat) (s : State) (hid : slabs_clsid size ≠ 0)
    (hp : (s.slabclass (slabs_clsid size)).end_page_ptr = 0)
    (hc : (s.slabclass (slabs_clsid size)).sl_curr = 0) :
    slabs_alloc e size s =
      if (slabs_newslab e (slabs_clsid size) s).1 = 0
      then (0, (slabs_newslab e (slabs_clsid size) s).2)
      else alloc_serve (slabs_clsid size) (slabs_newslab e (slabs_clsid size) s).2 := by
  have h : ¬ ((s.slabclass (slabs_clsid size)).end_page_ptr ≠ 0 ∨
      (s.slabclass (slabs_clsid size)).sl_curr ≠ 0) := by
    rw [hp, hc]; simp
  rw [slabs_alloc_supported e size s hid, if_neg h]

theorem alloc_serve_pop (id : Nat) (s : State) (h : (s.slabclass id).sl_curr ≠ 0) :
    alloc_serve id s =
      ((s.slabclass id).slots ((s.slabclass id).sl_curr - 1),
        s.setClass id { s.slabclass id with sl_curr := (s.slabclass id).sl_curr - 1 }) := by
  unfold alloc_serve
  exact if_pos h

theorem alloc_serve_bump (id : Nat) (s : State) (h : (s.slabclass id).sl_curr = 0)
    (hp : (s.slabclass id).end_page_ptr ≠ 0) :
    alloc_serve id s =
      ((s.slabclass id).end_page_ptr,
        s.setClass id
          { s.slabclass id with
            end_page_free := ((s.slabclass id).end_page_free + UINT_MOD - 1) % UINT_MOD,
            end_page_ptr :=
              if ((s.slabclass id).end_page_free + UINT_MOD - 1) % UINT_MOD ≠ 0
              then (s.slabclass id).end_page_ptr + (s.slabclass id).size else 0 }) := by
  have h0 : ¬ (s.slabclass id).sl_curr ≠ 0 := by rw [h]; simp
  unfold alloc_serve
  simp only []
  rw [if_neg h0, if_pos hp]
  split_ifs <;> rfl

theorem alloc_serve_none (id : Nat) (s : State) (h : (s.slabclass id).sl_curr = 0)
    (hp : (s.slabclass id).end_page_ptr = 0) : alloc_serve id s = (0, s) := by
  have h0 : ¬ (s.slabclass id).sl_curr ≠ 0 := by rw [h]; simp
  have hp0 : ¬ (s.slabclass id).end_page_ptr ≠ 0 := by rw [hp]; simp
  unfold alloc_serve
  simp only []
  rw [if_neg h0, if_neg hp0]

/-- A serve touches only `sl_curr` and the bump fields of class `id`. -/
theorem alloc_serve_frame (id : Nat) (s : State) :
    (alloc_serve id s).2.mem_limit = s.mem_limit ∧
    (alloc_serve id s).2.mem_malloced = s.mem_malloced ∧
    (∀ j, j ≠ id → (alloc_serve id s).2.slabclass j = s.slabclass j) ∧
    ∃ c p f, (alloc_serve id s).2.slabclass id =
      { s.slabclass id with sl_curr := c, end_page_ptr := p, end_page_free := f } := by
  by_cases hc : (s.slabclass id).sl_curr ≠ 0
  · rw [alloc_serve_pop id s hc]
    exact ⟨rfl, rfl, fun j hj => setClass_other _ _ _ _ hj,
      ⟨_, (s.slabclass id).end_page_ptr, (s.slabclass id).end_page_free, setClass_same _ _ _⟩⟩
  · have hc0 : (s.slabclass id).sl_curr = 0 := by omega
    by_cases hp : (s.slabclass id).end_page_ptr ≠ 0
    · rw [alloc_serve_bump id s hc0 hp]
      exact ⟨rfl, rfl, fun j hj => setClass_other _ _ _ _ hj,
        ⟨(s.slabclass id).sl_curr, _, _, setClass_same _ _ _⟩⟩
    · have hp0 : (s.slabclass id).end_page_ptr = 0 := by omega
      rw [alloc_serve_none id s hc0 hp0]
      exact ⟨rfl, rfl, fun _ _ => rfl,
        ⟨(s.slabclass id).sl_curr, (s.slabclass id).end_page_ptr,
          (s.slabclass id).end_page_free, rfl⟩⟩

/-- What `slabs_newslab` never touches: the ceiling, and in every class the
geometry and the free list. -/
theorem slabs_newslab_frame (e : Env) (id : Nat) (s : State) :
    (slabs_newslab e id s).2.mem_limit = s.mem_limit ∧
    ((slabs_newslab e id s).2.mem_malloced = s.mem_malloced ∨
      (¬ over_budget s ∧
        (slabs_newslab e id s).2.mem_malloced = (s.mem_malloced + POWER_BLOCK) % UINT_MOD)) ∧
    ∀ j, ((slabs_newslab e id s).2.slabclass j).size = (s.slabclass j).size ∧
      ((slabs_newslab e id s).2.slabclass j).perslab = (s.slabclass j).perslab ∧
      ((slabs_newslab e id s).2.slabclass j).slots = (s.slabclass j).slots ∧
      ((slabs_newslab e id s).2.slabclass j).sl_curr = (s.slabclass j).sl_curr ∧
      ((slabs_newslab e id s).2.slabclass j).sl_total = (s.slabclass j).sl_total := by
  by_cases h : (slabs_newslab e id s).1 = 0
  · obtain ⟨hl, hm, hother, n, hid⟩ := slabs_newslab_fail e id s h
    refine ⟨hl, Or.inl hm, fun j => ?_⟩
    by_cases hj : j = id
    · subst hj; rw [hid]; exact ⟨rfl, rfl, rfl, rfl, rfl⟩
    · rw [hother j hj]; exact ⟨rfl, rfl, rfl, rfl, rfl⟩
  · obtain ⟨_, hb, _, hl, hm, hother, n, hid⟩ := slabs_newslab_ok e id s h
    refine ⟨hl, Or.inr ⟨hb, hm⟩, fun j => ?_⟩
    by_cases hj : j = id
    · subst hj; rw [hid]; exact ⟨rfl, rfl, rfl, rfl, rfl⟩
    · rw [hother j hj]; exact ⟨rfl, rfl, rfl, rfl, rfl⟩

/-- What `slabs_alloc` never touches: the ceiling and the geometry of every
class; the byte counter moves only through a successful ceiling test. -/
theorem slabs_alloc_frame (e : Env) (size : Nat) (s : State) :
    (slabs_alloc e size s).2.mem_limit = s.mem_limit ∧
    ((slabs_alloc e size s).2.mem_malloced = s.mem_malloced ∨
      (¬ over_budget s ∧
        (slabs_alloc e size s).2.mem_malloced = (s.mem_malloced + POWER_BLOCK) % UINT_MOD)) ∧
    ∀ j, ((slabs_alloc e size s).2.slabclass j).size = (s.slabclass j).size ∧
      ((slabs_alloc e size s).2.slabclass j).perslab = (s.slabclass j).perslab := by
  have serve : ∀ (id : Nat) (t : State),
      (alloc_serve id t).2.mem_limit = t.mem_limit ∧
      (alloc_serve id t).2.mem_malloced = t.mem_malloced ∧
      ∀ j, ((alloc_serve id t).2.slabclass j).size = (t.slabclass j).size ∧
        ((alloc_serve id t).2.slabclass j).perslab = (t.slabclass j).perslab := by
    intro id t
    obtain ⟨hl, hm, hother, c, p, f, hid⟩ := alloc_serve_frame id t
    refine ⟨hl, hm, fun j => ?_⟩
    by_cases hj : j = id
    · subst hj; rw [hid]; exact ⟨rfl, rfl⟩
    · rw [hother j hj]; exact ⟨rfl, rfl⟩
  by_cases hid : slabs_clsid size = 0
  · rw [slabs_alloc_unsupported e size s hid]
    exact ⟨rfl, Or.inl rfl, fun _ => ⟨rfl, rfl⟩⟩
  · by_cases hr : (s.slabclass (slabs_clsid size)).end_page_ptr ≠ 0 ∨
        (s.slabclass (slabs_clsid size)).sl_curr ≠ 0
    · rw [slabs_alloc_ready e size s hid hr]
      obtain ⟨hl, hm, hg⟩ := serve (slabs_clsid size) s
      exact ⟨hl, Or.inl hm, hg⟩
    · have hp : (s.slabclass (slabs_clsid size)).end_page_ptr = 0 := by omega
      have hc : (s.slabclass (slabs_clsid size)).sl_curr = 0 := by omega
      rw [slabs_alloc_grow e size s hid hp hc]
      obtain ⟨nl, nm, ng⟩ := slabs_newslab_frame e (slabs_clsid size) s
      by_cases hn : (slabs_newslab e (slabs_clsid size) s).1 = 0
      · rw [if_pos hn]
        exact ⟨nl, nm, fun j => ⟨(ng j).1, (ng j).2.1⟩⟩
      · rw [if_neg hn]
        obtain ⟨hl, hm, hg⟩ := serve (slabs_clsid size) (slabs_newslab e (slabs_clsid size) s).2
        refine ⟨hl.trans nl, ?_, fun j => ⟨(hg j).1.trans (ng j).1, (hg j).2.trans (ng j).2.1⟩⟩
        rw [hm]; exact nm

/-- What `slabs_free` never touches: the ceiling, the byte counter, and in
every class the geometry, the slab list and the bump region. -/
theorem slabs_free_frame (ok : Bool) (ptr size : Nat) (s : State) :
    (slabs_free ok ptr size s).mem_limit = s.mem_limit ∧
    (slabs_free ok ptr size s).mem_malloced = s.mem_malloced ∧
    ∀ j, ((slabs_free ok ptr size s).slabclass j).size = (s.slabclass j).size ∧
      ((slabs_free ok ptr size s).slabclass j).perslab = (s.slabclass j).perslab ∧
      ((slabs_free ok ptr size s).slabclass j).slabs = (s.slabclass j).slabs ∧
      ((slabs_free ok ptr size s).slabclass j).slab_list = (s.slabclass j).slab_list ∧
      ((slabs_free ok ptr size s).slabclass j).end_page_ptr = (s.slabclass j).end_page_ptr ∧
      ((slabs_free ok ptr size s).slabclass j).end_page_free = (s.slabclass j).end_page_free := by
  by_cases hid : slabs_clsid size = 0
  · rw [slabs_free_unsupported ok ptr size s hid]
    exact ⟨rfl, rfl, fun _ => ⟨rfl, rfl, rfl, rfl, rfl, rfl⟩⟩
  · rw [slabs_free_supported ok ptr size s hid]
    have upd : ∀ (q : slabclass_t),
        q.size = (s.slabclass (slabs_clsid size)).size →
        q.perslab = (s.slabclass (slabs_clsid size)).perslab →
        q.slabs = (s.slabclass (slabs_clsid size)).slabs →
        q.slab_list = (s.slabclass (slabs_clsid size)).slab_list →
        q.end_page_ptr = (s.slabclass (slabs_clsid size)).end_page_ptr →
        q.end_page_free = (s.slabclass (slabs_clsid size)).end_page_free →
        ∀ j, ((s.setClass (slabs_clsid size) q).slabclass j).size = (s.slabclass j).size ∧
          ((s.setClass (slabs_clsid size) q).slabclass j).perslab = (s.slabclass j).perslab ∧
          ((s.setClass (slabs_clsid size) q).slabclass j).slabs = (s.slabclass j).slabs ∧
          ((s.setClass (slabs_clsid size) q).slabclass j).slab_list = (s.slabclass j).slab_list ∧
          ((s.setClass (slabs_clsid size) q).slabclass j).end_page_ptr
            = (s.slabclass j).end_page_ptr ∧
          ((s.setClass (slabs_clsid size) q).slabclass j).end_page_free
            = (s.slabclass j).end_page_free := by
      intro q a b c d f g j
      by_cases hj : j = slabs_clsid size
      · subst hj; rw [setClass_same]; exact ⟨a, b, c, d, f, g⟩
      · rw [setClass_other _ _ _ _ hj]; exact ⟨rfl, rfl, rfl, rfl, rfl, rfl⟩
    split_ifs <;>
      first
      | exact ⟨rfl, rfl, fun _ => ⟨rfl, rfl, rfl, rfl, rfl, rfl⟩⟩
      | exact ⟨rfl, rfl, upd _ rfl rfl rfl rfl rfl rfl⟩

/-! ## The class table after `slabs_init` -/

theorem init_loop_spec (n : Nat) : ∀ (i size : Nat) (tbl : Nat → slabclass_t) (j : Nat),
    init_loop n i size tbl j =
      if i ≤ j ∧ j < i + n then init_class (size * 2 ^ (j - i)) else tbl j := by
  induction n with
  | zero =>
    intro i size tbl j
    have : ¬ (i ≤ j ∧ j < i + 0) := by omega
    rw [if_neg this]; rfl
  | succ n ih =>
    intro i size tbl j
    show init_loop n (i + 1) (size * 2) _ j = _
    rw [ih]
    by_cases h1 : i + 1 ≤ j ∧ j < i + 1 + n
    · have h2 : i ≤ j ∧ j < i + (n + 1) := by omega
      rw [if_pos h1, if_pos h2]
      have e : j - i = (j - (i + 1)) + 1 := by omega
      rw [e, pow_succ]
      congr 1
      ring
    · rw [if_neg h1]
      by_cases hj : j = i
      · subst hj
        have h2 : j ≤ j ∧ j < j + (n + 1) := by omega
        rw [if_pos h2, if_pos rfl]
        simp
      · have h2 : ¬ (i ≤ j ∧ j < i + (n + 1)) := by omega
        rw [if_neg h2, if_neg hj]

/-- After `slabs_init` class `id ≤ POWER_LARGEST` is the freshly built class of
item size `2^id`, whatever the state before. -/
theorem slabs_init_class (limit : Nat) (s : State) (id : Nat) (h : id ≤ POWER_LARGEST) :
    (slabs_init limit s).slabclass id = init_class (2 ^ id) := by
  show init_loop (POWER_LARGEST + 1) 0 1 s.slabclass id = _
  rw [init_loop_spec]
  have : 0 ≤ id ∧ id < 0 + (POWER_LARGEST + 1) := by omega
  rw [if_pos this]
  simp

theorem pow_div_pow (id : Nat) (h : id ≤ 20) : 1048576 / 2 ^ id = 2 ^ (20 - id) := by
  have e : (1048576 : Nat) = 2 ^ 20 := by norm_num
  rw [e, Nat.pow_div h (by norm_num)]

/-! ## Chunks of a well-formed table do not overlap -/

/-- A chunk of a class with `size = 2^id` and `perslab = 2^(20-id)` lies inside
its slab. -/
theorem chunk_in_block (id k : Nat) (hid : id ≤ 20) (hk : k < 2 ^ (20 - id)) :
    k * 2 ^ id + 2 ^ id ≤ 1048576 := by
  have h1 : (k + 1) * 2 ^ id ≤ 2 ^ (20 - id) * 2 ^ id := Nat.mul_le_mul_right _ hk
  have h2 : 2 ^ (20 - id) * 2 ^ id = 1048576 := by
    rw [← pow_add]
    have : 20 - id + id = 20 := by omega
    rw [this]; norm_num
  rw [h2, Nat.succ_mul] at h1
  exact h1

/-- Two chunks of a table with the class geometry and disjoint slabs are
disjoint byte ranges, unless they are the same chunk of the same class. -/
theorem chunks_disjoint (s : State) (held : List (Nat × Nat)) (inv : Inv s held)
    (id j a q : Nat) (hid : id ≤ POWER_LARGEST) (hj : j ≤ POWER_LARGEST)
    (ha : IsChunk (s.slabclass id) a) (hq : IsChunk (s.slabclass j) q)
    (hne : id = j → a ≠ q) :
    a + (s.slabclass id).size ≤ q ∨ q + (s.slabclass j).size ≤ a := by
  obtain ⟨i, k, hi, hk, rfl⟩ := ha
  obtain ⟨i2, k2, hi2, hk2, rfl⟩ := hq
  obtain ⟨gs, gp⟩ := inv.geom id hid
  obtain ⟨gs2, gp2⟩ := inv.geom j hj
  rw [gp] at hk
  rw [gp2] at hk2
  rw [gs, gs2]
  unfold POWER_LARGEST at hid hj hk hk2
  have c1 := chunk_in_block id k hid hk
  have c2 := chunk_in_block j k2 hj hk2
  by_cases hsame : id = j ∧ i = i2
  · obtain ⟨rfl, rfl⟩ := hsame
    have hkk : k ≠ k2 := by
      intro h; subst h; exact hne rfl rfl
    rcases Nat.lt_or_gt_of_ne hkk with hlt | hgt
    · left
      have : (k + 1) * 2 ^ id ≤ k2 * 2 ^ id := Nat.mul_le_mul_right _ hlt
      rw [Nat.succ_mul] at this
      omega
    · right
      have : (k2 + 1) * 2 ^ id ≤ k * 2 ^ id := Nat.mul_le_mul_right _ hgt
      rw [Nat.succ_mul] at this
      omega
  · have hd := inv.blocks id i j i2 hid hj hi hi2 (by omega)
    unfold POWER_BLOCK at hd
    rcases hd with hd | hd
    · left; omega
    · right; omega

/-! ## The invariant is established by `slabs_init` and kept by every step -/

theorem free_list_nil (p : slabclass_t) (h : p.sl_curr = 0) : free_list p = [] := by
  unfold free_list; rw [h]; rfl

theorem inv_init (limit : Nat) (s0 : State) : Inv (slabs_init limit s0) [] := by
  have cls := slabs_init_class limit s0
  refine ⟨?_, ?_, ?_, ?_, ?_, ?_, List.nodup_nil⟩
  · intro id hid
    rw [cls id hid]
    exact ⟨rfl, pow_div_pow id hid⟩
  · intro id i id2 i2 hid _ hi
    rw [cls id hid] at hi
    exact absurd hi (Nat.not_lt_zero _)
  · intro id hid
    rw [cls id hid]
    exact Or.inl ⟨rfl, rfl⟩
  · intro id hid a ha
    rw [cls id hid, free_list_nil _ rfl] at ha
    exact absurd ha (List.not_mem_nil a)
  · intro id hid
    rw [cls id hid, free_list_nil _ rfl]
    exact List.nodup_nil
  · intro q j hq
    exact absurd hq (List.not_mem_nil _)

/-- The invariant moves from `s, held` to `t, held2` when the geometry is kept,
the slabs of `t` are disjoint, its bump fields are consistent, chunks stay
chunks, served chunks stay served, every free-list entry of `t` was on the free
list or held before and is not held after, and every chunk held after was held
before or is a served chunk. -/
theorem inv_transfer (s t : State) (held held2 : List (Nat × Nat)) (inv : Inv s held)
    (G : ∀ j, (t.slabclass j).size = (s.slabclass j).size ∧
      (t.slabclass j).perslab = (s.slabclass j).perslab)
    (B : BlocksDisjoint t)
    (U : ∀ j, j ≤ POWER_LARGEST → BumpOk (t.slabclass j))
    (C : ∀ j, j ≤ POWER_LARGEST → ∀ a, IsChunk (s.slabclass j) a → IsChunk (t.slabclass j) a)
    (S : ∀ j, j ≤ POWER_LARGEST → ∀ a, IsChunk (s.slabclass j) a →
      Served (s.slabclass j) a → Served (t.slabclass j) a)
    (F : ∀ j, j ≤ POWER_LARGEST → ∀ a ∈ free_list (t.slabclass j),
      (a ∈ free_list (s.slabclass j) ∨ (a, j) ∈ held) ∧ (a, j) ∉ held2)
    (N : ∀ j, j ≤ POWER_LARGEST → (free_list (t.slabclass j)).Nodup)
    (H : ∀ q j, (q, j) ∈ held2 → (q, j) ∈ held ∨
      (j ≤ POWER_LARGEST ∧ IsChunk (t.slabclass j) q ∧ Served (t.slabclass j) q))
    (D : held2.Nodup) : Inv t held2 := by
  refine ⟨?_, B, U, ?_, N, ?_, D⟩
  · intro id hid
    rw [(G id).1, (G id).2]
    exact inv.geom id hid
  · intro id hid a ha
    obtain ⟨hfrom, hnot⟩ := F id hid a ha
    rcases hfrom with hf | hh
    · obtain ⟨c, sv, _⟩ := inv.free_chunks id hid a hf
      exact ⟨C id hid a c, S id hid a c sv, hnot⟩
    · obtain ⟨_, c, sv⟩ := inv.held_chunks a id hh
      exact ⟨C id hid a c, S id hid a c sv, hnot⟩
  · intro q j hq
    rcases H q j hq with hh | hnew
    · obtain ⟨hj, c, sv⟩ := inv.held_chunks q j hh
      exact ⟨hj, C j hj q c, S j hj q c sv⟩
    · exact hnew

/-- Releasing held chunks without touching the state keeps the invariant. -/
theorem inv_erase (s : State) (held : List (Nat × Nat)) (inv : Inv s held) (x : Nat × Nat) :
    Inv s (held.erase x) := by
  refine inv_transfer s s held (held.erase x) inv (fun _ => ⟨rfl, rfl⟩) inv.blocks inv.bump
    (fun _ _ _ h => h) (fun _ _ _ _ h => h) ?_ inv.free_nodup ?_ (inv.held_nodup.erase x)
  · intro j hj a ha
    refine ⟨Or.inl ha, fun hcon => ?_⟩
    exact (inv.free_chunks j hj a ha).2.2 (List.mem_of_mem_erase hcon)
  · intro q j hq
    exact Or.inl (List.mem_of_mem_erase hq)

theorem isChunk_layout (p q : slabclass_t) (h : SameLayout p q) (a : Nat)
    (ha : IsChunk p a) : IsChunk q a := by
  obtain ⟨h1, h2, h3, h4⟩ := h
  unfold IsChunk at ha ⊢
  rw [h1, h2, h3, h4]
  exact ha

theorem served_same (p q : slabclass_t) (h : SameLayout p q) (hb : SameBump p q) (a : Nat)
    (ha : Served p a) : Served q a := by
  obtain ⟨h1, _, _, _⟩ := h
  obtain ⟨b1, b2⟩ := hb
  unfold Served at ha ⊢
  rw [h1, b1, b2]
  exact ha

theorem bumpOk_same (p q : slabclass_t) (h : SameLayout p q) (hb : SameBump p q)
    (ha : BumpOk p) : BumpOk q := by
  obtain ⟨h1, h2, h3, h4⟩ := h
  obtain ⟨b1, b2⟩ := hb
  unfold BumpOk at ha ⊢
  rw [h1, h2, h3, h4, b1, b2]
  exact ha

theorem blocks_layout (s t : State) (h : ∀ j, SameLayout (s.slabclass j) (t.slabclass j))
    (hs : BlocksDisjoint s) : BlocksDisjoint t := by
  intro id i id2 i2 hid hid2 hi hi2 hne
  rw [(h id).2.2.1] at hi
  rw [(h id2).2.2.1] at hi2
  rw [(h id).2.2.2, (h id2).2.2.2]
  exact hs id i id2 i2 hid hid2 hi hi2 hne

theorem layout_setClass (s : State) (id : Nat) (p : slabclass_t)
    (h : SameLayout (s.slabclass id) p) (j : Nat) :
    SameLayout (s.slabclass j) ((s.setClass id p).slabclass j) := by
  by_cases hj : j = id
  · subst hj; rw [setClass_same]; exact h
  · rw [setClass_other _ _ _ _ hj]; exact ⟨rfl, rfl, rfl, rfl⟩

theorem bump_setClass (s : State) (id : Nat) (p : slabclass_t)
    (h : SameBump (s.slabclass id) p) (j : Nat) :
    SameBump (s.slabclass j) ((s.setClass id p).slabclass j) := by
  by_cases hj : j = id
  · subst hj; rw [setClass_same]; exact h
  · rw [setClass_other _ _ _ _ hj]; exact ⟨rfl, rfl⟩

/-- A step that keeps layout and bump fields of every class keeps the
invariant, given the bookkeeping of free lists and held chunks. -/
theorem inv_same_region (s t : State) (held held2 : List (Nat × Nat)) (inv : Inv s held)
    (L : ∀ j, SameLayout (s.slabclass j) (t.slabclass j))
    (R : ∀ j, SameBump (s.slabclass j) (t.slabclass j))
    (F : ∀ j, j ≤ POWER_LARGEST → ∀ a ∈ free_list (t.slabclass j),
      (a ∈ free_list (s.slabclass j) ∨ (a, j) ∈ held) ∧ (a, j) ∉ held2)
    (N : ∀ j, j ≤ POWER_LARGEST → (free_list (t.slabclass j)).Nodup)
    (H : ∀ q j, (q, j) ∈ held2 → (q, j) ∈ held ∨
      (j ≤ POWER_LARGEST ∧ IsChunk (t.slabclass j) q ∧ Served (t.slabclass j) q))
    (D : held2.Nodup) : Inv t held2 :=
  inv_transfer s t held held2 inv (fun j => ⟨(L j).1, (L j).2.1⟩) (blocks_layout s t L inv.blocks)
    (fun j hj => bumpOk_same _ _ (L j) (R j) (inv.bump j hj))
    (fun j _ a ha => isChunk_layout _ _ (L j) a ha)
    (fun j _ a _ ha => served_same _ _ (L j) (R j) a ha) F N H D

theorem free_list_push (p q : slabclass_t) (ptr : Nat)
    (h1 : q.slots = store p.slots p.sl_curr ptr) (h2 : q.sl_curr = p.sl_curr + 1) :
    free_list q = free_list p ++ [ptr] := by
  unfold free_list
  rw [h1, h2, List.range_succ, List.map_append, free_list_store]
  simp [free_list]

/-- Pushing a held chunk on the free list of its class and dropping it from
the held list keeps the invariant. -/
theorem inv_push (s : State) (held : List (Nat × Nat)) (inv : Inv s held) (id ptr : Nat)
    (hh : (ptr, id) ∈ held) (q : slabclass_t)
    (L : SameLayout (s.slabclass id) q) (R : SameBump (s.slabclass id) q)
    (h1 : q.slots = store (s.slabclass id).slots (s.slabclass id).sl_curr ptr)
    (h2 : q.sl_curr = (s.slabclass id).sl_curr + 1) :
    Inv (s.setClass id q) (held.erase (ptr, id)) := by
  have hid : id ≤ POWER_LARGEST := (inv.held_chunks ptr id hh).1
  have hfl := free_list_push (s.slabclass id) q ptr h1 h2
  have hnotin : ptr ∉ free_list (s.slabclass id) := fun hcon =>
    (inv.free_chunks id hid ptr hcon).2.2 hh
  refine inv_same_region s _ held _ inv (layout_setClass s id q L) (bump_setClass s id q R)
    ?_ ?_ ?_ (inv.held_nodup.erase _)
  · intro j hj a ha
    by_cases hji : j = id
    · subst hji
      rw [setClass_same, hfl, List.mem_append, List.mem_singleton] at ha
      rcases ha with ha | rfl
      · exact ⟨Or.inl ha, fun hcon =>
          (inv.free_chunks j hj a ha).2.2 (List.mem_of_mem_erase hcon)⟩
      · exact ⟨Or.inr hh, fun hcon => (List.Nodup.mem_erase_iff inv.held_nodup).mp hcon |>.1 rfl⟩
    · rw [setClass_other _ _ _ _ hji] at ha
      exact ⟨Or.inl ha, fun hcon =>
        (inv.free_chunks j hj a ha).2.2 (List.mem_of_mem_erase hcon)⟩
  · intro j hj
    by_cases hji : j = id
    · subst hji
      rw [setClass_same, hfl]
      exact List.Nodup.append (inv.free_nodup j hj) (List.nodup_singleton _)
        (by
          intro x hx hx2
          rw [List.mem_singleton] at hx2
          subst hx2
          exact hnotin hx)
    · rw [setClass_other _ _ _ _ hji]
      exact inv.free_nodup j hj
  · intro x j hx
    exact Or.inl (List.mem_of_mem_erase hx)

/-- `slabs_free` of a held chunk, with a size of its class, keeps the
invariant, whether or not the capacity growth succeeds. -/
theorem inv_free (s : State) (held : List (Nat × Nat)) (inv : Inv s held) (ok : Bool)
    (ptr size : Nat) (hh : (ptr, slabs_clsid size) ∈ held) :
    Inv (slabs_free ok ptr size s) (held.erase (ptr, slabs_clsid size)) := by
  by_cases hid : slabs_clsid size = 0
  · rw [slabs_free_unsupported ok ptr size s hid]
    exact inv_erase s held inv _
  · rw [slabs_free_supported ok ptr size s hid]
    split_ifs <;>
      first
      | exact inv_erase s held inv _
      | exact inv_push s held inv _ ptr hh _ ⟨rfl, rfl, rfl, rfl⟩ ⟨rfl, rfl⟩ rfl rfl

theorem free_list_pop (p : slabclass_t) (h : p.sl_curr ≠ 0) :
    free_list p = free_list { p with sl_curr := p.sl_curr - 1 } ++ [p.slots (p.sl_curr - 1)] := by
  unfold free_list
  obtain ⟨n, hn⟩ : ∃ n, p.sl_curr = n + 1 := ⟨p.sl_curr - 1, by omega⟩
  simp only [hn, Nat.add_sub_cancel, List.range_succ, List.map_append, List.map_cons,
    List.map_nil]

/-- The free-list branch of `alloc_serve` keeps the invariant; the popped chunk
becomes held (unless it is the null pointer). -/
theorem inv_pop (s : State) (held : List (Nat × Nat)) (inv : Inv s held) (id : Nat)
    (hid : id ≤ POWER_LARGEST) (hc : (s.slabclass id).sl_curr ≠ 0) :
    Inv (alloc_serve id s).2
        (if (alloc_serve id s).1 = 0 then held else ((alloc_serve id s).1, id) :: held) ∧
      IsChunk (s.slabclass id) (alloc_serve id s).1 ∧ ((alloc_serve id s).1, id) ∉ held := by
  rw [alloc_serve_pop id s hc]
  have hfl := free_list_pop (s.slabclass id) hc
  generalize hq : ({ s.slabclass id with sl_curr := (s.slabclass id).sl_curr - 1 } : slabclass_t)
    = q at hfl
  have L : SameLayout (s.slabclass id) q := by subst hq; exact ⟨rfl, rfl, rfl, rfl⟩
  have R : SameBump (s.slabclass id) q := by subst hq; exact ⟨rfl, rfl⟩
  generalize (s.slabclass id).slots ((s.slabclass id).sl_curr - 1) = r at hfl
  have hnd := inv.free_nodup id hid
  rw [hfl] at hnd
  have hr_in : r ∈ free_list (s.slabclass id) := by rw [hfl]; simp
  have hr_not : r ∉ free_list q := by
    intro hcon
    have := (List.nodup_append.mp hnd).2.2 hcon (List.mem_singleton.mpr rfl)
    exact this
  obtain ⟨rc, rs, rh⟩ := inv.free_chunks id hid r hr_in
  refine ⟨?_, rc, rh⟩
  dsimp only
  have sub : ∀ j, j ≤ POWER_LARGEST → ∀ a ∈ free_list ((s.setClass id q).slabclass j),
      a ∈ free_list (s.slabclass j) ∧ (j = id → a ≠ r) := by
    intro j _ a ha
    by_cases hji : j = id
    · subst hji
      rw [setClass_same] at ha
      refine ⟨by rw [hfl]; exact List.mem_append_left _ ha, fun _ hcon => ?_⟩
      subst hcon; exact hr_not ha
    · rw [setClass_other _ _ _ _ hji] at ha
      exact ⟨ha, fun h => absurd h hji⟩
  have N : ∀ j, j ≤ POWER_LARGEST → (free_list ((s.setClass id q).slabclass j)).Nodup := by
    intro j hj
    by_cases hji : j = id
    · subst hji; rw [setClass_same]; exact (List.nodup_append.mp hnd).1
    · rw [setClass_other _ _ _ _ hji]; exact inv.free_nodup j hj
  by_cases hr0 : r = 0
  · rw [if_pos hr0]
    refine inv_same_region s _ held held inv (layout_setClass s id q L) (bump_setClass s id q R)
      ?_ N (fun _ _ h => Or.inl h) inv.held_nodup
    intro j hj a ha
    obtain ⟨hin, _⟩ := sub j hj a ha
    exact ⟨Or.inl hin, (inv.free_chunks j hj a hin).2.2⟩
  · rw [if_neg hr0]
    refine inv_same_region s _ held _ inv (layout_setClass s id q L) (bump_setClass s id q R)
      ?_ N ?_ (List.nodup_cons.mpr ⟨rh, inv.held_nodup⟩)
    · intro j hj a ha
      obtain ⟨hin, hne⟩ := sub j hj a ha
      refine ⟨Or.inl hin, fun hcon => ?_⟩
      rcases List.mem_cons.mp hcon with heq | hmem
      · have e1 : a = r := congrArg Prod.fst heq
        have e2 : j = id := congrArg Prod.snd heq
        exact hne e2 e1
      · exact (inv.free_chunks j hj a hin).2.2 hmem
    · intro x j hx
      rcases List.mem_cons.mp hx with heq | hmem
      · have e1 : x = r := congrArg Prod.fst heq
        have e2 : j = id := congrArg Prod.snd heq
        subst e1 e2
        right
        refine ⟨hid, ?_, ?_⟩
        · rw [setClass_same]; exact isChunk_layout _ _ L x rc
        · rw [setClass_same]; exact served_same _ _ L R x rs
      · exact Or.inl hmem

theorem free_list_congr (p q : slabclass_t) (h1 : q.slots = p.slots) (h2 : q.sl_curr = p.sl_curr) :
    free_list q = free_list p := by
  unfold free_list; rw [h1, h2]

/-- Taking the first chunk of the bump region: the record `q` is the class
after the step. -/
theorem inv_bump_core (s : State) (held : List (Nat × Nat)) (inv : Inv s held) (id : Nat)
    (hid : id ≤ POWER_LARGEST) (hc : (s.slabclass id).sl_curr = 0)
    (hp : (s.slabclass id).end_page_ptr ≠ 0) (q : slabclass_t)
    (L : SameLayout (s.slabclass id) q) (hslots : q.slots = (s.slabclass id).slots)
    (hcur : q.sl_curr = (s.slabclass id).sl_curr)
    (hf : q.end_page_free = (s.slabclass id).end_page_free - 1)
    (hpt1 : q.end_page_free ≠ 0 →
      q.end_page_ptr = (s.slabclass id).end_page_ptr + (s.slabclass id).size)
    (hpt0 : q.end_page_free = 0 → q.end_page_ptr = 0) :
    Inv (s.setClass id q) (((s.slabclass id).end_page_ptr, id) :: held) ∧
      IsChunk (s.slabclass id) (s.slabclass id).end_page_ptr ∧
      ((s.slabclass id).end_page_ptr, id) ∉ held := by
  obtain ⟨gs, gp⟩ := inv.geom id hid
  have hsz : 0 < (s.slabclass id).size := by rw [gs]; exact Nat.pos_pow_of_pos _ (by norm_num)
  rcases inv.bump id hid with ⟨h0, _⟩ | ⟨_, hs, h1, hP, hE⟩
  · exact absurd h0 hp
  have rc : IsChunk (s.slabclass id) (s.slabclass id).end_page_ptr :=
    ⟨(s.slabclass id).slabs - 1, (s.slabclass id).perslab - (s.slabclass id).end_page_free,
      by omega, by omega, hE⟩
  have rh : ((s.slabclass id).end_page_ptr, id) ∉ held := by
    intro hcon
    have sv := (inv.held_chunks _ _ hcon).2.2
    exact sv 0 (by omega) (by simp)
  obtain ⟨l1, l2, l3, l4⟩ := L
  have servedq : ∀ a, (Served (s.slabclass id) a ∨ a = (s.slabclass id).end_page_ptr) →
      Served q a := by
    intro a ha m hm
    have hne : q.end_page_free ≠ 0 := by omega
    rw [hpt1 hne, l1]
    rcases ha with ha | rfl
    · have := ha (m + 1) (by omega)
      rw [Nat.succ_mul] at this
      omega
    · have : 0 < m * (s.slabclass id).size + (s.slabclass id).size := by omega
      omega
  have bq : BumpOk q := by
    by_cases hz : q.end_page_free = 0
    · exact Or.inl ⟨hpt0 hz, hz⟩
    · right
      refine ⟨by rw [hpt1 hz]; omega, by rw [l3]; exact hs, by omega, by rw [l2]; omega, ?_⟩
      rw [hpt1 hz, l1, l2, l3, l4, hE, hf]
      have e : (s.slabclass id).perslab - ((s.slabclass id).end_page_free - 1)
          = ((s.slabclass id).perslab - (s.slabclass id).end_page_free) + 1 := by omega
      rw [e, Nat.succ_mul]
      omega
  refine ⟨?_, rc, rh⟩
  refine inv_transfer s _ held _ inv ?_ ?_ ?_ ?_ ?_ ?_ ?_ ?_
    (List.nodup_cons.mpr ⟨rh, inv.held_nodup⟩)
  · intro j
    have := layout_setClass s id q ⟨l1, l2, l3, l4⟩ j
    exact ⟨this.1, this.2.1⟩
  · exact blocks_layout s _ (layout_setClass s id q ⟨l1, l2, l3, l4⟩) inv.blocks
  · intro j hj
    by_cases hji : j = id
    · subst hji; rw [setClass_same]; exact bq
    · rw [setClass_other _ _ _ _ hji]; exact inv.bump j hj
  · intro j _ a ha
    exact isChunk_layout _ _ (layout_setClass s id q ⟨l1, l2, l3, l4⟩ j) a ha
  · intro j _ a _ ha
    by_cases hji : j = id
    · subst hji; rw [setClass_same]; exact servedq a (Or.inl ha)
    · rw [setClass_other _ _ _ _ hji]; exact ha
  · intro j hj a ha
    by_cases hji : j = id
    · subst hji
      rw [setClass_same, free_list_congr _ _ hslots hcur, free_list_nil _ hc] at ha
      exact absurd ha (List.not_mem_nil a)
    · rw [setClass_other _ _ _ _ hji] at ha
      refine ⟨Or.inl ha, fun hcon => ?_⟩
      rcases List.mem_cons.mp hcon with heq | hmem
      · exact hji (congrArg Prod.snd heq)
      · exact (inv.free_chunks j hj a ha).2.2 hmem
  · intro j hj
    by_cases hji : j = id
    · subst hji
      rw [setClass_same, free_list_congr _ _ hslots hcur]
      exact inv.free_nodup j hj
    · rw [setClass_other _ _ _ _ hji]; exact inv.free_nodup j hj
  · intro x j hx
    rcases List.mem_cons.mp hx with heq | hmem
    · have e1 : x = (s.slabclass id).end_page_ptr := congrArg Prod.fst heq
      have e2 : j = id := congrArg Prod.snd heq
      subst e2
      right
      refine ⟨hid, ?_, ?_⟩
      · rw [setClass_same, e1]; exact isChunk_layout _ _ ⟨l1, l2, l3, l4⟩ _ rc
      · rw [setClass_same, e1]; exact servedq _ (Or.inr rfl)
    · exact Or.inl hmem

/-- In a state with the invariant the decrement `--end_page_free` does not
wrap. -/
theorem bump_decrement (s : State) (held : List (Nat × Nat)) (inv : Inv s held) (id : Nat)
    (hid : id ≤ POWER_LARGEST) (hp : (s.slabclass id).end_page_ptr ≠ 0) :
    ((s.slabclass id).end_page_free + UINT_MOD - 1) % UINT_MOD
      = (s.slabclass id).end_page_free - 1 := by
  obtain ⟨_, gp⟩ := inv.geom id hid
  rcases inv.bump id hid with ⟨h0, _⟩ | ⟨_, _, h1, hP, _⟩
  · exact absurd h0 hp
  have hle : (2 : Nat) ^ (POWER_LARGEST - id) ≤ 2 ^ 20 :=
    Nat.pow_le_pow_right (by norm_num) (by unfold POWER_LARGEST; omega)
  rw [gp] at hP
  have h20 : (2 : Nat) ^ 20 = 1048576 := by norm_num
  unfold UINT_MOD
  omega

/-- The bump branch of `alloc_serve` keeps the invariant; the served chunk is
non-null and becomes held. -/
theorem inv_bump (s : State) (held : List (Nat × Nat)) (inv : Inv s held) (id : Nat)
    (hid : id ≤ POWER_LARGEST) (hc : (s.slabclass id).sl_curr = 0)
    (hp : (s.slabclass id).end_page_ptr ≠ 0) :
    Inv (alloc_serve id s).2
        (if (alloc_serve id s).1 = 0 then held else ((alloc_serve id s).1, id) :: held) ∧
      IsChunk (s.slabclass id) (alloc_serve id s).1 ∧ ((alloc_serve id s).1, id) ∉ held := by
  rw [alloc_serve_bump id s hc hp, bump_decrement s held inv id hid hp]
  dsimp only
  rw [if_neg hp]
  refine inv_bump_core s held inv id hid hc hp _ ⟨rfl, rfl, rfl, rfl⟩ rfl rfl rfl ?_ ?_
  · intro h; exact if_pos h
  · intro h; exact if_neg (by simpa using h)

/-- Every branch of `alloc_serve` keeps the invariant, and a non-null result
is a chunk of the class that the caller did not hold. -/
theorem inv_serve (s : State) (held : List (Nat × Nat)) (inv : Inv s held) (id : Nat)
    (hid : id ≤ POWER_LARGEST) :
    Inv (alloc_serve id s).2
        (if (alloc_serve id s).1 = 0 then held else ((alloc_serve id s).1, id) :: held) ∧
      ((alloc_serve id s).1 ≠ 0 →
        IsChunk (s.slabclass id) (alloc_serve id s).1 ∧ ((alloc_serve id s).1, id) ∉ held) := by
  by_cases hc : (s.slabclass id).sl_curr ≠ 0
  · obtain ⟨a, b, c⟩ := inv_pop s held inv id hid hc
    exact ⟨a, fun _ => ⟨b, c⟩⟩
  · have hc0 : (s.slabclass id).sl_curr = 0 := by omega
    by_cases hp : (s.slabclass id).end_page_ptr ≠ 0
    · obtain ⟨a, b, c⟩ := inv_bump s held inv id hid hc0 hp
      exact ⟨a, fun _ => ⟨b, c⟩⟩
    · have hp0 : (s.slabclass id).end_page_ptr = 0 := by omega
      rw [alloc_serve_none id s hc0 hp0]
      exact ⟨by rw [if_pos rfl]; exact inv, fun h => absurd rfl h⟩

/-- A failing `slabs_newslab` keeps the invariant. -/
theorem inv_newslab_fail (s : State) (held : List (Nat × Nat)) (inv : Inv s held) (e : Env)
    (id : Nat) (h : (slabs_newslab e id s).1 = 0) : Inv (slabs_newslab e id s).2 held := by
  obtain ⟨_, _, hother, n, hcl⟩ := slabs_newslab_fail e id s h
  have cls : ∀ j, SameLayout (s.slabclass j) ((slabs_newslab e id s).2.slabclass j) ∧
      SameBump (s.slabclass j) ((slabs_newslab e id s).2.slabclass j) ∧
      free_list ((slabs_newslab e id s).2.slabclass j) = free_list (s.slabclass j) := by
    intro j
    by_cases hj : j = id
    · subst hj; rw [hcl]; exact ⟨⟨rfl, rfl, rfl, rfl⟩, ⟨rfl, rfl⟩, rfl⟩
    · rw [hother j hj]; exact ⟨⟨rfl, rfl, rfl, rfl⟩, ⟨rfl, rfl⟩, rfl⟩
  refine inv_same_region s _ held held inv (fun j => (cls j).1) (fun j => (cls j).2.1) ?_ ?_
    (fun _ _ h => Or.inl h) inv.held_nodup
  · intro j hj a ha
    rw [(cls j).2.2] at ha
    exact ⟨Or.inl ha, (inv.free_chunks j hj a ha).2.2⟩
  · intro j hj
    rw [(cls j).2.2]
    exact inv.free_nodup j hj

theorem freshBlock_index (s : State) (b : Nat) (h : FreshBlock s b) (j i : Nat)
    (hj : j ≤ POWER_LARGEST) (hi : i < (s.slabclass j).slabs) :
    b + POWER_BLOCK ≤ (s.slabclass j).slab_list i ∨
      (s.slabclass j).slab_list i + POWER_BLOCK ≤ b := by
  apply h j (List.mem_range.mpr (by omega))
  unfold slab_bases
  exact List.mem_map.mpr ⟨i, List.mem_range.mpr hi, rfl⟩

/-- A successful `slabs_newslab` keeps the invariant when the new block
overlaps no recorded slab. -/
theorem inv_newslab_ok (s : State) (held : List (Nat × Nat)) (inv : Inv s held) (e : Env)
    (id : Nat) (hid : id ≤ POWER_LARGEST) (h : (slabs_newslab e id s).1 ≠ 0)
    (hfresh : FreshBlock s e.malloc_ptr) : Inv (slabs_newslab e id s).2 held := by
  obtain ⟨_, _, hptr, _, _, hother, n, hcl⟩ := slabs_newslab_ok e id s h
  obtain ⟨gs, gp⟩ := inv.geom id hid
  have hid20 : id ≤ 20 := hid
  have fr := freshBlock_index s e.malloc_ptr hfresh
  generalize (slabs_newslab e id s).2 = t at hother hcl ⊢
  generalize e.malloc_ptr = b at hptr hcl fr
  have hlist : ∀ i, i < (s.slabclass id).slabs →
      (t.slabclass id).slab_list i = (s.slabclass id).slab_list i := by
    intro i hi
    rw [hcl]
    exact store_other _ _ _ _ (by omega)
  have hnew : (t.slabclass id).slab_list (s.slabclass id).slabs = b := by
    rw [hcl]; exact store_same _ _ _
  have hslabs : (t.slabclass id).slabs = (s.slabclass id).slabs + 1 := by rw [hcl]
  have hfl : ∀ j, free_list (t.slabclass j) = free_list (s.slabclass j) := by
    intro j
    by_cases hj : j = id
    · subst hj; rw [hcl]; rfl
    · rw [hother j hj]
  refine inv_transfer s t held held inv ?_ ?_ ?_ ?_ ?_ ?_ ?_ (fun _ _ h => Or.inl h)
    inv.held_nodup
  · intro j
    by_cases hj : j = id
    · subst hj; rw [hcl]; exact ⟨rfl, rfl⟩
    · rw [hother j hj]; exact ⟨rfl, rfl⟩
  · -- the slabs of the new table are disjoint
    have old : ∀ j i, j ≤ POWER_LARGEST → i < (t.slabclass j).slabs →
        (j = id ∧ i = (s.slabclass id).slabs ∧ (t.slabclass j).slab_list i = b) ∨
        (i < (s.slabclass j).slabs ∧ (t.slabclass j).slab_list i = (s.slabclass j).slab_list i) := by
      intro j i _ hi
      by_cases hj : j = id
      · subst hj
        by_cases hin : i = (s.slabclass j).slabs
        · left; exact ⟨rfl, hin, by rw [hin]; exact hnew⟩
        · right
          have : i < (s.slabclass j).slabs := by omega
          exact ⟨this, hlist i this⟩
      · right
        rw [hother j hj] at hi ⊢
        exact ⟨hi, rfl⟩
    intro j i j2 i2 hj hj2 hi hi2 hne
    rcases old j i hj hi with ⟨e1, e2, e3⟩ | ⟨o1, o2⟩
    · rcases old j2 i2 hj2 hi2 with ⟨f1, f2, f3⟩ | ⟨p1, p2⟩
      · omega
      · rw [e3, p2]; exact fr j2 i2 hj2 p1
    · rcases old j2 i2 hj2 hi2 with ⟨f1, f2, f3⟩ | ⟨p1, p2⟩
      · rw [o2, f3]; exact (fr j i hj o1).symm
      · rw [o2, p2]; exact inv.blocks j i j2 i2 hj hj2 o1 p1 hne
  · intro j hj
    by_cases hji : j = id
    · subst hji
      rw [hcl]
      right
      refine ⟨hptr, Nat.succ_pos _, ?_, le_refl _, ?_⟩
      · show 1 ≤ (s.slabclass j).perslab
        rw [gp]; exact Nat.one_le_two_pow
      · show b = store _ _ b ((s.slabclass j).slabs + 1 - 1)
            + ((s.slabclass j).perslab - (s.slabclass j).perslab) * (s.slabclass j).size
        rw [Nat.add_sub_cancel, store_same, Nat.sub_self, Nat.zero_mul, Nat.add_zero]
    · rw [hother j hji]; exact inv.bump j hj
  · intro j _ a ha
    by_cases hji : j = id
    · subst hji
      obtain ⟨i, k, hi, hk, rfl⟩ := ha
      refine ⟨i, k, by omega, ?_, ?_⟩
      · rw [hcl]; exact hk
      · rw [hlist i hi, hcl]
    · rw [hother j hji]; exact ha
  · intro j hj a ha hs
    by_cases hji : j = id
    · subst hji
      obtain ⟨i, k, hi, hk, rfl⟩ := ha
      intro m hm hcon
      rw [hcl] at hm hcon
      dsimp only at hm hcon
      rw [gp] at hk hm
      rw [gs] at hcon
      have c1 := chunk_in_block j k hid20 hk
      have c2 := chunk_in_block j m hid20 hm
      have hpos : 0 < 2 ^ j := Nat.two_pow_pos j
      have := fr j i hj hi
      unfold POWER_BLOCK at this
      omega
    · rw [hother j hji]; exact hs
  · intro j hj a ha
    rw [hfl j] at ha
    exact ⟨Or.inl ha, (inv.free_chunks j hj a ha).2.2⟩
  · intro j hj
    rw [hfl j]
    exact inv.free_nodup j hj

theorem slabs_clsid_le (size : Nat) : slabs_clsid size ≤ POWER_LARGEST := by
  rcases slabs_clsid_range size with h | h
  · rw [h]; exact Nat.zero_le _
  · exact h.2

/-- A chunk that is not held and is a chunk of its class overlaps no held
chunk. -/
theorem unheld_chunk_disjoint (s : State) (held : List (Nat × Nat)) (inv : Inv s held)
    (id r : Nat) (hid : id ≤ POWER_LARGEST) (rc : IsChunk (s.slabclass id) r)
    (rh : (r, id) ∉ held) (q j : Nat) (hq : (q, j) ∈ held) :
    r + (s.slabclass id).size ≤ q ∨ q + (s.slabclass j).size ≤ r := by
  obtain ⟨hj, qc, _⟩ := inv.held_chunks q j hq
  refine chunks_disjoint s held inv id j r q hid hj rc qc ?_
  intro e1 e2
  subst e1 e2
  exact rh hq

/-- `slabs_alloc` keeps the invariant when a block it acquires overlaps no
recorded slab, and a non-null result overlaps no held chunk. -/
theorem inv_alloc (s : State) (held : List (Nat × Nat)) (inv : Inv s held) (e : Env)
    (size : Nat) (hsys : acquires e size s → FreshBlock s e.malloc_ptr) :
    Inv (slabs_alloc e size s).2 (hold (slabs_alloc e size s).1 size held) ∧
      ((slabs_alloc e size s).1 ≠ 0 → ∀ q j, (q, j) ∈ held →
        (slabs_alloc e size s).1 + (s.slabclass (slabs_clsid size)).size ≤ q ∨
          q + (s.slabclass j).size ≤ (slabs_alloc e size s).1) := by
  unfold hold
  by_cases hid0 : slabs_clsid size = 0
  · rw [slabs_alloc_unsupported e size s hid0]
    exact ⟨by rw [if_pos rfl]; exact inv, fun h => absurd rfl h⟩
  have hid := slabs_clsid_le size
  by_cases hr : (s.slabclass (slabs_clsid size)).end_page_ptr ≠ 0 ∨
      (s.slabclass (slabs_clsid size)).sl_curr ≠ 0
  · rw [slabs_alloc_ready e size s hid0 hr]
    obtain ⟨a, b⟩ := inv_serve s held inv _ hid
    refine ⟨a, fun hne q j hq => ?_⟩
    obtain ⟨rc, rh⟩ := b hne
    exact unheld_chunk_disjoint s held inv _ _ hid rc rh q j hq
  · have hp : (s.slabclass (slabs_clsid size)).end_page_ptr = 0 := by omega
    have hc : (s.slabclass (slabs_clsid size)).sl_curr = 0 := by omega
    have hgrow := slabs_alloc_grow e size s hid0 hp hc
    by_cases hn : (slabs_newslab e (slabs_clsid size) s).1 = 0
    · rw [hgrow, if_pos hn]
      exact ⟨by rw [if_pos rfl]; exact inv_newslab_fail s held inv e _ hn,
        fun h => absurd rfl h⟩
    · obtain ⟨_, _, _, _, _, _, n, hcl⟩ := slabs_newslab_ok e _ s hn
      obtain ⟨_, _, _, c, p, f, scl⟩ := alloc_serve_frame (slabs_clsid size)
        (slabs_newslab e (slabs_clsid size) s).2
      have hacq : acquires e size s := by
        unfold acquires
        rw [hgrow, if_neg hn, scl, hcl]
        show (s.slabclass (slabs_clsid size)).slabs + 1 ≠ _
        omega
      have inv1 := inv_newslab_ok s held inv e _ hid hn (hsys hacq)
      have hsize := fun j => ((slabs_newslab_frame e (slabs_clsid size) s).2.2 j).1
      rw [hgrow, if_neg hn]
      obtain ⟨a, b⟩ := inv_serve _ held inv1 _ hid
      refine ⟨a, fun hne q j hq => ?_⟩
      obtain ⟨rc, rh⟩ := b hne
      have := unheld_chunk_disjoint _ held inv1 _ _ hid rc rh q j hq
      rw [hsize, hsize] at this
      exact this

/-- Every run that respects the caller contract satisfies the invariant. -/
theorem owned_inv (s : State) (held : List (Nat × Nat)) (h : Owned s held) : Inv s held := by
  induction h with
  | init limit s0 => exact inv_init limit s0
  | alloc e size _ hsys ih => exact (inv_alloc _ _ ih e size hsys).1
  | free ok ptr size _ hh ih => exact inv_free _ _ ih ok ptr size hh

/-! ## Claim C4 -/

/-- C4 (exclusive ownership): in every run of `slabs_alloc` and `slabs_free` calls
after `slabs_init` in which each free releases a currently held chunk with a size
of the class it was allocated with and the system hands out pairwise disjoint
blocks, a chunk returned by `slabs_alloc` overlaps no chunk the caller holds:
the chunk size of class `id` is `2^id`, and the byte ranges `[r, r + 2^id)` of
the returned chunk and `[q, q + 2^j)` of any held chunk `q` of class `j` (the
same or another class) are disjoint. -/
theorem alloc_exclusive (s : State) (held : List (Nat × Nat)) (h : Owned s held) (e : Env)
    (size : Nat) (hsys : acquires e size s → FreshBlock s e.malloc_ptr)
    (hr : (slabs_alloc e size s).1 ≠ 0) (q j : Nat) (hq : (q, j) ∈ held) :
    (s.slabclass (slabs_clsid size)).size = 2 ^ slabs_clsid size ∧
    (s.slabclass j).size = 2 ^ j ∧
    ((slabs_alloc e size s).1 + 2 ^ slabs_clsid size ≤ q ∨
      q + 2 ^ j ≤ (slabs_alloc e size s).1) := by
  have inv := owned_inv s held h
  have g1 := (inv.geom _ (slabs_clsid_le size)).1
  have g2 := (inv.geom j (inv.held_chunks q j hq).1).1
  have hd := (inv_alloc s held inv e size hsys).2 hr q j hq
  rw [g1, g2] at hd
  exact ⟨g1, g2, hd⟩

theorem alloc_exclusive_witness :
    (slabs_alloc ⟨true, 0⟩ 8 (slabs_alloc ⟨true, 1048576⟩ 8 (slabs_init 0 initial)).2).1
        + 2 ^ slabs_clsid 8 ≤ 1048576 ∨
      1048576 + 2 ^ 3
        ≤ (slabs_alloc ⟨true, 0⟩ 8 (slabs_alloc ⟨true, 1048576⟩ 8 (slabs_init 0 initial)).2).1 :=
  (alloc_exclusive _ _
    (Owned.alloc ⟨true, 1048576⟩ 8 (Owned.init 0 initial) (fun _ => by decide))
    ⟨true, 0⟩ 8 (fun _ => by decide) (by decide) 1048576 3 (by decide)).2.2

/-! ## Claim C5 -/

/-- Along every run the ceiling stays the one given to `slabs_init`, and a
nonzero ceiling bounds the byte counter. -/
theorem reachable_mem (limit : Nat) (s : State) (h : Reachable limit s) :
    s.mem_limit = limit ∧ (limit ≠ 0 → s.mem_malloced ≤ limit) := by
  have step : ∀ t u : State, t.mem_limit = limit ∧ (limit ≠ 0 → t.mem_malloced ≤ limit) →
      u.mem_limit = t.mem_limit →
      (u.mem_malloced = t.mem_malloced ∨
        (¬ over_budget t ∧ u.mem_malloced = (t.mem_malloced + POWER_BLOCK) % UINT_MOD)) →
      u.mem_limit = limit ∧ (limit ≠ 0 → u.mem_malloced ≤ limit) := by
    intro t u ⟨tl, tm⟩ hl hm
    refine ⟨hl.trans tl, fun hne => ?_⟩
    rcases hm with hm | ⟨hb, hm⟩
    · rw [hm]; exact tm hne
    · rw [hm]
      unfold over_budget at hb
      rw [tl] at hb
      by_contra hcon
      exact hb ⟨hne, by omega⟩
  induction h with
  | init => exact ⟨rfl, fun _ => Nat.zero_le _⟩
  | alloc e size _ ih =>
    obtain ⟨hl, hm, _⟩ := slabs_alloc_frame e size _
    exact step _ _ ih hl hm
  | free ok ptr size _ ih =>
    obtain ⟨hl, hm, _⟩ := slabs_free_frame ok ptr size _
    exact step _ _ ih hl (Or.inl hm)
  | newslab e id _ _ ih =>
    obtain ⟨hl, hm, _⟩ := slabs_newslab_frame e id _
    exact step _ _ ih hl hm

/-- C5 (ceiling invariant on the counter): in every state reached from the
initial state of the program by `slabs_init(ceiling)` with a nonzero ceiling
followed by any sequence of `slabs_alloc`, `slabs_free` and `slabs_newslab`
calls, `mem_malloced ≤ mem_limit`. -/
theorem mem_malloced_le_mem_limit (ceiling : Nat) (s : State) (hne : ceiling ≠ 0)
    (h : Reachable ceiling s) : s.mem_malloced ≤ s.mem_limit := by
  obtain ⟨hl, hm⟩ := reachable_mem ceiling s h
  rw [hl]; exact hm hne

theorem mem_malloced_le_mem_limit_witness :
    (slabs_alloc ⟨true, 1048576⟩ 8 (slabs_init 1048576 initial)).2.mem_malloced
      ≤ (slabs_alloc ⟨true, 1048576⟩ 8 (slabs_init 1048576 initial)).2.mem_limit :=
  mem_malloced_le_mem_limit 1048576 _ (by decide) (Reachable.alloc _ _ Reachable.init)

/-! ## Claim C6: the byte budget and the 32-bit wrap -/

theorem grow_slab_list_ok (id : Nat) (s : State) : (grow_slab_list true id s).1 = 1 := by
  by_cases h : (s.slabclass id).slabs = (s.slabclass id).list_size
  · rw [grow_slab_list_full true id s h]; rfl
  · rw [grow_slab_list_room true id s h]

/-- When the ceiling test passes and the C library grants both requests,
`slabs_newslab` succeeds. -/
theorem slabs_newslab_succeeds (e : Env) (id : Nat) (s : State) (hb : ¬ over_budget s)
    (hr : e.realloc_ok = true) (hm : e.malloc_ptr ≠ 0) : (slabs_newslab e id s).1 = 1 := by
  have hg : ¬ (grow_slab_list e.realloc_ok id s).1 = 0 := by
    rw [hr, grow_slab_list_ok]; exact Nat.one_ne_zero
  rw [slabs_newslab_unfold, if_neg hb, if_neg hg, if_neg hm]

set_option maxRecDepth 100000 in
theorem slabs_clsid_block : slabs_clsid POWER_BLOCK = 20 := by
  decide

/-- With the ceiling `2^32 - 1` the test of `slabs_newslab` never fires: a value
reduced modulo `2^32` cannot exceed it. -/
theorem not_over_budget_max (s : State) (h : s.mem_limit = 4294967295) : ¬ over_budget s := by
  unfold over_budget
  rw [h]
  intro hcon
  have := Nat.mod_lt (s.mem_malloced + POWER_BLOCK) (show UINT_MOD > 0 by decide)
  unfold UINT_MOD at this hcon
  omega

/-- The state after `n` block-sized allocations under the ceiling `2^32 - 1`:
class 20 holds `n` slabs and the byte counter is `n * 2^20` modulo `2^32`. -/
theorem alloc_blocks_state (n : Nat) :
    Reachable 4294967295 (alloc_blocks n (slabs_init 4294967295 initial)) ∧
    (alloc_blocks n (slabs_init 4294967295 initial)).mem_limit = 4294967295 ∧
    (alloc_blocks n (slabs_init 4294967295 initial)).mem_malloced
      = (n * POWER_BLOCK) % UINT_MOD ∧
    ((alloc_blocks n (slabs_init 4294967295 initial)).slabclass 20).slabs = n ∧
    ((alloc_blocks n (slabs_init 4294967295 initial)).slabclass 20).sl_curr = 0 ∧
    ((alloc_blocks n (slabs_init 4294967295 initial)).slabclass 20).end_page_ptr = 0 ∧
    ((alloc_blocks n (slabs_init 4294967295 initial)).slabclass 20).perslab = 1 := by
  induction n with
  | zero =>
    simp only [alloc_blocks]
    rw [slabs_init_class _ _ 20 (by decide)]
    exact ⟨Reachable.init, rfl, rfl, rfl, rfl, rfl, rfl⟩
  | succ n ih =>
    obtain ⟨hr, hl, hm, hs, hc, hp, hper⟩ := ih
    simp only [alloc_blocks]
    generalize alloc_blocks n (slabs_init 4294967295 initial) = t at hr hl hm hs hc hp hper ⊢
    have hid : slabs_clsid POWER_BLOCK ≠ 0 := by rw [slabs_clsid_block]; decide
    have hptr : (n + 1) * POWER_BLOCK ≠ 0 := by unfold POWER_BLOCK; omega
    have hb := not_over_budget_max t hl
    have h1 := slabs_newslab_succeeds ⟨true, (n + 1) * POWER_BLOCK⟩ 20 t hb rfl hptr
    have hne : (slabs_newslab ⟨true, (n + 1) * POWER_BLOCK⟩ 20 t).1 ≠ 0 := by rw [h1]; decide
    obtain ⟨_, _, _, nl, nm, _, k, ncl⟩ := slabs_newslab_ok _ 20 t hne
    refine ⟨Reachable.alloc _ _ hr, ?_⟩
    rw [slabs_alloc_grow _ _ t hid (by rw [slabs_clsid_block]; exact hp)
      (by rw [slabs_clsid_block]; exact hc), slabs_clsid_block, if_neg hne]
    have sc : ((slabs_newslab ⟨true, (n + 1) * POWER_BLOCK⟩ 20 t).2.slabclass 20).sl_curr = 0 := by
      rw [ncl]; exact hc
    have sp : ((slabs_newslab ⟨true, (n + 1) * POWER_BLOCK⟩ 20 t).2.slabclass 20).end_page_ptr
        ≠ 0 := by rw [ncl]; exact hptr
    rw [alloc_serve_bump 20 _ sc sp]
    refine ⟨nl.trans hl, ?_, ?_, ?_, ?_, ?_⟩
    · show (slabs_newslab ⟨true, (n + 1) * POWER_BLOCK⟩ 20 t).2.mem_malloced = _
      rw [nm, hm, Nat.mod_add_mod, Nat.succ_mul]
    · rw [setClass_same, ncl]; exact congrArg (· + 1) hs
    · rw [setClass_same, ncl]; exact hc
    · rw [setClass_same, ncl]
      dsimp only
      rw [hper]
      rfl
    · rw [setClass_same, ncl]; exact hper

theorem range_sum_bump (f g : Nat → Nat) (id : Nat)
    (h : ∀ j, g j = f j + if j = id then 1 else 0) : ∀ n,
    ((List.range n).map g).sum = ((List.range n).map f).sum + if id < n then 1 else 0 := by
  intro n
  induction n with
  | zero => simp
  | succ n ih =>
    rw [List.range_succ, List.map_append, List.map_append, List.sum_append, List.sum_append, ih]
    simp only [List.map_cons, List.map_nil, List.sum_cons, List.sum_nil, Nat.add_zero]
    rw [h n]
    split_ifs <;> omega

theorem range_sum_ge (f : Nat → Nat) (id : Nat) : ∀ n, id < n →
    f id ≤ ((List.range n).map f).sum := by
  intro n
  induction n with
  | zero => intro h; exact absurd h (Nat.not_lt_zero _)
  | succ n ih =>
    intro h
    rw [List.range_succ, List.map_append, List.sum_append]
    simp only [List.map_cons, List.map_nil, List.sum_cons, List.sum_nil, Nat.add_zero]
    by_cases hn : id = n
    · subst hn; omega
    · have := ih (by omega); omega

theorem slabs_le_total (s : State) (id : Nat) (hid : id ≤ POWER_LARGEST) :
    (s.slabclass id).slabs ≤ total_slabs s :=
  range_sum_ge (fun j => (s.slabclass j).slabs) id (POWER_LARGEST + 1) (by omega)

theorem total_slabs_congr (s t : State) (h : ∀ j, (t.slabclass j).slabs = (s.slabclass j).slabs) :
    total_slabs t = total_slabs s := by
  unfold total_slabs
  have : (fun id => (t.slabclass id).slabs) = (fun id => (s.slabclass id).slabs) := funext h
  rw [this]

theorem countStep_newslab (e : Env) (id : Nat) (s : State) (hid : id ≤ POWER_LARGEST) :
    CountStep s (slabs_newslab e id s).2 := by
  by_cases h : (slabs_newslab e id s).1 = 0
  · obtain ⟨_, hm, hother, n, hcl⟩ := slabs_newslab_fail e id s h
    left
    refine ⟨fun j => ?_, hm⟩
    by_cases hj : j = id
    · subst hj; rw [hcl]
    · rw [hother j hj]
  · obtain ⟨_, hb, _, _, hm, hother, n, hcl⟩ := slabs_newslab_ok e id s h
    right
    refine ⟨hb, ?_, hm⟩
    unfold total_slabs
    rw [range_sum_bump (fun j => (s.slabclass j).slabs)
      (fun j => ((slabs_newslab e id s).2.slabclass j).slabs) id ?_ (POWER_LARGEST + 1)]
    · rw [if_pos (by omega)]
    · intro j
      dsimp only
      by_cases hj : j = id
      · subst hj; rw [hcl, if_pos rfl]
      · rw [hother j hj, if_neg hj]; rfl

theorem alloc_serve_slabs (id : Nat) (s : State) (j : Nat) :
    ((alloc_serve id s).2.slabclass j).slabs = (s.slabclass j).slabs := by
  obtain ⟨_, _, hother, c, p, f, hcl⟩ := alloc_serve_frame id s
  by_cases hj : j = id
  · subst hj; rw [hcl]
  · rw [hother j hj]

theorem countStep_alloc (e : Env) (size : Nat) (s : State) :
    CountStep s (slabs_alloc e size s).2 := by
  by_cases hid : slabs_clsid size = 0
  · rw [slabs_alloc_unsupported e size s hid]
    exact Or.inl ⟨fun _ => rfl, rfl⟩
  · by_cases hr : (s.slabclass (slabs_clsid size)).end_page_ptr ≠ 0 ∨
        (s.slabclass (slabs_clsid size)).sl_curr ≠ 0
    · rw [slabs_alloc_ready e size s hid hr]
      exact Or.inl ⟨alloc_serve_slabs _ s, (alloc_serve_frame _ s).2.1⟩
    · have hp : (s.slabclass (slabs_clsid size)).end_page_ptr = 0 := by omega
      have hc : (s.slabclass (slabs_clsid size)).sl_curr = 0 := by omega
      rw [slabs_alloc_grow e size s hid hp hc]
      have hn := countStep_newslab e (slabs_clsid size) s (slabs_clsid_le size)
      by_cases h0 : (slabs_newslab e (slabs_clsid size) s).1 = 0
      · rw [if_pos h0]; exact hn
      · rw [if_neg h0]
        rcases hn with ⟨a, b⟩ | ⟨a, b, c⟩
        · left
          exact ⟨fun j => (alloc_serve_slabs _ _ j).trans (a j),
            ((alloc_serve_frame _ _).2.1).trans b⟩
        · right
          refine ⟨a, ?_, ((alloc_serve_frame _ _).2.1).trans c⟩
          rw [total_slabs_congr _ _ (alloc_serve_slabs _ _), b]

/-- Along every run the byte counter is `POWER_BLOCK` times the number of
recorded slabs, as long as the ceiling is nonzero and more than one block below
`2^32`, so that the counter cannot wrap. -/
theorem reachable_count (limit : Nat) (hne : limit ≠ 0) (hlt : limit + POWER_BLOCK < UINT_MOD)
    (s : State) (h : Reachable limit s) :
    s.mem_malloced = POWER_BLOCK * total_slabs s := by
  have step : ∀ t u : State, Reachable limit t → t.mem_malloced = POWER_BLOCK * total_slabs t →
      CountStep t u → u.mem_malloced = POWER_BLOCK * total_slabs u := by
    intro t u hr ht hs
    rcases hs with ⟨a, b⟩ | ⟨_, b, c⟩
    · rw [b, total_slabs_congr t u a]; exact ht
    · have hle := (reachable_mem limit t hr).2 hne
      rw [c, b, Nat.mul_add, Nat.mul_one, ← ht]
      exact Nat.mod_eq_of_lt (by omega)
  induction h with
  | init =>
    show 0 = POWER_BLOCK * total_slabs (slabs_init limit initial)
    have : total_slabs (slabs_init limit initial) = 0 := by
      unfold total_slabs
      apply List.sum_eq_zero
      intro x hx
      obtain ⟨j, hj, rfl⟩ := List.mem_map.mp hx
      rw [slabs_init_class limit initial j (by have := List.mem_range.mp hj; omega)]
      rfl
    rw [this]; rfl
  | alloc e size hr ih => exact step _ _ hr ih (countStep_alloc e size _)
  | free ok ptr size hr ih =>
    obtain ⟨_, hm, hcl⟩ := slabs_free_frame ok ptr size _
    exact step _ _ hr ih (Or.inl ⟨fun j => (hcl j).2.2.1, hm⟩)
  | newslab e id hid hr ih => exact step _ _ hr ih (countStep_newslab e id _ hid)

/-- The budget property for ceilings that leave room for one block below
`2^32`: the blocks of all recorded slabs add up to at most the ceiling. -/
theorem budget_respected_below_wrap (ceiling : Nat) (hne : ceiling ≠ 0)
    (hlt : ceiling + POWER_BLOCK < UINT_MOD) (s : State) (h : Reachable ceiling s) :
    POWER_BLOCK * total_slabs s ≤ ceiling := by
  rw [← reachable_count ceiling hne hlt s h]
  exact (reachable_mem ceiling s h).2 hne

/-- C6, failing run: under the nonzero ceiling `4294967295` the ceiling test
`(mem_malloced + len) mod 2^32 > mem_limit` can never fire, so 4096 calls
`slabs_alloc(1048576)` acquire 4096 slabs of class 20.  Their blocks add up to
`2^32` bytes, more than the ceiling, while `mem_malloced` has wrapped to `0`. -/
theorem budget_exceeded_by_wrap :
    Reachable 4294967295 (alloc_blocks 4096 (slabs_init 4294967295 initial)) ∧
    ((alloc_blocks 4096 (slabs_init 4294967295 initial)).slabclass 20).slabs = 4096 ∧
    (alloc_blocks 4096 (slabs_init 4294967295 initial)).mem_malloced = 0 ∧
    ¬ (POWER_BLOCK * total_slabs (alloc_blocks 4096 (slabs_init 4294967295 initial))
        ≤ 4294967295) := by
  obtain ⟨hr, _, hm, hs, _⟩ := alloc_blocks_state 4096
  generalize alloc_blocks 4096 (slabs_init 4294967295 initial) = t at hr hm hs ⊢
  refine ⟨hr, hs, ?_, ?_⟩
  · rw [hm]; decide
  · intro hcon
    have hle := slabs_le_total t 20 (by decide)
    rw [hs] at hle
    have h1 : POWER_BLOCK * 4096 ≤ POWER_BLOCK * total_slabs t := Nat.mul_le_mul_left _ hle
    exact absurd (le_trans h1 hcon) (by decide)

/-! ## Claim C7 -/

/-- C7, as stated, fails: `slabs_init` does not reset `mem_malloced`.  After
`slabs_init(0)` and one `slabs_alloc(8)` that acquires a slab, a second
`slabs_init(0)` leaves the counter at `1048576`, not at zero. -/
theorem slabs_init_keeps_mem_malloced :
    (slabs_init 0 (slabs_alloc ⟨true, 1048576⟩ 8 (slabs_init 0 initial)).2).mem_malloced
      = 1048576 ∧
    (slabs_init 0 (slabs_alloc ⟨true, 1048576⟩ 8 (slabs_init 0 initial)).2).mem_malloced
      ≠ 0 := by
  constructor
  · rfl
  · decide

/-- C7, amended: for every prior state and every ceiling, after
`slabs_init(ceiling)` the ceiling equals `ceiling` and every class `0..20` has an
empty free list, an empty slab list, zero capacities, no bump cursor and zero
`end_page_free`, independently of the prior state; `mem_malloced` is left as it
was, so it is zero when `slabs_init` runs on the initial state of the program. -/
theorem slabs_init_resets_classes (ceiling : Nat) (s : State) (id : Nat)
    (hid : id ≤ POWER_LARGEST) :
    (slabs_init ceiling s).mem_limit = ceiling ∧
    (slabs_init ceiling s).mem_malloced = s.mem_malloced ∧
    (slabs_init ceiling initial).mem_malloced = 0 ∧
    ((slabs_init ceiling s).slabclass id).sl_curr = 0 ∧
    free_list ((slabs_init ceiling s).slabclass id) = [] ∧
    ((slabs_init ceiling s).slabclass id).sl_total = 0 ∧
    ((slabs_init ceiling s).slabclass id).slabs = 0 ∧
    slab_bases ((slabs_init ceiling s).slabclass id) = [] ∧
    ((slabs_init ceiling s).slabclass id).list_size = 0 ∧
    ((slabs_init ceiling s).slabclass id).end_page_ptr = 0 ∧
    ((slabs_init ceiling s).slabclass id).end_page_free = 0 ∧
    ((slabs_init ceiling s).slabclass id).killing = 0 ∧
    (∀ t : State, (slabs_init ceiling t).slabclass id = (slabs_init ceiling s).slabclass id) := by
  have hc := slabs_init_class ceiling s id hid
  refine ⟨rfl, rfl, rfl, ?_, ?_, ?_, ?_, ?_, ?_, ?_, ?_, ?_, ?_⟩
  · rw [hc]; rfl
  · rw [hc]; rfl
  · rw [hc]; rfl
  · rw [hc]; rfl
  · rw [hc]; rfl
  · rw [hc]; rfl
  · rw [hc]; rfl
  · rw [hc]; rfl
  · rw [hc]; rfl
  · intro t
    rw [hc, slabs_init_class ceiling t id hid]

theorem slabs_init_resets_classes_witness :
    ((slabs_init 64 (slabs_alloc ⟨true, 1048576⟩ 8 (slabs_init 0 initial)).2).slabclass 3).slabs
      = 0 :=
  (slabs_init_resets_classes 64 (slabs_alloc ⟨true, 1048576⟩ 8 (slabs_init 0 initial)).2 3
    (by decide)).2.2.2.2.2.2.1

/-! ## Claim C8 -/

/-- C8 (class geometry): after `slabs_init(limit)`, for every `id` in `0..20` the
class has `size = 2^id` and `perslab = 2^20 / 2^id = 2^(20-id) ≥ 1`; and
`slabs_alloc`, `slabs_free` and `slabs_newslab` change neither field, in any
state. -/
theorem class_geometry (limit : Nat) (s : State) (id : Nat) (hid : id ≤ POWER_LARGEST) :
    ((slabs_init limit s).slabclass id).size = 2 ^ id ∧
    ((slabs_init limit s).slabclass id).perslab = POWER_BLOCK / 2 ^ id ∧
    ((slabs_init limit s).slabclass id).perslab = 2 ^ (POWER_LARGEST - id) ∧
    1 ≤ ((slabs_init limit s).slabclass id).perslab ∧
    (∀ (t : State) (e : Env) (size : Nat),
      ((slabs_alloc e size t).2.slabclass id).size = (t.slabclass id).size ∧
      ((slabs_alloc e size t).2.slabclass id).perslab = (t.slabclass id).perslab) ∧
    (∀ (t : State) (ok : Bool) (ptr size : Nat),
      ((slabs_free ok ptr size t).slabclass id).size = (t.slabclass id).size ∧
      ((slabs_free ok ptr size t).slabclass id).perslab = (t.slabclass id).perslab) ∧
    (∀ (t : State) (e : Env) (k : Nat),
      ((slabs_newslab e k t).2.slabclass id).size = (t.slabclass id).size ∧
      ((slabs_newslab e k t).2.slabclass id).perslab = (t.slabclass id).perslab) := by
  have hc := slabs_init_class limit s id hid
  have hid20 : id ≤ 20 := hid
  have hper : (init_class (2 ^ id)).perslab = 2 ^ (POWER_LARGEST - id) := by
    show POWER_BLOCK / 2 ^ id = 2 ^ (POWER_LARGEST - id)
    exact pow_div_pow id hid20
  refine ⟨by rw [hc]; rfl, by rw [hc]; rfl, by rw [hc]; exact hper, ?_, ?_, ?_, ?_⟩
  · rw [hc, hper]
    exact Nat.one_le_two_pow
  · intro t e size
    exact (slabs_alloc_frame e size t).2.2 id
  · intro t ok ptr size
    obtain ⟨a, b, _⟩ := (slabs_free_frame ok ptr size t).2.2 id
    exact ⟨a, b⟩
  · intro t e k
    obtain ⟨a, b, _⟩ := (slabs_newslab_frame e k t).2.2 id
    exact ⟨a, b⟩

theorem class_geometry_witness :
    ((slabs_init 0 initial).slabclass 3).size = 2 ^ 3 ∧
    ((slabs_init 0 initial).slabclass 3).perslab = POWER_BLOCK / 2 ^ 3 :=
  ⟨(class_geometry 0 initial 3 (by decide)).1, (class_geometry 0 initial 3 (by decide)).2.1⟩

/-! ## Claim C9 -/

/-- A bump serve followed by a second one from the same region. -/
theorem alloc_serve_bump_twice (id : Nat) (t : State) (hc : (t.slabclass id).sl_curr = 0)
    (hp : (t.slabclass id).end_page_ptr ≠ 0)
    (hleft : ((alloc_serve id t).2.slabclass id).end_page_ptr ≠ 0) :
    (alloc_serve id t).1 = (t.slabclass id).end_page_ptr ∧
    ((alloc_serve id t).2.slabclass id).sl_curr = 0 ∧
    (alloc_serve id (alloc_serve id t).2).1 = (t.slabclass id).end_page_ptr + (t.slabclass id).size := by
  rw [alloc_serve_bump id t hc hp] at hleft ⊢
  rw [setClass_same] at hleft
  have hc1 : ((t.setClass id
      { t.slabclass id with
        end_page_free := ((t.slabclass id).end_page_free + UINT_MOD - 1) % UINT_MOD,
        end_page_ptr :=
          if ((t.slabclass id).end_page_free + UINT_MOD - 1) % UINT_MOD ≠ 0
          then (t.slabclass id).end_page_ptr + (t.slabclass id).size else 0 }).slabclass id).sl_curr
      = 0 := by
    rw [setClass_same]; exact hc
  refine ⟨rfl, hc1, ?_⟩
  rw [alloc_serve_bump id _ hc1 (by rw [setClass_same]; exact hleft)]
  rw [setClass_same]
  by_cases hl : ((t.slabclass id).end_page_free + UINT_MOD - 1) % UINT_MOD ≠ 0
  · dsimp only
    rw [if_pos hl]
  · dsimp only at hleft
    rw [if_neg hl] at hleft
    exact absurd rfl hleft

/-- C9 (bump sequencing): if two consecutive `slabs_alloc` calls of one class are
both served by bump allocation from the same slab (the free list is empty at the
first call, hence at the second, and the bump region is still active after the
first call, so that the second call does not run `slabs_newslab`), the second
returned address is the first one plus the `size` of the class. -/
theorem bump_sequencing (s : State) (e1 e2 : Env) (size1 size2 : Nat)
    (hid : slabs_clsid size1 ≠ 0) (hcls : slabs_clsid size2 = slabs_clsid size1)
    (hempty : (s.slabclass (slabs_clsid size1)).sl_curr = 0)
    (hsame : ((slabs_alloc e1 size1 s).2.slabclass (slabs_clsid size1)).end_page_ptr ≠ 0) :
    ((slabs_alloc e1 size1 s).2.slabclass (slabs_clsid size1)).sl_curr = 0 ∧
    (slabs_alloc e2 size2 (slabs_alloc e1 size1 s).2).1
      = (slabs_alloc e1 size1 s).1 + (s.slabclass (slabs_clsid size1)).size := by
  have hid2 : slabs_clsid size2 ≠ 0 := by rw [hcls]; exact hid
  have second : ∀ u : State, (u.slabclass (slabs_clsid size1)).end_page_ptr ≠ 0 →
      slabs_alloc e2 size2 u = alloc_serve (slabs_clsid size1) u := by
    intro u hu
    rw [slabs_alloc_ready e2 size2 u hid2 (by rw [hcls]; exact Or.inl hu), hcls]
  by_cases hp : (s.slabclass (slabs_clsid size1)).end_page_ptr ≠ 0
  · rw [slabs_alloc_ready e1 size1 s hid (Or.inl hp)] at hsame ⊢
    obtain ⟨a, b, c⟩ := alloc_serve_bump_twice _ s hempty hp hsame
    rw [second _ hsame, a, c]
    exact ⟨b, rfl⟩
  · have hp0 : (s.slabclass (slabs_clsid size1)).end_page_ptr = 0 := by omega
    rw [slabs_alloc_grow e1 size1 s hid hp0 hempty] at hsame ⊢
    by_cases hn : (slabs_newslab e1 (slabs_clsid size1) s).1 = 0
    · rw [if_pos hn] at hsame
      obtain ⟨_, _, _, n, hcl⟩ := slabs_newslab_fail e1 _ s hn
      rw [hcl] at hsame
      exact absurd hp0 hsame
    · rw [if_neg hn] at hsame ⊢
      obtain ⟨_, _, hm, _, _, _, n, hcl⟩ := slabs_newslab_ok e1 _ s hn
      have hc1 : ((slabs_newslab e1 (slabs_clsid size1) s).2.slabclass (slabs_clsid size1)).sl_curr
          = 0 := by rw [hcl]; exact hempty
      have hp1 : ((slabs_newslab e1 (slabs_clsid size1) s).2.slabclass
          (slabs_clsid size1)).end_page_ptr ≠ 0 := by rw [hcl]; exact hm
      obtain ⟨a, b, c⟩ := alloc_serve_bump_twice _ _ hc1 hp1 hsame
      rw [second _ hsame, a, c]
      refine ⟨b, ?_⟩
      rw [hcl]

theorem bump_sequencing_witness :
    (slabs_alloc ⟨true, 0⟩ 5 (slabs_alloc ⟨true, 1048576⟩ 8 (slabs_init 0 initial)).2).1
      = (slabs_alloc ⟨true, 1048576⟩ 8 (slabs_init 0 initial)).1
        + ((slabs_init 0 initial).slabclass (slabs_clsid 8)).size :=
  (bump_sequencing (slabs_init 0 initial) ⟨true, 1048576⟩ ⟨true, 0⟩ 8 5
    (by decide) (by decide) (by decide) (by decide)).2

/-! ## Claim C10 -/

theorem stats_loop_spec (s : State) (n : Nat) : ∀ (i : Nat) (acc : List class_stat × Nat),
    stats_loop n i s acc =
      (acc.1 ++ (active_ids s i n).map (fun j => class_lines j (s.slabclass j)),
        acc.2 + (active_ids s i n).length) := by
  induction n with
  | zero =>
    intro i acc
    simp [stats_loop, active_ids]
  | succ n ih =>
    intro i acc
    by_cases h : (s.slabclass i).slabs ≠ 0
    · have e : active_ids s i (n + 1) = i :: active_ids s (i + 1) n := by
        simp [active_ids, List.range'_succ, List.filter_cons, h]
      rw [e]
      show (if (s.slabclass i).slabs ≠ 0 then _ else _) = _
      rw [if_pos h, ih]
      simp only [List.map_cons, List.length_cons, List.append_assoc, List.singleton_append]
      congr 1
      omega
    · have e : active_ids s i (n + 1) = active_ids s (i + 1) n := by
        simp only [active_ids, List.range'_succ, List.filter_cons]
        simp only [h, decide_False, Bool.false_eq_true, if_false]
      rw [e]
      show (if (s.slabclass i).slabs ≠ 0 then _ else _) = _
      rw [if_neg h, ih]

/-- The report of `slabs_stats` in closed form. -/
theorem slabs_stats_eq (s : State) :
    slabs_stats true s =
      some { classes := (active_ids s 3 18).map (fun j => class_lines j (s.slabclass j)),
             active_slabs := (active_ids s 3 18).length,
             total_malloced := s.mem_malloced } := by
  unfold slabs_stats
  rw [if_neg (by decide)]
  simp only [POWER_LARGEST, POWER_SMALLEST]
  rw [stats_loop_spec]
  simp

theorem mem_active_ids (s : State) (j : Nat) :
    j ∈ active_ids s 3 18 ↔ (3 ≤ j ∧ j ≤ 20) ∧ (s.slabclass j).slabs ≠ 0 := by
  unfold active_ids
  rw [List.mem_filter, List.mem_range'_1]
  simp only [ne_eq, decide_not, Bool.not_eq_true', decide_eq_false_iff_not]
  constructor
  · rintro ⟨⟨a, b⟩, c⟩; exact ⟨⟨a, by omega⟩, c⟩
  · rintro ⟨⟨a, b⟩, c⟩; exact ⟨⟨a, by omega⟩, c⟩

/-- C10, as stated, fails on `used_chunks`: the report computes it in `unsigned
int` arithmetic.  After `slabs_init(0)`, one `slabs_alloc(1048576)` (class 20, one
chunk per slab) and two `slabs_free` calls of the chunk, class 20 has one slab
and two free-list entries, and the report shows `used_chunks = 4294967295`,
which is not `1 * 1 - 2`. -/
theorem slabs_stats_used_chunks_wraps :
    slabs_stats true
        (slabs_free true 1048576 1048576
          (slabs_free true 1048576 1048576
            (slabs_alloc ⟨true, 1048576⟩ 1048576 (slabs_init 0 initial)).2))
      = some { classes :=
                 [{ id := 20, chunk_size := 1048576, chunks_per_page := 1, total_pages := 1,
                    total_chunks := 1, used_chunks := 4294967295, free_chunks := 2,
                    free_chunks_end := 0 }],
               active_slabs := 1, total_malloced := 1048576 } ∧
    ((4294967295 : Nat) : Int) ≠ ((1 : Nat) : Int) * ((1 : Nat) : Int) - ((2 : Nat) : Int) := by
  constructor
  · decide
  · decide

/-- C10, amended: for every state and every class `id` in `3..20`, the report has
lines for `id` exactly when the class has a slab, and then they show
`total_pages = slabs`, `free_chunks = sl_curr`, `free_chunks_end = end_page_free`,
`total_chunks = slabs * perslab` and `used_chunks = slabs * perslab - sl_curr`
computed modulo `2^32`; the last two are the exact values whenever
`sl_curr ≤ slabs * perslab < 2^32`.  `active_slabs` is the number of classes in
`3..20` with a slab and `total_malloced` is `mem_malloced`.  The report has nothing
else: the ids of its lines are, in order and once each, the classes in `3..20`
with a slab, so every line belongs to such a class, a class without a slab
(whatever its index) has no line, and `active_slabs` is the number of lines. -/
theorem slabs_stats_consistent (s : State) (id : Nat) (h3 : POWER_SMALLEST ≤ id)
    (h20 : id ≤ POWER_LARGEST) :
    ∃ r, slabs_stats true s = some r ∧
      r.total_malloced = s.mem_malloced ∧
      r.active_slabs
        = ((List.range' 3 18).filter (fun j => (s.slabclass j).slabs ≠ 0)).length ∧
      ((s.slabclass id).slabs = 0 → ∀ c ∈ r.classes, c.id ≠ id) ∧
      ((s.slabclass id).slabs ≠ 0 →
        (∃ c ∈ r.classes, c.id = id) ∧
        ∀ c ∈ r.classes, c.id = id →
          c.chunk_size = (s.slabclass id).size ∧
          c.chunks_per_page = (s.slabclass id).perslab ∧
          c.total_pages = (s.slabclass id).slabs ∧
          c.free_chunks = (s.slabclass id).sl_curr ∧
          c.free_chunks_end = (s.slabclass id).end_page_free ∧
          c.total_chunks = ((s.slabclass id).slabs * (s.slabclass id).perslab) % UINT_MOD ∧
          c.used_chunks =
            (((s.slabclass id).slabs * (s.slabclass id).perslab) % UINT_MOD + UINT_MOD
              - (s.slabclass id).sl_curr % UINT_MOD) % UINT_MOD ∧
          ((s.slabclass id).slabs * (s.slabclass id).perslab < UINT_MOD →
            (s.slabclass id).sl_curr ≤ (s.slabclass id).slabs * (s.slabclass id).perslab →
            c.total_chunks = (s.slabclass id).slabs * (s.slabclass id).perslab ∧
            c.used_chunks
              = (s.slabclass id).slabs * (s.slabclass id).perslab - (s.slabclass id).sl_curr)) ∧
      r.classes.map (fun c => c.id)
        = (List.range' 3 18).filter (fun j => (s.slabclass j).slabs ≠ 0) ∧
      (∀ c ∈ r.classes,
        POWER_SMALLEST ≤ c.id ∧ c.id ≤ POWER_LARGEST ∧ (s.slabclass c.id).slabs ≠ 0) ∧
      (∀ j, (s.slabclass j).slabs = 0 → ∀ c ∈ r.classes, c.id ≠ j) ∧
      r.active_slabs = r.classes.length := by
  have hall : ∀ c ∈ (active_ids s 3 18).map (fun j => class_lines j (s.slabclass j)),
      POWER_SMALLEST ≤ c.id ∧ c.id ≤ POWER_LARGEST ∧ (s.slabclass c.id).slabs ≠ 0 := by
    intro c hc
    rw [List.mem_map] at hc
    obtain ⟨j, hj, rfl⟩ := hc
    rw [mem_active_ids] at hj
    exact ⟨hj.1.1, hj.1.2, hj.2⟩
  refine ⟨_, slabs_stats_eq s, rfl, rfl, ?_, ?_, ?_, hall, ?_, ?_⟩
  rotate_left 2
  · show List.map (fun c => c.id)
        ((active_ids s 3 18).map (fun j => class_lines j (s.slabclass j))) = active_ids s 3 18
    rw [List.map_map]
    exact List.map_id _
  · intro j h0 c hc hcon
    have h := (hall c hc).2.2
    rw [hcon] at h
    exact h h0
  · show (active_ids s 3 18).length
        = ((active_ids s 3 18).map (fun j => class_lines j (s.slabclass j))).length
    rw [List.length_map]
  · intro h0 c hc
    rw [List.mem_map] at hc
    obtain ⟨j, hj, rfl⟩ := hc
    rw [mem_active_ids] at hj
    intro hcon
    have : j = id := hcon
    subst this
    exact hj.2 h0
  · intro hne
    constructor
    · refine ⟨class_lines id (s.slabclass id), ?_, rfl⟩
      rw [List.mem_map]
      exact ⟨id, (mem_active_ids s id).mpr ⟨⟨h3, h20⟩, hne⟩, rfl⟩
    · intro c hc hcid
      rw [List.mem_map] at hc
      obtain ⟨j, _, rfl⟩ := hc
      have : j = id := hcid
      subst this
      refine ⟨rfl, rfl, rfl, rfl, rfl, rfl, rfl, ?_⟩
      intro hlt hle
      have hcur : (s.slabclass j).sl_curr < UINT_MOD := by omega
      show ((s.slabclass j).slabs * (s.slabclass j).perslab) % UINT_MOD = _ ∧
        (((s.slabclass j).slabs * (s.slabclass j).perslab) % UINT_MOD + UINT_MOD
          - (s.slabclass j).sl_curr % UINT_MOD) % UINT_MOD = _
      rw [Nat.mod_eq_of_lt hlt, Nat.mod_eq_of_lt hcur]
      refine ⟨rfl, ?_⟩
      generalize (s.slabclass j).slabs * (s.slabclass j).perslab = a at hlt hle ⊢
      generalize (s.slabclass j).sl_curr = f at hle hcur ⊢
      unfold UINT_MOD at hlt hcur ⊢
      omega

theorem slabs_stats_consistent_witness :
    ∃ r, slabs_stats true (slabs_alloc ⟨true, 1048576⟩ 8 (slabs_init 0 initial)).2 = some r ∧
      r.total_malloced = (slabs_alloc ⟨true, 1048576⟩ 8 (slabs_init 0 initial)).2.mem_malloced :=
  (slabs_stats_consistent (slabs_alloc ⟨true, 1048576⟩ 8 (slabs_init 0 initial)).2 3
    (by decide) (by decide)).imp (fun _ h => ⟨h.1, h.2.1⟩)

/-! ## Claim C13 -/

/-- When the ceiling test of `slabs_newslab` fires, the call returns `0` and
leaves the whole state as it was. -/
theorem slabs_newslab_over_budget (e : Env) (id : Nat) (s : State) (h : over_budget s) :
    slabs_newslab e id s = (0, s) := by
  rw [slabs_newslab_unfold, if_pos h]

/-- The state after `n` block-sized allocations under a ceiling whose test
never fires (`0`, or `2^32 - 1`). -/
theorem alloc_blocks_run (limit : Nat) (hb : ∀ t : State, t.mem_limit = limit → ¬ over_budget t)
    (n : Nat) :
    Reachable limit (alloc_blocks n (slabs_init limit initial)) ∧
    (alloc_blocks n (slabs_init limit initial)).mem_limit = limit ∧
    (alloc_blocks n (slabs_init limit initial)).mem_malloced = (n * POWER_BLOCK) % UINT_MOD ∧
    ((alloc_blocks n (slabs_init limit initial)).slabclass 20).slabs = n ∧
    ((alloc_blocks n (slabs_init limit initial)).slabclass 20).sl_curr = 0 ∧
    ((alloc_blocks n (slabs_init limit initial)).slabclass 20).end_page_ptr = 0 ∧
    ((alloc_blocks n (slabs_init limit initial)).slabclass 20).perslab = 1 := by
  induction n with
  | zero =>
    simp only [alloc_blocks]
    rw [slabs_init_class _ _ 20 (by decide)]
    exact ⟨Reachable.init, rfl, rfl, rfl, rfl, rfl, rfl⟩
  | succ n ih =>
    obtain ⟨hr, hl, hm, hs, hc, hp, hper⟩ := ih
    simp only [alloc_blocks]
    generalize alloc_blocks n (slabs_init limit initial) = t at hr hl hm hs hc hp hper ⊢
    have hid : slabs_clsid POWER_BLOCK ≠ 0 := by rw [slabs_clsid_block]; decide
    have hptr : (n + 1) * POWER_BLOCK ≠ 0 := by unfold POWER_BLOCK; omega
    have h1 := slabs_newslab_succeeds ⟨true, (n + 1) * POWER_BLOCK⟩ 20 t (hb t hl) rfl hptr
    have hne : (slabs_newslab ⟨true, (n + 1) * POWER_BLOCK⟩ 20 t).1 ≠ 0 := by rw [h1]; decide
    obtain ⟨_, _, _, nl, nm, _, k, ncl⟩ := slabs_newslab_ok _ 20 t hne
    refine ⟨Reachable.alloc _ _ hr, ?_⟩
    rw [slabs_alloc_grow _ _ t hid (by rw [slabs_clsid_block]; exact hp)
      (by rw [slabs_clsid_block]; exact hc), slabs_clsid_block, if_neg hne]
    have sc : ((slabs_newslab ⟨true, (n + 1) * POWER_BLOCK⟩ 20 t).2.slabclass 20).sl_curr = 0 := by
      rw [ncl]; exact hc
    have sp : ((slabs_newslab ⟨true, (n + 1) * POWER_BLOCK⟩ 20 t).2.slabclass 20).end_page_ptr
        ≠ 0 := by rw [ncl]; exact hptr
    rw [alloc_serve_bump 20 _ sc sp]
    refine ⟨nl.trans hl, ?_, ?_, ?_, ?_, ?_⟩
    · show (slabs_newslab ⟨true, (n + 1) * POWER_BLOCK⟩ 20 t).2.mem_malloced = _
      rw [nm, hm, Nat.mod_add_mod, Nat.succ_mul]
    · rw [setClass_same, ncl]; exact congrArg (· + 1) hs
    · rw [setClass_same, ncl]; exact hc
    · rw [setClass_same, ncl]
      dsimp only
      rw [hper]
      rfl
    · rw [setClass_same, ncl]; exact hper

/-- In a state with ceiling `2^32 - 1`, byte counter `4095 * 2^20` and 4095
slabs of class 20, the sum `mem_malloced + 2^20` exceeds the ceiling and
`slabs_newslab(20)` succeeds all the same. -/
theorem newslab_at_wrap (t : State) (hl : t.mem_limit = 4294967295)
    (hm : t.mem_malloced = (4095 * POWER_BLOCK) % UINT_MOD)
    (hs : (t.slabclass 20).slabs = 4095) :
    t.mem_limit ≠ 0 ∧ t.mem_malloced + 1048576 > t.mem_limit ∧
    (slabs_newslab ⟨true, 4096 * POWER_BLOCK⟩ 20 t).1 = 1 ∧
    ((slabs_newslab ⟨true, 4096 * POWER_BLOCK⟩ 20 t).2.slabclass 20).slabs = 4096 := by
  have hmv : t.mem_malloced = 4293918720 := by rw [hm]; decide
  have h1 := slabs_newslab_succeeds ⟨true, 4096 * POWER_BLOCK⟩ 20 t (not_over_budget_max t hl)
    rfl (by decide)
  have hne : (slabs_newslab ⟨true, 4096 * POWER_BLOCK⟩ 20 t).1 ≠ 0 := by rw [h1]; decide
  obtain ⟨_, _, _, _, _, _, k, ncl⟩ := slabs_newslab_ok _ 20 t hne
  refine ⟨by rw [hl]; decide, by rw [hl, hmv]; decide, h1, ?_⟩
  rw [ncl]
  exact congrArg (· + 1) hs

/-- C13, failing run: after `slabs_init(4294967295)` and 4095 block-sized
allocations the ceiling is nonzero and `mem_malloced + 2^20 = 2^32` exceeds it,
yet `slabs_newslab(20)` succeeds and records a slab: the ceiling test adds in
`unsigned int` arithmetic, where the sum is `0`. -/
theorem newslab_passes_wrapped_test :
    (alloc_blocks 4095 (slabs_init 4294967295 initial)).mem_limit ≠ 0 ∧
    (alloc_blocks 4095 (slabs_init 4294967295 initial)).mem_malloced + 1048576
      > (alloc_blocks 4095 (slabs_init 4294967295 initial)).mem_limit ∧
    (slabs_newslab ⟨true, 4096 * POWER_BLOCK⟩ 20
      (alloc_blocks 4095 (slabs_init 4294967295 initial))).1 = 1 ∧
    ((slabs_newslab ⟨true, 4096 * POWER_BLOCK⟩ 20
      (alloc_blocks 4095 (slabs_init 4294967295 initial))).2.slabclass 20).slabs = 4096 :=
  newslab_at_wrap _ (alloc_blocks_state 4095).2.1 (alloc_blocks_state 4095).2.2.1
    (alloc_blocks_state 4095).2.2.2.1

/-! ## Claim C15 -/

/-- C15: for every state, every address `p` and every 32-bit size with
`size = 0` or `size > 2^20`, `slabs_free(p, size)` leaves the entire allocator
state unchanged (whatever `realloc` would answer). -/
theorem slabs_free_unresolvable_noop (s : State) (ok : Bool) (p size : Nat)
    (h32 : size < 2 ^ 32) (hsz : size = 0 ∨ 2 ^ 20 < size) :
    slabs_free ok p size s = s := by
  apply slabs_free_unsupported
  rcases hsz with h | h
  · subst h; exact slabs_clsid_zero
  · exact slabs_clsid_large size h h32

theorem slabs_free_unresolvable_noop_witness :
    slabs_free true 4096 2000000 (slabs_init 0 initial) = slabs_init 0 initial :=
  slabs_free_unresolvable_noop (slabs_init 0 initial) true 4096 2000000 (by norm_num)
    (Or.inr (by norm_num))

/-! ## Claim C14 -/

theorem not_over_budget_zero (t : State) (h : t.mem_limit = 0) : ¬ over_budget t := by
  unfold over_budget
  rw [h]
  exact fun hcon => hcon.1 rfl

theorem slab_bases_push (p q : slabclass_t) (b : Nat)
    (h1 : q.slab_list = store p.slab_list p.slabs b) (h2 : q.slabs = p.slabs + 1) :
    slab_bases q = slab_bases p ++ [b] := by
  unfold slab_bases
  rw [h1, h2, List.range_succ, List.map_append]
  congr 1
  · apply List.map_congr_left
    intro i hi
    rw [List.mem_range] at hi
    exact store_other _ _ _ _ (by omega)
  · simp

/-- In a state with ceiling `0` and byte counter `4095 * 2^20`, a successful
`slabs_newslab` takes the counter to `0`. -/
theorem newslab_counter_wrap (t : State) (hl : t.mem_limit = 0)
    (hm : t.mem_malloced = (4095 * POWER_BLOCK) % UINT_MOD) :
    (slabs_newslab ⟨true, 4096 * POWER_BLOCK⟩ 20 t).1 = 1 ∧
    t.mem_malloced = 4293918720 ∧
    (slabs_newslab ⟨true, 4096 * POWER_BLOCK⟩ 20 t).2.mem_malloced = 0 ∧
    (slabs_newslab ⟨true, 4096 * POWER_BLOCK⟩ 20 t).2.mem_malloced ≠ t.mem_malloced + 1048576 := by
  have hmv : t.mem_malloced = 4293918720 := by rw [hm]; decide
  have h1 := slabs_newslab_succeeds ⟨true, 4096 * POWER_BLOCK⟩ 20 t (not_over_budget_zero t hl)
    rfl (by decide)
  have hne : (slabs_newslab ⟨true, 4096 * POWER_BLOCK⟩ 20 t).1 ≠ 0 := by rw [h1]; decide
  obtain ⟨_, _, _, _, nm, _⟩ := slabs_newslab_ok _ 20 t hne
  have hz : (slabs_newslab ⟨true, 4096 * POWER_BLOCK⟩ 20 t).2.mem_malloced = 0 := by
    rw [nm, hmv]; decide
  refine ⟨h1, hmv, hz, ?_⟩
  rw [hz, hmv]
  decide

/-- C14, as stated, fails on the byte counter: after `slabs_init(0)` and 4095
block-sized allocations `mem_malloced` is `4293918720`; the next
`slabs_newslab(20)` succeeds and leaves `mem_malloced = 0`, which is not
`4293918720 + 2^20`. -/
theorem newslab_success_wraps_counter :
    (slabs_newslab ⟨true, 4096 * POWER_BLOCK⟩ 20 (alloc_blocks 4095 (slabs_init 0 initial))).1
      = 1 ∧
    (alloc_blocks 4095 (slabs_init 0 initial)).mem_malloced = 4293918720 ∧
    (slabs_newslab ⟨true, 4096 * POWER_BLOCK⟩ 20
      (alloc_blocks 4095 (slabs_init 0 initial))).2.mem_malloced = 0 ∧
    (slabs_newslab ⟨true, 4096 * POWER_BLOCK⟩ 20
      (alloc_blocks 4095 (slabs_init 0 initial))).2.mem_malloced
      ≠ (alloc_blocks 4095 (slabs_init 0 initial)).mem_malloced + 1048576 :=
  newslab_counter_wrap _ (alloc_blocks_run 0 not_over_budget_zero 4095).2.1
    (alloc_blocks_run 0 not_over_budget_zero 4095).2.2.1

/-- C14, amended: for every state and class `id` in `0..20`, when
`slabs_newslab(id)` succeeds with the system returning block base `b`, then `b` is
non-null, the class's slab list is the old list with `b` appended (slab count
plus one, earlier entries unchanged), `mem_malloced` has advanced by `2^20` modulo
`2^32` (exactly by `2^20` when the sum stays below `2^32`), `end_page_ptr = b`,
`end_page_free = perslab`, the free list of the class is unchanged and every other
class is unchanged. -/
theorem newslab_success_post (s : State) (e : Env) (id : Nat) (_hid : id ≤ POWER_LARGEST)
    (hok : (slabs_newslab e id s).1 ≠ 0) :
    e.malloc_ptr ≠ 0 ∧
    ((slabs_newslab e id s).2.slabclass id).slabs = (s.slabclass id).slabs + 1 ∧
    slab_bases ((slabs_newslab e id s).2.slabclass id)
      = slab_bases (s.slabclass id) ++ [e.malloc_ptr] ∧
    (∀ i, i < (s.slabclass id).slabs →
      ((slabs_newslab e id s).2.slabclass id).slab_list i = (s.slabclass id).slab_list i) ∧
    (slabs_newslab e id s).2.mem_malloced = (s.mem_malloced + POWER_BLOCK) % UINT_MOD ∧
    (s.mem_malloced + POWER_BLOCK < UINT_MOD →
      (slabs_newslab e id s).2.mem_malloced = s.mem_malloced + POWER_BLOCK) ∧
    ((slabs_newslab e id s).2.slabclass id).end_page_ptr = e.malloc_ptr ∧
    ((slabs_newslab e id s).2.slabclass id).end_page_free = (s.slabclass id).perslab ∧
    free_list ((slabs_newslab e id s).2.slabclass id) = free_list (s.slabclass id) ∧
    ((slabs_newslab e id s).2.slabclass id).sl_curr = (s.slabclass id).sl_curr ∧
    (∀ j, j ≠ id → (slabs_newslab e id s).2.slabclass j = s.slabclass j) := by
  obtain ⟨_, _, hptr, _, hm, hother, n, hcl⟩ := slabs_newslab_ok e id s hok
  refine ⟨hptr, by rw [hcl], ?_, ?_, hm, ?_, by rw [hcl], by rw [hcl], by rw [hcl]; rfl,
    by rw [hcl], hother⟩
  · exact slab_bases_push _ _ _ (by rw [hcl]) (by rw [hcl])
  · intro i hi
    rw [hcl]
    exact store_other _ _ _ _ (by omega)
  · intro hlt
    rw [hm]
    exact Nat.mod_eq_of_lt hlt

theorem newslab_success_post_witness :
    ((slabs_newslab ⟨true, 1048576⟩ 3 (slabs_init 0 initial)).2.slabclass 3).slabs
      = ((slabs_init 0 initial).slabclass 3).slabs + 1 :=
  (newslab_success_post (slabs_init 0 initial) ⟨true, 1048576⟩ 3 (by decide) (by decide)).2.1

/-! ## Claim C16 -/

/-- C16, as stated, fails: `slabs_alloc` reports every failure by the same value.
After `slabs_init`, an unsupported size (2000000 bytes), a request over the
ceiling (ceiling of one byte) and a request the system refuses (`malloc`
returning null) all return `0`, so the three results are not pairwise
different. -/
theorem alloc_failures_same_value :
    (slabs_alloc ⟨true, 1048576⟩ 2000000 (slabs_init 0 initial)).1 = 0 ∧
    (slabs_alloc ⟨true, 1048576⟩ 8 (slabs_init 1 initial)).1 = 0 ∧
    (slabs_alloc ⟨true, 0⟩ 8 (slabs_init 0 initial)).1 = 0 ∧
    ¬ ((slabs_alloc ⟨true, 1048576⟩ 2000000 (slabs_init 0 initial)).1
          ≠ (slabs_alloc ⟨true, 1048576⟩ 8 (slabs_init 1 initial)).1 ∧
        (slabs_alloc ⟨true, 1048576⟩ 2000000 (slabs_init 0 initial)).1
          ≠ (slabs_alloc ⟨true, 0⟩ 8 (slabs_init 0 initial)).1 ∧
        (slabs_alloc ⟨true, 1048576⟩ 8 (slabs_init 1 initial)).1
          ≠ (slabs_alloc ⟨true, 0⟩ 8 (slabs_init 0 initial)).1) := by
  refine ⟨by decide, by decide, by decide, by decide⟩

/-- `slabs_newslab` fails when the system refuses the block or the growth of a
full slab list. -/
theorem slabs_newslab_refused (e : Env) (id : Nat) (s : State)
    (h : e.malloc_ptr = 0 ∨
      ((s.slabclass id).slabs = (s.slabclass id).list_size ∧ e.realloc_ok = false)) :
    (slabs_newslab e id s).1 = 0 := by
  rw [slabs_newslab_unfold]
  by_cases hb : over_budget s
  · rw [if_pos hb]
  · rw [if_neg hb]
    by_cases hg : (grow_slab_list e.realloc_ok id s).1 = 0
    · rw [if_pos hg]
    · rw [if_neg hg]
      rcases h with hp | ⟨hfull, hok⟩
      · rw [if_pos hp]
      · exfalso
        apply hg
        rw [grow_slab_list_full _ id s hfull, hok]
        rfl

/-- C16, amended: `slabs_alloc` reports its three failure causes by one and the
same result value, the null pointer `0`: an unsupported size returns `0`; a
supported size with nothing to serve returns `0` when the ceiling test fires, and
returns `0` as well when the test passes and the system refuses the block or the
growth of the slab list.  The result value does not tell the causes apart. -/
theorem alloc_failure_is_null (s : State) (e : Env) (size : Nat) :
    (slabs_clsid size = 0 → (slabs_alloc e size s).1 = 0) ∧
    (slabs_clsid size ≠ 0 → (s.slabclass (slabs_clsid size)).end_page_ptr = 0 →
      (s.slabclass (slabs_clsid size)).sl_curr = 0 → over_budget s →
      (slabs_alloc e size s).1 = 0) ∧
    (slabs_clsid size ≠ 0 → (s.slabclass (slabs_clsid size)).end_page_ptr = 0 →
      (s.slabclass (slabs_clsid size)).sl_curr = 0 → ¬ over_budget s →
      (e.malloc_ptr = 0 ∨
        ((s.slabclass (slabs_clsid size)).slabs = (s.slabclass (slabs_clsid size)).list_size ∧
          e.realloc_ok = false)) →
      (slabs_alloc e size s).1 = 0) := by
  refine ⟨?_, ?_, ?_⟩
  · intro h
    rw [slabs_alloc_unsupported e size s h]
  · intro hid hp hc hb
    rw [slabs_alloc_grow e size s hid hp hc, slabs_newslab_over_budget e _ s hb]
    rfl
  · intro hid hp hc _ href
    rw [slabs_alloc_grow e size s hid hp hc, if_pos (slabs_newslab_refused e _ s href)]

theorem alloc_failure_is_null_witness :
    (slabs_alloc ⟨false, 1048576⟩ 8 (slabs_init 0 initial)).1 = 0 :=
  (alloc_failure_is_null (slabs_init 0 initial) ⟨false, 1048576⟩ 8).2.2
    (by decide) (by decide) (by decide) (by decide) (Or.inr ⟨by decide, rfl⟩)

/-! ## Claim C17 -/

/-- C12, as stated, fails: after `slabs_init(0)` and `slabs_free(NULL, 8)` the
ceiling is `0`, the size 8 is supported and the system grants every request, yet
`slabs_alloc(8)` returns the null pointer: it pops the null entry of the free
list. -/
theorem alloc_pops_null :
    (slabs_free true 0 8 (slabs_init 0 initial)).mem_limit = 0 ∧
    ¬ (8 = 0 ∨ 2 ^ 20 < 8) ∧
    (slabs_alloc ⟨true, 1048576⟩ 8 (slabs_free true 0 8 (slabs_init 0 initial))).1 = 0 := by
  refine ⟨by decide, by norm_num, by decide⟩

/-- A serve returns a non-null chunk when the class has something to serve
and the newest free-list entry is not the null pointer. -/
theorem alloc_serve_nonnull (id : Nat) (s : State)
    (hr : (s.slabclass id).end_page_ptr ≠ 0 ∨ (s.slabclass id).sl_curr ≠ 0)
    (htop : (s.slabclass id).sl_curr ≠ 0 →
      (s.slabclass id).slots ((s.slabclass id).sl_curr - 1) ≠ 0) :
    (alloc_serve id s).1 ≠ 0 := by
  by_cases hc : (s.slabclass id).sl_curr ≠ 0
  · rw [alloc_serve_pop id s hc]
    exact htop hc
  · have hc0 : (s.slabclass id).sl_curr = 0 := by omega
    have hp : (s.slabclass id).end_page_ptr ≠ 0 := by
      rcases hr with h | h
      · exact h
      · exact absurd h hc
    rw [alloc_serve_bump id s hc0 hp]
    exact hp

/-- C12, amended: in every state with `mem_limit = 0` in which the newest
free-list entry of the class of `size` is not the null pointer, provided the
system grants every memory request (slab block and slab-list growth),
`slabs_alloc(size)` returns null if and only if the 32-bit `size` is unsupported
(`size = 0` or `size > 2^20`); so after `slabs_init(0)`, `slabs_alloc(8)` returns
a non-null chunk and `slabs_alloc(2000000)` fails. -/
theorem alloc_fails_iff_unsupported (s : State) (e : Env) (size : Nat) (h32 : size < 2 ^ 32)
    (hl : s.mem_limit = 0) (hre : e.realloc_ok = true) (hma : e.malloc_ptr ≠ 0)
    (htop : (s.slabclass (slabs_clsid size)).sl_curr ≠ 0 →
      (s.slabclass (slabs_clsid size)).slots ((s.slabclass (slabs_clsid size)).sl_curr - 1)
        ≠ 0) :
    ((slabs_alloc e size s).1 = 0 ↔ (size = 0 ∨ 2 ^ 20 < size)) ∧
    (slabs_alloc e 8 (slabs_init 0 initial)).1 ≠ 0 ∧
    (slabs_alloc e 2000000 (slabs_init 0 initial)).1 = 0 := by
  have key : ∀ (t : State) (sz : Nat), t.mem_limit = 0 → slabs_clsid sz ≠ 0 →
      ((t.slabclass (slabs_clsid sz)).sl_curr ≠ 0 →
        (t.slabclass (slabs_clsid sz)).slots ((t.slabclass (slabs_clsid sz)).sl_curr - 1) ≠ 0) →
      (slabs_alloc e sz t).1 ≠ 0 := by
    intro t sz tl hid ttop
    by_cases hr : (t.slabclass (slabs_clsid sz)).end_page_ptr ≠ 0 ∨
        (t.slabclass (slabs_clsid sz)).sl_curr ≠ 0
    · rw [slabs_alloc_ready e sz t hid hr]
      exact alloc_serve_nonnull _ t hr ttop
    · have hp : (t.slabclass (slabs_clsid sz)).end_page_ptr = 0 := by omega
      have hc : (t.slabclass (slabs_clsid sz)).sl_curr = 0 := by omega
      have h1 := slabs_newslab_succeeds e (slabs_clsid sz) t (not_over_budget_zero t tl) hre hma
      have hne : (slabs_newslab e (slabs_clsid sz) t).1 ≠ 0 := by rw [h1]; exact Nat.one_ne_zero
      obtain ⟨_, _, _, _, _, _, n, hcl⟩ := slabs_newslab_ok e _ t hne
      rw [slabs_alloc_grow e sz t hid hp hc, if_neg hne]
      have sc : ((slabs_newslab e (slabs_clsid sz) t).2.slabclass (slabs_clsid sz)).sl_curr = 0 := by
        rw [hcl]; exact hc
      have sp : ((slabs_newslab e (slabs_clsid sz) t).2.slabclass (slabs_clsid sz)).end_page_ptr
          ≠ 0 := by rw [hcl]; exact hma
      rw [alloc_serve_bump _ _ sc sp]
      exact sp
  have hiff : ∀ sz, sz < 2 ^ 32 → (slabs_clsid sz = 0 ↔ (sz = 0 ∨ 2 ^ 20 < sz)) := by
    intro sz hsz
    constructor
    · intro h0
      by_contra hcon
      push_neg at hcon
      have := (slabs_clsid_spec sz (by omega) hcon.2).1
      omega
    · rintro (h | h)
      · subst h; exact slabs_clsid_zero
      · exact slabs_clsid_large sz h hsz
  refine ⟨?_, ?_, ?_⟩
  · constructor
    · intro h0
      by_contra hcon
      exact key s size hl (fun hz => hcon ((hiff size h32).mp hz)) htop h0
    · intro hu
      rw [slabs_alloc_unsupported e size s ((hiff size h32).mpr hu)]
  · apply key _ 8 rfl (by decide)
    intro hcon
    exact absurd (by decide) hcon
  · rw [slabs_alloc_unsupported e 2000000 _ ((hiff 2000000 (by norm_num)).mpr
      (Or.inr (by norm_num)))]

theorem alloc_fails_iff_unsupported_witness :
    ((slabs_alloc ⟨true, 1048576⟩ 100 (slabs_init 0 initial)).1 = 0 ↔
      (100 = 0 ∨ 2 ^ 20 < 100)) :=
  (alloc_fails_iff_unsupported (slabs_init 0 initial) ⟨true, 1048576⟩ 100 (by norm_num)
    rfl rfl (by decide) (fun h => absurd (by decide) h)).1

/-! ## Claim C18 -/

/-- C18 (free-list uniqueness): in every state reached after `slabs_init` by
`slabs_alloc` and `slabs_free` calls in which each free releases a currently held
chunk with a size of its allocation class and the system hands out disjoint
blocks, no address occurs twice in the free list of a class, and no free-list
address lies in the not-yet-served tail of the active slab: none equals
`end_page_ptr + k * size` for `k < end_page_free`. -/
theorem free_list_unique (s : State) (held : List (Nat × Nat)) (h : Owned s held) (id : Nat)
    (hid : id ≤ POWER_LARGEST) :
    (free_list (s.slabclass id)).Nodup ∧
    ∀ a ∈ free_list (s.slabclass id), ∀ k, k < (s.slabclass id).end_page_free →
      a ≠ (s.slabclass id).end_page_ptr + k * (s.slabclass id).size := by
  have inv := owned_inv s held h
  exact ⟨inv.free_nodup id hid, fun a ha => (inv.free_chunks id hid a ha).2.1⟩

theorem free_list_unique_witness :
    (free_list ((slabs_free true 1048576 8
      (slabs_alloc ⟨true, 1048576⟩ 8 (slabs_init 0 initial)).2).slabclass 3)).Nodup :=
  (free_list_unique _ _
    (Owned.free true 1048576 8
      (Owned.alloc ⟨true, 1048576⟩ 8 (Owned.init 0 initial) (fun _ => by decide))
      (by decide)) 3 (by decide)).1

/-! ## Claim C19 -/

theorem perslab_le_block (id : Nat) : (2 : Nat) ^ (POWER_LARGEST - id) ≤ 1048576 := by
  have h : (2 : Nat) ^ (POWER_LARGEST - id) ≤ 2 ^ 20 :=
    Nat.pow_le_pow_right (by norm_num) (by unfold POWER_LARGEST; omega)
  have h20 : (2 : Nat) ^ 20 = 1048576 := by norm_num
  omega

/-- Taking the first chunk of a consistent bump region leaves a consistent
bump region. -/
theorem bumpOk_step (p q : slabclass_t) (L : SameLayout p q) (hp : p.end_page_ptr ≠ 0)
    (hb : BumpOk p) (hf : q.end_page_free = p.end_page_free - 1)
    (hpt1 : q.end_page_free ≠ 0 → q.end_page_ptr = p.end_page_ptr + p.size)
    (hpt0 : q.end_page_free = 0 → q.end_page_ptr = 0) : BumpOk q := by
  obtain ⟨l1, l2, l3, l4⟩ := L
  rcases hb with ⟨h0, _⟩ | ⟨_, hs, h1, hP, hE⟩
  · exact absurd h0 hp
  by_cases hz : q.end_page_free = 0
  · exact Or.inl ⟨hpt0 hz, hz⟩
  · right
    refine ⟨by rw [hpt1 hz]; omega, by rw [l3]; exact hs, by omega, by rw [l2]; omega, ?_⟩
    rw [hpt1 hz, l1, l2, l3, l4, hE, hf]
    have e : p.perslab - (p.end_page_free - 1) = (p.perslab - p.end_page_free) + 1 := by omega
    rw [e, Nat.succ_mul]
    omega

theorem shaped_of_same (s t : State) (h : Shaped s)
    (L : ∀ j, SameLayout (s.slabclass j) (t.slabclass j))
    (R : ∀ j, SameBump (s.slabclass j) (t.slabclass j)) : Shaped t := by
  intro id hid
  obtain ⟨a, b, c⟩ := h id hid
  refine ⟨by rw [(L id).1]; exact a, by rw [(L id).2.1]; exact b, bumpOk_same _ _ (L id) (R id) c⟩

theorem shaped_init (limit : Nat) (s0 : State) : Shaped (slabs_init limit s0) := by
  intro id hid
  rw [slabs_init_class limit s0 id hid]
  exact ⟨rfl, pow_div_pow id hid, Or.inl ⟨rfl, rfl⟩⟩

theorem shaped_serve (id : Nat) (s : State) (h : Shaped s) (hid : id ≤ POWER_LARGEST) :
    Shaped (alloc_serve id s).2 := by
  by_cases hc : (s.slabclass id).sl_curr ≠ 0
  · rw [alloc_serve_pop id s hc]
    exact shaped_of_same s _ h (layout_setClass s id _ ⟨rfl, rfl, rfl, rfl⟩)
      (bump_setClass s id _ ⟨rfl, rfl⟩)
  · have hc0 : (s.slabclass id).sl_curr = 0 := by omega
    by_cases hp : (s.slabclass id).end_page_ptr ≠ 0
    · obtain ⟨gs, gp, gb⟩ := h id hid
      have hdec : ((s.slabclass id).end_page_free + UINT_MOD - 1) % UINT_MOD
          = (s.slabclass id).end_page_free - 1 := by
        rcases gb with ⟨h0, _⟩ | ⟨_, _, h1, hP, _⟩
        · exact absurd h0 hp
        have := perslab_le_block id
        rw [gp] at hP
        unfold UINT_MOD
        omega
      rw [alloc_serve_bump id s hc0 hp, hdec]
      intro j hj
      by_cases hji : j = id
      · subst hji
        rw [setClass_same]
        refine ⟨gs, gp, bumpOk_step (s.slabclass j) _ ⟨rfl, rfl, rfl, rfl⟩ hp gb rfl ?_ ?_⟩
        · intro hz; exact if_pos hz
        · intro hz; exact if_neg (by simpa using hz)
      · rw [setClass_other _ _ _ _ hji]
        exact h j hj
    · have hp0 : (s.slabclass id).end_page_ptr = 0 := by omega
      rw [alloc_serve_none id s hc0 hp0]
      exact h

theorem shaped_newslab (e : Env) (id : Nat) (s : State) (h : Shaped s)
    (hid : id ≤ POWER_LARGEST) : Shaped (slabs_newslab e id s).2 := by
  by_cases h0 : (slabs_newslab e id s).1 = 0
  · obtain ⟨_, _, hother, n, hcl⟩ := slabs_newslab_fail e id s h0
    apply shaped_of_same s _ h
    · intro j
      by_cases hj : j = id
      · subst hj; rw [hcl]; exact ⟨rfl, rfl, rfl, rfl⟩
      · rw [hother j hj]; exact ⟨rfl, rfl, rfl, rfl⟩
    · intro j
      by_cases hj : j = id
      · subst hj; rw [hcl]; exact ⟨rfl, rfl⟩
      · rw [hother j hj]; exact ⟨rfl, rfl⟩
  · obtain ⟨_, _, hptr, _, _, hother, n, hcl⟩ := slabs_newslab_ok e id s h0
    intro j hj
    by_cases hji : j = id
    · subst hji
      obtain ⟨gs, gp, _⟩ := h j hj
      rw [hcl]
      refine ⟨gs, gp, Or.inr ⟨hptr, Nat.succ_pos _, ?_, le_refl _, ?_⟩⟩
      · show 1 ≤ (s.slabclass j).perslab
        rw [gp]; exact Nat.one_le_two_pow
      · show e.malloc_ptr = store _ _ e.malloc_ptr ((s.slabclass j).slabs + 1 - 1)
            + ((s.slabclass j).perslab - (s.slabclass j).perslab) * (s.slabclass j).size
        rw [Nat.add_sub_cancel, store_same, Nat.sub_self, Nat.zero_mul, Nat.add_zero]
    · rw [hother j hji]
      exact h j hj

theorem shaped_alloc (e : Env) (size : Nat) (s : State) (h : Shaped s) :
    Shaped (slabs_alloc e size s).2 := by
  by_cases hid : slabs_clsid size = 0
  · rw [slabs_alloc_unsupported e size s hid]
    exact h
  · have hle := slabs_clsid_le size
    by_cases hr : (s.slabclass (slabs_clsid size)).end_page_ptr ≠ 0 ∨
        (s.slabclass (slabs_clsid size)).sl_curr ≠ 0
    · rw [slabs_alloc_ready e size s hid hr]
      exact shaped_serve _ s h hle
    · have hp : (s.slabclass (slabs_clsid size)).end_page_ptr = 0 := by omega
      have hc : (s.slabclass (slabs_clsid size)).sl_curr = 0 := by omega
      rw [slabs_alloc_grow e size s hid hp hc]
      have hn := shaped_newslab e _ s h hle
      by_cases h0 : (slabs_newslab e (slabs_clsid size) s).1 = 0
      · rw [if_pos h0]; exact hn
      · rw [if_neg h0]; exact shaped_serve _ _ hn hle

theorem shaped_free (ok : Bool) (ptr size : Nat) (s : State) (h : Shaped s) :
    Shaped (slabs_free ok ptr size s) := by
  have fr := (slabs_free_frame ok ptr size s).2.2
  apply shaped_of_same s _ h
  · intro j
    obtain ⟨a, b, c, d, _, _⟩ := fr j
    exact ⟨a, b, c, d⟩
  · intro j
    obtain ⟨_, _, _, _, c, d⟩ := fr j
    exact ⟨c, d⟩

theorem run_shaped (s : State) (h : Run s) : Shaped s := by
  induction h with
  | init limit s0 => exact shaped_init limit s0
  | alloc e size _ ih => exact shaped_alloc e size _ ih
  | free ok ptr size _ ih => exact shaped_free ok ptr size _ ih
  | newslab e id hid _ ih => exact shaped_newslab e id _ ih hid

theorem reachable_run (limit : Nat) (s : State) (h : Reachable limit s) : Run s := by
  induction h with
  | init => exact Run.init limit initial
  | alloc e size _ ih => exact Run.alloc e size ih
  | free ok ptr size _ ih => exact Run.free ok ptr size ih
  | newslab e id hid _ ih => exact Run.newslab e id hid ih

theorem owned_run (s : State) (held : List (Nat × Nat)) (h : Owned s held) : Run s := by
  induction h with
  | init limit s0 => exact Run.init limit s0
  | alloc e size _ _ ih => exact Run.alloc e size ih
  | free ok ptr size _ _ ih => exact Run.free ok ptr size ih

/-- C19 (bump-state invariant and bounds): in every state reached after
`slabs_init` by `slabs_alloc`, `slabs_free` and `slabs_newslab` calls, for every class
either `end_page_ptr` is null and `end_page_free = 0`, or `end_page_ptr` is non-null,
`1 ≤ end_page_free ≤ perslab` and `end_page_ptr` is the base of the last slab in
`slab_list` plus `(perslab - end_page_free) * size`.  Hence the test on
`end_page_ptr` agrees with the test `end_page_free > 0`, the decrement
`--end_page_free` of the bump branch never underflows, and the chunk
`[end_page_ptr, end_page_ptr + size)` served by the bump branch lies inside the
1 MiB block of the last slab. -/
theorem bump_state_invariant (s : State) (h : Run s) (id : Nat) (hid : id ≤ POWER_LARGEST) :
    (((s.slabclass id).end_page_ptr = 0 ∧ (s.slabclass id).end_page_free = 0) ∨
      ((s.slabclass id).end_page_ptr ≠ 0 ∧ 0 < (s.slabclass id).slabs ∧
        1 ≤ (s.slabclass id).end_page_free ∧
        (s.slabclass id).end_page_free ≤ (s.slabclass id).perslab ∧
        (s.slabclass id).end_page_ptr
          = (s.slabclass id).slab_list ((s.slabclass id).slabs - 1)
            + ((s.slabclass id).perslab - (s.slabclass id).end_page_free)
              * (s.slabclass id).size)) ∧
    ((s.slabclass id).end_page_ptr ≠ 0 ↔ 0 < (s.slabclass id).end_page_free) ∧
    ((s.slabclass id).end_page_ptr ≠ 0 →
      1 ≤ (s.slabclass id).end_page_free ∧
      ((s.slabclass id).end_page_free + UINT_MOD - 1) % UINT_MOD
        = (s.slabclass id).end_page_free - 1) ∧
    ((s.slabclass id).end_page_ptr ≠ 0 →
      (s.slabclass id).slab_list ((s.slabclass id).slabs - 1) ≤ (s.slabclass id).end_page_ptr ∧
      (s.slabclass id).end_page_ptr + (s.slabclass id).size
        ≤ (s.slabclass id).slab_list ((s.slabclass id).slabs - 1) + POWER_BLOCK) := by
  obtain ⟨gs, gp, gb⟩ := run_shaped s h id hid
  have hP := perslab_le_block id
  have hid20 : id ≤ 20 := hid
  refine ⟨gb, ?_, ?_, ?_⟩
  · rcases gb with ⟨h0, h1⟩ | ⟨h0, _, h1, _⟩
    · rw [h0, h1]; simp
    · exact ⟨fun _ => by omega, fun _ => h0⟩
  · intro hp
    rcases gb with ⟨h0, _⟩ | ⟨_, _, h1, h2, _⟩
    · exact absurd h0 hp
    · rw [gp] at h2
      refine ⟨h1, ?_⟩
      unfold UINT_MOD
      omega
  · intro hp
    rcases gb with ⟨h0, _⟩ | ⟨_, _, h1, h2, hE⟩
    · exact absurd h0 hp
    · rw [hE, gs]
      rw [gp] at h2 ⊢
      have hk : 2 ^ (POWER_LARGEST - id) - (s.slabclass id).end_page_free
          < 2 ^ (20 - id) := by
        show _ < 2 ^ (POWER_LARGEST - id)
        omega
      have := chunk_in_block id _ hid20 hk
      unfold POWER_BLOCK
      omega

theorem bump_state_invariant_witness :
    (((slabs_alloc ⟨true, 1048576⟩ 8 (slabs_init 0 initial)).2.slabclass 3).end_page_ptr ≠ 0 ↔
      0 < ((slabs_alloc ⟨true, 1048576⟩ 8 (slabs_init 0 initial)).2.slabclass 3).end_page_free) :=
  (bump_state_invariant _ (Run.alloc ⟨true, 1048576⟩ 8 (Run.init 0 initial)) 3
    (by decide)).2.1

/-! ## Filling one slab by consecutive allocations -/

/-- One `slabs_alloc` served by the bump branch, field by field. -/
theorem alloc_bump_step (e : Env) (size : Nat) (t : State) (hid : slabs_clsid size ≠ 0)
    (hc : (t.slabclass (slabs_clsid size)).sl_curr = 0)
    (hp : (t.slabclass (slabs_clsid size)).end_page_ptr ≠ 0)
    (h1 : 1 ≤ (t.slabclass (slabs_clsid size)).end_page_free)
    (h2 : (t.slabclass (slabs_clsid size)).end_page_free ≤ 1048576) :
    (slabs_alloc e size t).1 = (t.slabclass (slabs_clsid size)).end_page_ptr ∧
    (slabs_alloc e size t).2.mem_limit = t.mem_limit ∧
    (slabs_alloc e size t).2.mem_malloced = t.mem_malloced ∧
    (∀ j, j ≠ slabs_clsid size → (slabs_alloc e size t).2.slabclass j = t.slabclass j) ∧
    (slabs_alloc e size t).2.slabclass (slabs_clsid size) =
      { t.slabclass (slabs_clsid size) with
        end_page_free := (t.slabclass (slabs_clsid size)).end_page_free - 1,
        end_page_ptr :=
          if (t.slabclass (slabs_clsid size)).end_page_free - 1 ≠ 0
          then (t.slabclass (slabs_clsid size)).end_page_ptr
            + (t.slabclass (slabs_clsid size)).size
          else 0 } := by
  have hdec : ((t.slabclass (slabs_clsid size)).end_page_free + UINT_MOD - 1) % UINT_MOD
      = (t.slabclass (slabs_clsid size)).end_page_free - 1 := by
    unfold UINT_MOD; omega
  rw [slabs_alloc_ready e size t hid (Or.inl hp), alloc_serve_bump _ t hc hp, hdec]
  exact ⟨rfl, rfl, rfl, fun j hj => setClass_other _ _ _ _ hj, setClass_same _ _ _⟩

/-- One `slabs_alloc` that acquires a slab and serves its first chunk, field
by field. -/
theorem alloc_grow_step (e : Env) (size : Nat) (t : State) (hid : slabs_clsid size ≠ 0)
    (hc : (t.slabclass (slabs_clsid size)).sl_curr = 0)
    (hp : (t.slabclass (slabs_clsid size)).end_page_ptr = 0)
    (hb : ¬ over_budget t) (hre : e.realloc_ok = true) (hma : e.malloc_ptr ≠ 0)
    (h1 : 1 ≤ (t.slabclass (slabs_clsid size)).perslab)
    (h2 : (t.slabclass (slabs_clsid size)).perslab ≤ 1048576) :
    (slabs_alloc e size t).1 = e.malloc_ptr ∧
    FillState t (slabs_clsid size) e.malloc_ptr 1 (slabs_alloc e size t).2 := by
  have hs := slabs_newslab_succeeds e (slabs_clsid size) t hb hre hma
  have hne : (slabs_newslab e (slabs_clsid size) t).1 ≠ 0 := by rw [hs]; exact Nat.one_ne_zero
  obtain ⟨_, _, _, nl, nm, nother, n, ncl⟩ := slabs_newslab_ok e _ t hne
  have sc : ((slabs_newslab e (slabs_clsid size) t).2.slabclass (slabs_clsid size)).sl_curr
      = 0 := by rw [ncl]; exact hc
  have sp : ((slabs_newslab e (slabs_clsid size) t).2.slabclass (slabs_clsid size)).end_page_ptr
      ≠ 0 := by rw [ncl]; exact hma
  have hdec : ((t.slabclass (slabs_clsid size)).perslab + UINT_MOD - 1) % UINT_MOD
      = (t.slabclass (slabs_clsid size)).perslab - 1 := by
    unfold UINT_MOD; omega
  rw [slabs_alloc_grow e size t hid hp hc, if_neg hne, alloc_serve_bump _ _ sc sp]
  refine ⟨by rw [ncl], nl, nm, ?_, ?_, ?_, ?_, ?_, ?_, ?_⟩
  · intro j hj
    show (State.setClass _ _ _).slabclass j = _
    rw [setClass_other _ _ _ _ hj]
    exact nother j hj
  · rw [setClass_same, ncl]
  · rw [setClass_same, ncl]
  · rw [setClass_same, ncl]; exact hc
  · rw [setClass_same, ncl]
  · rw [setClass_same, ncl]
    dsimp only
    exact hdec
  · rw [setClass_same, ncl]
    dsimp only
    rw [hdec]
    by_cases hone : (t.slabclass (slabs_clsid size)).perslab - 1 ≠ 0
    · rw [if_pos hone, if_pos (by omega), Nat.one_mul]
    · rw [if_neg hone, if_neg (by omega)]

/-- A bump-served `slabs_alloc` in a slab that is being filled. -/
theorem fill_step (e : Env) (size : Nat) (t u : State) (b k : Nat)
    (hid : slabs_clsid size ≠ 0) (hb0 : b ≠ 0)
    (hP2 : (t.slabclass (slabs_clsid size)).perslab ≤ 1048576)
    (hk : k < (t.slabclass (slabs_clsid size)).perslab)
    (hu : FillState t (slabs_clsid size) b k u) :
    (slabs_alloc e size u).1 = b + k * (t.slabclass (slabs_clsid size)).size ∧
    FillState t (slabs_clsid size) b (k + 1) (slabs_alloc e size u).2 := by
  obtain ⟨ul, um, uother, usz, uper, uc, us, uf, up⟩ := hu
  rw [if_pos hk] at up
  obtain ⟨r, sl, sm, sother, scl⟩ := alloc_bump_step e size u hid uc
    (by rw [up]; omega) (by rw [uf]; omega) (by rw [uf]; omega)
  refine ⟨by rw [r, up], sl.trans ul, sm.trans um, ?_, ?_, ?_, ?_, ?_, ?_, ?_⟩
  · intro j hj
    rw [sother j hj]
    exact uother j hj
  · rw [scl]; exact usz
  · rw [scl]; exact uper
  · rw [scl]; exact uc
  · rw [scl]; exact us
  · rw [scl]
    dsimp only
    rw [uf]
    omega
  · rw [scl]
    dsimp only
    rw [uf, up, usz]
    by_cases hlast : k + 1 < (t.slabclass (slabs_clsid size)).perslab
    · rw [if_pos (by omega), if_pos hlast, Nat.succ_mul]
      omega
    · rw [if_neg (by omega), if_neg hlast]

/-- The consecutive allocations that fill one slab: starting with nothing to
serve, when the ceiling test passes and the system grants the first request,
the `k`-th call (for `k < perslab`) returns the chunk `b + k * size` of the new
slab `b`, and `k + 1` chunks of the slab are served after it. -/
theorem fill_slab (envs : Nat → Env) (size : Nat) (t : State) (hid : slabs_clsid size ≠ 0)
    (hc : (t.slabclass (slabs_clsid size)).sl_curr = 0)
    (hp : (t.slabclass (slabs_clsid size)).end_page_ptr = 0)
    (hb : ¬ over_budget t) (hre : (envs 0).realloc_ok = true) (hma : (envs 0).malloc_ptr ≠ 0)
    (hP1 : 1 ≤ (t.slabclass (slabs_clsid size)).perslab)
    (hP2 : (t.slabclass (slabs_clsid size)).perslab ≤ 1048576) :
    ∀ k, k < (t.slabclass (slabs_clsid size)).perslab →
      (slabs_alloc (envs k) size (alloc_run envs size k t)).1
        = (envs 0).malloc_ptr + k * (t.slabclass (slabs_clsid size)).size ∧
      FillState t (slabs_clsid size) (envs 0).malloc_ptr (k + 1)
        (alloc_run envs size (k + 1) t) := by
  intro k
  induction k with
  | zero =>
    intro _
    obtain ⟨a, b⟩ := alloc_grow_step (envs 0) size t hid hc hp hb hre hma hP1 hP2
    show (slabs_alloc (envs 0) size t).1 = _ ∧
      FillState t (slabs_clsid size) (envs 0).malloc_ptr 1 (slabs_alloc (envs 0) size t).2
    refine ⟨by rw [a]; omega, b⟩
  | succ k ih =>
    intro hk
    obtain ⟨_, hu⟩ := ih (by omega)
    show (slabs_alloc (envs (k + 1)) size (alloc_run envs size (k + 1) t)).1 = _ ∧
      FillState t (slabs_clsid size) (envs 0).malloc_ptr (k + 1 + 1)
        (slabs_alloc (envs (k + 1)) size (alloc_run envs size (k + 1) t)).2
    exact fill_step (envs (k + 1)) size t _ (envs 0).malloc_ptr (k + 1) hid hma hP2 hk hu

/-- After the allocations that fill one slab, all `perslab` chunks are served. -/
theorem fill_slab_full (envs : Nat → Env) (size : Nat) (t : State) (hid : slabs_clsid size ≠ 0)
    (hc : (t.slabclass (slabs_clsid size)).sl_curr = 0)
    (hp : (t.slabclass (slabs_clsid size)).end_page_ptr = 0)
    (hb : ¬ over_budget t) (hre : (envs 0).realloc_ok = true) (hma : (envs 0).malloc_ptr ≠ 0)
    (hP1 : 1 ≤ (t.slabclass (slabs_clsid size)).perslab)
    (hP2 : (t.slabclass (slabs_clsid size)).perslab ≤ 1048576) :
    FillState t (slabs_clsid size) (envs 0).malloc_ptr (t.slabclass (slabs_clsid size)).perslab
      (alloc_run envs size (t.slabclass (slabs_clsid size)).perslab t) := by
  have h := (fill_slab envs size t hid hc hp hb hre hma hP1 hP2
    ((t.slabclass (slabs_clsid size)).perslab - 1) (by omega)).2
  rw [Nat.sub_add_cancel hP1] at h
  exact h

/-- With nothing to serve and the ceiling test firing, `slabs_alloc` returns
null and changes nothing. -/
theorem alloc_over_budget (e : Env) (size : Nat) (u : State) (hid : slabs_clsid size ≠ 0)
    (hc : (u.slabclass (slabs_clsid size)).sl_curr = 0)
    (hp : (u.slabclass (slabs_clsid size)).end_page_ptr = 0) (hb : over_budget u) :
    slabs_alloc e size u = (0, u) := by
  rw [slabs_alloc_grow e size u hid hp hc, slabs_newslab_over_budget e _ u hb]
  rfl

/-! ## Claim C11 -/

/-- C11 (one-block ceiling): after `slabs_init(1048576)` on the initial state, for
every supported `size` of class `id`, when the system grants the memory requests,
the first `perslab = 2^(20-id)` consecutive `slabs_alloc(size)` calls all succeed
out of a single slab (the `k`-th returns the chunk `b + k * 2^id` of the block `b`,
the slab count stays `1` and the byte counter `1048576`), and the next
`slabs_alloc(size)` returns null and leaves the state as it was, with the byte
counter at `1048576` and the slab count at `1`.  For `size = 8` these are 131072
successes followed by a failure. -/
theorem one_block_ceiling (envs : Nat → Env) (size : Nat) (h1 : 1 ≤ size) (h2 : size ≤ 2 ^ 20)
    (hgrant : ∀ k, (envs k).realloc_ok = true ∧ (envs k).malloc_ptr ≠ 0) :
    ((slabs_init 1048576 initial).slabclass (slabs_clsid size)).perslab
      = 2 ^ (20 - slabs_clsid size) ∧
    (∀ k, k < 2 ^ (20 - slabs_clsid size) →
      (slabs_alloc (envs k) size (alloc_run envs size k (slabs_init 1048576 initial))).1
        = (envs 0).malloc_ptr + k * 2 ^ slabs_clsid size ∧
      (slabs_alloc (envs k) size (alloc_run envs size k (slabs_init 1048576 initial))).1 ≠ 0 ∧
      ((alloc_run envs size (k + 1) (slabs_init 1048576 initial)).slabclass
        (slabs_clsid size)).slabs = 1 ∧
      (alloc_run envs size (k + 1) (slabs_init 1048576 initial)).mem_malloced = 1048576) ∧
    (slabs_alloc (envs (2 ^ (20 - slabs_clsid size))) size
      (alloc_run envs size (2 ^ (20 - slabs_clsid size)) (slabs_init 1048576 initial))).1 = 0 ∧
    (slabs_alloc (envs (2 ^ (20 - slabs_clsid size))) size
      (alloc_run envs size (2 ^ (20 - slabs_clsid size)) (slabs_init 1048576 initial))).2
      = alloc_run envs size (2 ^ (20 - slabs_clsid size)) (slabs_init 1048576 initial) ∧
    (alloc_run envs size (2 ^ (20 - slabs_clsid size))
      (slabs_init 1048576 initial)).mem_malloced = 1048576 ∧
    ((alloc_run envs size (2 ^ (20 - slabs_clsid size))
      (slabs_init 1048576 initial)).slabclass (slabs_clsid size)).slabs = 1 ∧
    (size = 8 → 2 ^ (20 - slabs_clsid size) = 131072) := by
  obtain ⟨h3, h20, _, _⟩ := slabs_clsid_spec size h1 h2
  have hid : slabs_clsid size ≠ 0 := by omega
  have hcls := slabs_init_class 1048576 initial (slabs_clsid size) h20
  have hper : ((slabs_init 1048576 initial).slabclass (slabs_clsid size)).perslab
      = 2 ^ (20 - slabs_clsid size) := by
    rw [hcls]; exact pow_div_pow _ h20
  have hsize : ((slabs_init 1048576 initial).slabclass (slabs_clsid size)).size
      = 2 ^ slabs_clsid size := by rw [hcls]; rfl
  have hc : ((slabs_init 1048576 initial).slabclass (slabs_clsid size)).sl_curr = 0 := by
    rw [hcls]; rfl
  have hp : ((slabs_init 1048576 initial).slabclass (slabs_clsid size)).end_page_ptr = 0 := by
    rw [hcls]; rfl
  have hs0 : ((slabs_init 1048576 initial).slabclass (slabs_clsid size)).slabs = 0 := by
    rw [hcls]; rfl
  have hb : ¬ over_budget (slabs_init 1048576 initial) := by
    unfold over_budget
    show ¬ ((1048576 : Nat) ≠ 0 ∧ (0 + POWER_BLOCK) % UINT_MOD > 1048576)
    decide
  have hP1 : 1 ≤ ((slabs_init 1048576 initial).slabclass (slabs_clsid size)).perslab := by
    rw [hper]; exact Nat.one_le_two_pow
  have hP2 : ((slabs_init 1048576 initial).slabclass (slabs_clsid size)).perslab ≤ 1048576 := by
    rw [hper]; exact perslab_le_block _
  have fill := fill_slab envs size _ hid hc hp hb (hgrant 0).1 (hgrant 0).2 hP1 hP2
  have full := fill_slab_full envs size _ hid hc hp hb (hgrant 0).1 (hgrant 0).2 hP1 hP2
  rw [hper] at fill full
  rw [hsize] at fill
  have hl : (slabs_init 1048576 initial).mem_limit = 1048576 := rfl
  have hm : (slabs_init 1048576 initial).mem_malloced = 0 := rfl
  generalize slabs_init 1048576 initial = s0 at hs0 fill full hper hl hm ⊢
  have hmem : ∀ u k, FillState s0 (slabs_clsid size) (envs 0).malloc_ptr k u →
      u.mem_malloced = 1048576 ∧ u.mem_limit = 1048576 ∧
        (u.slabclass (slabs_clsid size)).slabs = 1 := by
    intro u k hu
    obtain ⟨ul, um, _, _, _, _, us, _, _⟩ := hu
    rw [hm] at um
    rw [hs0] at us
    exact ⟨um, ul.trans hl, us⟩
  obtain ⟨fm, fl, fs⟩ := hmem _ _ full
  have fc := full.2.2.2.2.2.1
  have fp := full.2.2.2.2.2.2.2.2
  rw [hper, if_neg (Nat.lt_irrefl _)] at fp
  have fb : over_budget (alloc_run envs size (2 ^ (20 - slabs_clsid size)) s0) := by
    unfold over_budget
    rw [fl, fm]
    decide
  have last := alloc_over_budget (envs (2 ^ (20 - slabs_clsid size))) size _ hid fc fp fb
  refine ⟨hper, ?_, ?_, ?_, fm, fs, ?_⟩
  · intro k hk
    obtain ⟨r, st⟩ := fill k hk
    obtain ⟨sm, _, ss⟩ := hmem _ _ st
    refine ⟨r, ?_, ss, sm⟩
    rw [r]
    have := (hgrant 0).2
    omega
  · rw [last]
  · rw [last]
  · intro h8
    subst h8
    decide

theorem one_block_ceiling_witness :
    (1 ≤ 8 ∧ 8 ≤ 2 ^ 20) ∧
    (slabs_alloc ⟨true, 1048576⟩ 8
      (alloc_run (fun _ => ⟨true, 1048576⟩) 8 (2 ^ (20 - slabs_clsid 8))
        (slabs_init 1048576 initial))).1 = 0 ∧
    (alloc_run (fun _ => ⟨true, 1048576⟩) 8 (2 ^ (20 - slabs_clsid 8))
      (slabs_init 1048576 initial)).mem_malloced = 1048576 :=
  ⟨⟨by decide, by decide⟩,
    (one_block_ceiling (fun _ => ⟨true, 1048576⟩) 8 (by decide) (by decide)
      (fun _ => ⟨rfl, Nat.succ_ne_zero 1048575⟩)).2.2.1,
    (one_block_ceiling (fun _ => ⟨true, 1048576⟩) 8 (by decide) (by decide)
      (fun _ => ⟨rfl, Nat.succ_ne_zero 1048575⟩)).2.2.2.2.1⟩

/-! ## Claim C20 -/

theorem held_count_hold (r size : Nat) (held : List (Nat × Nat)) (id : Nat) :
    held_count (hold r size held) id
      = held_count held id + (if r ≠ 0 ∧ slabs_clsid size = id then 1 else 0) := by
  unfold hold held_count
  by_cases hr : r = 0
  · rw [if_pos hr, if_neg (fun h => h.1 hr)]
    rfl
  · rw [if_neg hr, List.countP_cons]
    by_cases hc : slabs_clsid size = id
    · simp [hr, hc]
    · simp [hr, hc]

theorem held_count_cons (y : Nat × Nat) (l : List (Nat × Nat)) (id : Nat) :
    held_count (y :: l) id = held_count l id + (if y.2 = id then 1 else 0) := by
  unfold held_count
  rw [List.countP_cons]
  by_cases hc : y.2 = id
  · simp [hc]
  · simp [hc]

theorem held_count_erase (held : List (Nat × Nat)) (x : Nat × Nat) (h : x ∈ held) (id : Nat) :
    held_count (held.erase x) id + (if x.2 = id then 1 else 0) = held_count held id := by
  induction held with
  | nil => exact absurd h (List.not_mem_nil _)
  | cons y l ih =>
    rw [List.erase_cons]
    by_cases hyx : y = x
    · subst hyx
      rw [if_pos (beq_self_eq_true y), held_count_cons]
    · have hb : ¬ ((y == x) = true) := fun hcon => hyx (eq_of_beq hcon)
      have hx : x ∈ l := by
        rcases List.mem_cons.mp h with h1 | h1
        · exact absurd h1.symm hyx
        · exact h1
      rw [if_neg hb, held_count_cons, held_count_cons, ← ih hx]
      omega

/-- What the serving branches do to the counts of class `id`. -/
theorem serve_count (id : Nat) (u : State)
    (hnz : ∀ i, i < (u.slabclass id).sl_curr → (u.slabclass id).slots i ≠ 0)
    (hb : (u.slabclass id).end_page_ptr ≠ 0 →
      1 ≤ (u.slabclass id).end_page_free ∧ (u.slabclass id).end_page_free ≤ 1048576) :
    (∀ j, j ≠ id → (alloc_serve id u).2.slabclass j = u.slabclass j) ∧
    ((alloc_serve id u).2.slabclass id).slots = (u.slabclass id).slots ∧
    ((alloc_serve id u).2.slabclass id).perslab = (u.slabclass id).perslab ∧
    ((alloc_serve id u).2.slabclass id).slabs = (u.slabclass id).slabs ∧
    ((alloc_serve id u).2.slabclass id).sl_curr ≤ (u.slabclass id).sl_curr ∧
    (((alloc_serve id u).1 = 0 ∧ (u.slabclass id).end_page_ptr = 0 ∧
        ((alloc_serve id u).2.slabclass id).sl_curr = (u.slabclass id).sl_curr ∧
        ((alloc_serve id u).2.slabclass id).end_page_free = (u.slabclass id).end_page_free) ∨
      ((alloc_serve id u).1 ≠ 0 ∧
        ((alloc_serve id u).2.slabclass id).sl_curr
          + ((alloc_serve id u).2.slabclass id).end_page_free + 1
          = (u.slabclass id).sl_curr + (u.slabclass id).end_page_free)) := by
  by_cases hc : (u.slabclass id).sl_curr ≠ 0
  · rw [alloc_serve_pop id u hc]
    refine ⟨fun j hj => setClass_other _ _ _ _ hj, ?_, ?_, ?_, ?_, Or.inr ⟨?_, ?_⟩⟩
    · rw [setClass_same]
    · rw [setClass_same]
    · rw [setClass_same]
    · rw [setClass_same]; exact Nat.sub_le _ _
    · exact hnz _ (by omega)
    · rw [setClass_same]
      show (u.slabclass id).sl_curr - 1 + (u.slabclass id).end_page_free + 1 = _
      omega
  · have hc0 : (u.slabclass id).sl_curr = 0 := by omega
    by_cases hp : (u.slabclass id).end_page_ptr ≠ 0
    · obtain ⟨h1, h2⟩ := hb hp
      have hdec : ((u.slabclass id).end_page_free + UINT_MOD - 1) % UINT_MOD
          = (u.slabclass id).end_page_free - 1 := by
        unfold UINT_MOD
        omega
      rw [alloc_serve_bump id u hc0 hp]
      refine ⟨fun j hj => setClass_other _ _ _ _ hj, ?_, ?_, ?_, ?_, Or.inr ⟨hp, ?_⟩⟩
      · rw [setClass_same]
      · rw [setClass_same]
      · rw [setClass_same]
      · rw [setClass_same]
      · rw [setClass_same]
        show (u.slabclass id).sl_curr
          + ((u.slabclass id).end_page_free + UINT_MOD - 1) % UINT_MOD + 1 = _
        rw [hdec]
        omega
    · have hp0 : (u.slabclass id).end_page_ptr = 0 := by
        by_contra hcon; exact hp hcon
      rw [alloc_serve_none id u hc0 hp0]
      exact ⟨fun _ _ => rfl, rfl, rfl, rfl, Nat.le_refl _, Or.inl ⟨rfl, hp0, rfl, rfl⟩⟩


/-- The accounting invariant carries over a step that touches only class
`slabs_clsid size` and returns `r`, once the new counts of that class add up. -/
theorem tally_step (s t : State) (held : List (Nat × Nat)) (r size : Nat)
    (hc0 : slabs_clsid size ≠ 0) (ht : Tally s held)
    (hother : ∀ j, j ≠ slabs_clsid size → t.slabclass j = s.slabclass j)
    (hslots : ∀ i, i < (t.slabclass (slabs_clsid size)).sl_curr →
      (t.slabclass (slabs_clsid size)).slots i ≠ 0)
    (hcount : held_count held (slabs_clsid size) + (if r ≠ 0 then 1 else 0)
        + (t.slabclass (slabs_clsid size)).sl_curr
        + (t.slabclass (slabs_clsid size)).end_page_free
      = (t.slabclass (slabs_clsid size)).slabs * (t.slabclass (slabs_clsid size)).perslab) :
    Tally t (hold r size held) := by
  obtain ⟨t1, t2, t3⟩ := ht
  refine ⟨?_, ?_, ?_⟩
  · intro x hx
    unfold hold at hx
    by_cases hr : r = 0
    · rw [if_pos hr] at hx
      exact t1 x hx
    · rw [if_neg hr] at hx
      rcases List.mem_cons.mp hx with h1 | h1
      · rw [h1]
        exact ⟨hr, hc0⟩
      · exact t1 x h1
  · intro id hid i hi
    by_cases hj : id = slabs_clsid size
    · rw [hj] at hi ⊢
      exact hslots i hi
    · rw [hother id hj] at hi ⊢
      exact t2 id hid i hi
  · intro id hid
    rw [held_count_hold]
    by_cases hj : id = slabs_clsid size
    · rw [hj, ← hcount]
      by_cases hr : r = 0
      · rw [if_neg (fun h => h.1 hr), if_neg (fun h => h hr)]
      · rw [if_pos ⟨hr, rfl⟩, if_pos hr]
    · rw [hother id hj, if_neg (fun h => hj h.2.symm)]
      exact t3 id hid

theorem tally_alloc (e : Env) (size : Nat) (s : State) (held : List (Nat × Nat))
    (hs : Shaped s) (ht : Tally s held) :
    Tally (slabs_alloc e size s).2 (hold (slabs_alloc e size s).1 size held) := by
  by_cases hid : slabs_clsid size = 0
  · rw [slabs_alloc_unsupported e size s hid]
    unfold hold
    rw [if_pos rfl]
    exact ht
  · have h20 : slabs_clsid size ≤ POWER_LARGEST := by
      rcases slabs_clsid_range size with h | h
      · exact absurd h hid
      · exact h.2
    obtain ⟨_, gp, gb⟩ := hs _ h20
    have hP := perslab_le_block (slabs_clsid size)
    have hP1 : 1 ≤ 2 ^ (POWER_LARGEST - slabs_clsid size) := Nat.one_le_two_pow
    have t3 := ht.2.2 _ h20
    by_cases hr : (s.slabclass (slabs_clsid size)).end_page_ptr ≠ 0 ∨
        (s.slabclass (slabs_clsid size)).sl_curr ≠ 0
    · rw [slabs_alloc_ready e size s hid hr]
      have hb : (s.slabclass (slabs_clsid size)).end_page_ptr ≠ 0 →
          1 ≤ (s.slabclass (slabs_clsid size)).end_page_free ∧
            (s.slabclass (slabs_clsid size)).end_page_free ≤ 1048576 := by
        intro hp
        rcases gb with ⟨h0, _⟩ | ⟨_, _, h1, h2, _⟩
        · exact absurd h0 hp
        · rw [gp] at h2
          exact ⟨h1, le_trans h2 hP⟩
      obtain ⟨so, ssl, sp, ss, sle, scase⟩ := serve_count _ s (ht.2.1 _ h20) hb
      refine tally_step s _ held _ size hid ht so ?_ ?_
      · intro i hi
        rw [ssl]
        exact ht.2.1 _ h20 i (lt_of_lt_of_le hi sle)
      · rw [ss, sp, ← t3]
        rcases scase with ⟨r0, _, c0, f0⟩ | ⟨r1, c1⟩
        · rw [if_neg (fun h => h r0), c0, f0]
          rfl
        · rw [if_pos r1]
          omega
    · have hp0 : (s.slabclass (slabs_clsid size)).end_page_ptr = 0 := by
        by_contra hcon; exact hr (Or.inl hcon)
      have hc0 : (s.slabclass (slabs_clsid size)).sl_curr = 0 := by
        by_contra hcon; exact hr (Or.inr hcon)
      have hf0 : (s.slabclass (slabs_clsid size)).end_page_free = 0 := by
        rcases gb with ⟨_, h1⟩ | ⟨h0, _⟩
        · exact h1
        · exact absurd hp0 h0
      rw [hc0, hf0] at t3
      rw [slabs_alloc_grow e size s hid hp0 hc0]
      by_cases hn : (slabs_newslab e (slabs_clsid size) s).1 = 0
      · rw [if_pos hn]
        obtain ⟨_, _, fo, n, fc⟩ := slabs_newslab_fail e _ s hn
        refine tally_step s _ held _ size hid ht fo ?_ ?_
        · intro i hi
          rw [fc] at hi ⊢
          exact ht.2.1 _ h20 i hi
        · rw [fc, if_neg (fun h => h rfl)]
          show _ + 0 + (s.slabclass (slabs_clsid size)).sl_curr
            + (s.slabclass (slabs_clsid size)).end_page_free
            = (s.slabclass (slabs_clsid size)).slabs * (s.slabclass (slabs_clsid size)).perslab
          rw [hc0, hf0]
          exact t3
      · rw [if_neg hn]
        obtain ⟨_, _, hma, _, _, fo, n, fc⟩ := slabs_newslab_ok e _ s hn
        have uc : ((slabs_newslab e (slabs_clsid size) s).2.slabclass (slabs_clsid size)).sl_curr
            = 0 := by rw [fc]; exact hc0
        have up : ((slabs_newslab e (slabs_clsid size) s).2.slabclass
            (slabs_clsid size)).end_page_ptr = e.malloc_ptr := by rw [fc]
        have uf : ((slabs_newslab e (slabs_clsid size) s).2.slabclass
            (slabs_clsid size)).end_page_free = (s.slabclass (slabs_clsid size)).perslab := by
          rw [fc]
        have us : ((slabs_newslab e (slabs_clsid size) s).2.slabclass (slabs_clsid size)).slabs
            = (s.slabclass (slabs_clsid size)).slabs + 1 := by rw [fc]
        have upl : ((slabs_newslab e (slabs_clsid size) s).2.slabclass
            (slabs_clsid size)).perslab = (s.slabclass (slabs_clsid size)).perslab := by rw [fc]
        obtain ⟨so, _, sp, ss, sle, scase⟩ :=
          serve_count (slabs_clsid size) (slabs_newslab e (slabs_clsid size) s).2
            (fun i hi => by rw [uc] at hi; exact absurd hi (Nat.not_lt_zero i))
            (fun _ => by rw [uf, gp]; exact ⟨hP1, hP⟩)
        refine tally_step s _ held _ size hid ht
          (fun j hj => (so j hj).trans (fo j hj)) ?_ ?_
        · intro i hi
          rw [uc] at sle
          omega
        · rw [ss, sp, us, upl, Nat.succ_mul, ← t3]
          rcases scase with ⟨_, p0, _, _⟩ | ⟨r1, c1⟩
          · rw [up] at p0
            exact absurd p0 hma
          · rw [if_pos r1]
            rw [uc, uf] at c1
            omega

theorem tally_free (ok : Bool) (ptr size : Nat) (s : State) (held : List (Nat × Nat))
    (ht : Tally s held) (hm : (ptr, slabs_clsid size) ∈ held)
    (hok : (s.slabclass (slabs_clsid size)).sl_curr = (s.slabclass (slabs_clsid size)).sl_total →
      ok = true) :
    Tally (slabs_free ok ptr size s) (held.erase (ptr, slabs_clsid size)) := by
  obtain ⟨t1, t2, t3⟩ := ht
  obtain ⟨hptr, hid⟩ := t1 _ hm
  have h20 : slabs_clsid size ≤ POWER_LARGEST := by
    rcases slabs_clsid_range size with h | h
    · exact absurd h hid
    · exact h.2
  have key : ∃ q, slabs_free ok ptr size s = s.setClass (slabs_clsid size) q ∧
      q.slots = store (s.slabclass (slabs_clsid size)).slots
        (s.slabclass (slabs_clsid size)).sl_curr ptr ∧
      q.sl_curr = (s.slabclass (slabs_clsid size)).sl_curr + 1 ∧
      q.end_page_free = (s.slabclass (slabs_clsid size)).end_page_free ∧
      q.slabs = (s.slabclass (slabs_clsid size)).slabs ∧
      q.perslab = (s.slabclass (slabs_clsid size)).perslab := by
    rw [slabs_free_supported ok ptr size s hid]
    by_cases hfull : (s.slabclass (slabs_clsid size)).sl_curr
        = (s.slabclass (slabs_clsid size)).sl_total
    · have hne : ¬ ok = false := by rw [hok hfull]; exact Bool.noConfusion
      rw [if_pos hfull, if_neg hne]
      exact ⟨_, rfl, rfl, rfl, rfl, rfl, rfl⟩
    · rw [if_neg hfull]
      exact ⟨_, rfl, rfl, rfl, rfl, rfl, rfl⟩
  obtain ⟨q, hq, qs, qc, qf, qn, qp⟩ := key
  rw [hq]
  refine ⟨fun x hx => t1 x (List.mem_of_mem_erase hx), ?_, ?_⟩
  · intro id hid2 i hi
    by_cases hj : id = slabs_clsid size
    · rw [hj, setClass_same] at hi ⊢
      rw [qs]
      rw [qc] at hi
      unfold store
      by_cases hi2 : i = (s.slabclass (slabs_clsid size)).sl_curr
      · rw [if_pos hi2]
        exact hptr
      · rw [if_neg hi2]
        exact t2 _ h20 i (by omega)
    · rw [setClass_other _ _ _ _ hj] at hi ⊢
      exact t2 id hid2 i hi
  · intro id hid2
    have he := held_count_erase held (ptr, slabs_clsid size) hm id
    by_cases hj : id = slabs_clsid size
    · rw [hj, setClass_same, qc, qf, qn, qp, ← t3 _ h20]
      rw [hj, if_pos rfl] at he
      omega
    · rw [setClass_other _ _ _ _ hj, ← t3 id hid2]
      rw [if_neg (fun h => hj h.symm)] at he
      omega

theorem tally_init (limit : Nat) (s0 : State) : Tally (slabs_init limit s0) [] := by
  refine ⟨fun x hx => absurd hx (List.not_mem_nil x), ?_, ?_⟩
  · intro id hid i hi
    rw [slabs_init_class limit s0 id hid] at hi
    exact absurd hi (Nat.not_lt_zero i)
  · intro id hid
    rw [slabs_init_class limit s0 id hid]
    show 0 + 0 + 0 = 0 * _
    rw [Nat.zero_mul]

theorem conserving_run (s : State) (held : List (Nat × Nat)) (h : Conserving s held) : Run s := by
  induction h with
  | init limit s0 => exact Run.init limit s0
  | alloc e size _ ih => exact Run.alloc e size ih
  | free ok ptr size _ _ _ ih => exact Run.free ok ptr size ih

theorem conserving_tally (s : State) (held : List (Nat × Nat)) (h : Conserving s held) :
    Tally s held := by
  induction h with
  | init limit s0 => exact tally_init limit s0
  | alloc e size hc ih => exact tally_alloc e size _ _ (run_shaped _ (conserving_run _ _ hc)) ih
  | free ok ptr size _ hm hok ih => exact tally_free ok ptr size _ _ ih hm hok

/-- The lines of class `id` in the report are the ones computed from the class. -/
theorem stats_line (s : State) (r : stats_report) (c : class_stat) (id : Nat)
    (hr : slabs_stats true s = some r) (hc : c ∈ r.classes) (hcid : c.id = id) :
    c = class_lines id (s.slabclass id) := by
  rw [slabs_stats_eq s] at hr
  injection hr with hr
  rw [← hr] at hc
  obtain ⟨j, _, hj⟩ := List.mem_map.mp hc
  have : j = id := by rw [← hcid, ← hj]; rfl
  rw [← hj, this]

/-- A class in `3..20` with a slab has its lines in the report. -/
theorem stats_line_mem (s : State) (id : Nat) (h3 : 3 ≤ id) (h20 : id ≤ 20)
    (hs : (s.slabclass id).slabs ≠ 0) :
    ∃ r, slabs_stats true s = some r ∧ class_lines id (s.slabclass id) ∈ r.classes :=
  ⟨_, slabs_stats_eq s,
    List.mem_map.mpr ⟨id, (mem_active_ids s id).mpr ⟨⟨h3, h20⟩, hs⟩, rfl⟩⟩

/-- In `unsigned int` arithmetic the difference that `slabs_stats` prints is the
exact difference modulo `2^32`. -/
theorem used_chunks_mod (p : slabclass_t) (id H : Nat)
    (h : H + p.sl_curr = p.slabs * p.perslab) :
    (class_lines id p).used_chunks = H % UINT_MOD := by
  show ((p.slabs * p.perslab) % UINT_MOD + UINT_MOD - p.sl_curr % UINT_MOD) % UINT_MOD = _
  rw [← h]
  generalize p.sl_curr = f
  unfold UINT_MOD
  omega

theorem alloc_run_add (envs : Nat → Env) (size a : Nat) (s : State) :
    ∀ b, alloc_run envs size (a + b) s
      = alloc_run (fun k => envs (a + k)) size b (alloc_run envs size a s) := by
  intro b
  induction b with
  | zero => rfl
  | succ b ih =>
    show (slabs_alloc (envs (a + b)) size (alloc_run envs size (a + b) s)).2
      = (slabs_alloc (envs (a + b)) size
          (alloc_run (fun k => envs (a + k)) size b (alloc_run envs size a s))).2
    rw [ih]

theorem conserving_alloc_run (envs : Nat → Env) (size limit : Nat) (s0 : State) :
    ∀ n, Conserving (alloc_run envs size n (slabs_init limit s0))
      (alloc_held envs size n (slabs_init limit s0)) := by
  intro n
  induction n with
  | zero => exact Conserving.init limit s0
  | succ n ih => exact Conserving.alloc (envs n) size ih

/-- Under a zero ceiling, when the system grants every request, `n * P`
consecutive allocations of one size fill `n` further slabs of `P` chunks. -/
theorem fill_slabs (envs : Nat → Env) (size : Nat) (t : State) (P : Nat)
    (hid : slabs_clsid size ≠ 0)
    (hg : ∀ k, (envs k).realloc_ok = true ∧ (envs k).malloc_ptr ≠ 0)
    (hl : t.mem_limit = 0) (hP : (t.slabclass (slabs_clsid size)).perslab = P)
    (hP1 : 1 ≤ P) (hP2 : P ≤ 1048576)
    (hc : (t.slabclass (slabs_clsid size)).sl_curr = 0)
    (hp : (t.slabclass (slabs_clsid size)).end_page_ptr = 0)
    (hf : (t.slabclass (slabs_clsid size)).end_page_free = 0) :
    ∀ n, (alloc_run envs size (n * P) t).mem_limit = 0 ∧
      ((alloc_run envs size (n * P) t).slabclass (slabs_clsid size)).perslab = P ∧
      ((alloc_run envs size (n * P) t).slabclass (slabs_clsid size)).sl_curr = 0 ∧
      ((alloc_run envs size (n * P) t).slabclass (slabs_clsid size)).end_page_ptr = 0 ∧
      ((alloc_run envs size (n * P) t).slabclass (slabs_clsid size)).end_page_free = 0 ∧
      ((alloc_run envs size (n * P) t).slabclass (slabs_clsid size)).slabs
        = (t.slabclass (slabs_clsid size)).slabs + n := by
  intro n
  induction n with
  | zero =>
    rw [Nat.zero_mul]
    exact ⟨hl, hP, hc, hp, hf, rfl⟩
  | succ n ih =>
    obtain ⟨il, iP, ic, ip, _, is⟩ := ih
    rw [Nat.succ_mul, alloc_run_add]
    have full := fill_slab_full (fun k => envs (n * P + k)) size
      (alloc_run envs size (n * P) t) hid ic ip (not_over_budget_zero _ il)
      (hg _).1 (hg _).2 (by rw [iP]; exact hP1) (by rw [iP]; exact hP2)
    rw [iP] at full
    obtain ⟨ul, _, _, _, up, uc, us, uf, ue⟩ := full
    rw [iP] at up uf ue
    rw [is] at us
    refine ⟨ul.trans il, up, uc, ?_, ?_, ?_⟩
    · rw [ue, if_neg (Nat.lt_irrefl P)]
    · rw [uf, Nat.sub_self]
    · rw [us]; omega

/-- The run of `n * 131072` calls `slabs_alloc(8)` from `slabs_init(0)` with
adjacent blocks granted: class 3 has `n` full slabs, all chunks held. -/
theorem many_slabs (n : Nat) :
    Conserving (alloc_run adjacent_blocks 8 (n * 131072) (slabs_init 0 initial))
      (alloc_held adjacent_blocks 8 (n * 131072) (slabs_init 0 initial)) ∧
    ((alloc_run adjacent_blocks 8 (n * 131072) (slabs_init 0 initial)).slabclass 3).slabs = n ∧
    ((alloc_run adjacent_blocks 8 (n * 131072) (slabs_init 0 initial)).slabclass 3).perslab
      = 131072 ∧
    ((alloc_run adjacent_blocks 8 (n * 131072) (slabs_init 0 initial)).slabclass 3).sl_curr = 0 ∧
    ((alloc_run adjacent_blocks 8 (n * 131072) (slabs_init 0 initial)).slabclass 3).end_page_free
      = 0 := by
  have h8 : slabs_clsid 8 = 3 := by decide
  have hid : slabs_clsid 8 ≠ 0 := by decide
  have hg : ∀ k, (adjacent_blocks k).realloc_ok = true ∧ (adjacent_blocks k).malloc_ptr ≠ 0 := by
    intro k
    refine ⟨rfl, ?_⟩
    show POWER_BLOCK + 8 * k ≠ 0
    unfold POWER_BLOCK
    omega
  have hcl := slabs_init_class 0 initial 3 (by decide)
  have F := fill_slabs adjacent_blocks 8 (slabs_init 0 initial) 131072 hid hg rfl
    (by rw [h8, hcl]; decide) (by decide) (by decide)
    (by rw [h8, hcl]; rfl) (by rw [h8, hcl]; rfl) (by rw [h8, hcl]; rfl) n
  rw [h8, hcl] at F
  obtain ⟨_, fP, fc, _, ff, fs⟩ := F
  refine ⟨conserving_alloc_run adjacent_blocks 8 0 initial _, ?_, fP, fc, ff⟩
  rw [fs]
  show 0 + n = n
  omega

/-- With `2^32` chunks in the slabs of class 3 and none on the free list, all of
them are held and the report prints `used_chunks` as `0`. -/
theorem report_wraps (S : State) (H : List (Nat × Nat)) (hc : Conserving S H)
    (h1 : (S.slabclass 3).slabs = 32768) (h2 : (S.slabclass 3).perslab = 131072)
    (h3 : (S.slabclass 3).sl_curr = 0) (h4 : (S.slabclass 3).end_page_free = 0) :
    held_count H 3 = 4294967296 ∧ (S.slabclass 3).end_page_free = 0 ∧
    ∃ r, slabs_stats true S = some r ∧ ∃ c ∈ r.classes, c.id = 3 ∧ c.used_chunks = 0 := by
  have t3 := (conserving_tally S H hc).2.2 3 (by decide)
  rw [h1, h2, h3, h4] at t3
  have hH : held_count H 3 = 4294967296 := by omega
  have hs : (S.slabclass 3).slabs ≠ 0 := by rw [h1]; decide
  obtain ⟨r, hr, hm⟩ := stats_line_mem S 3 (by decide) (by decide) hs
  refine ⟨hH, h4, r, hr, _, hm, rfl, ?_⟩
  rw [used_chunks_mod (S.slabclass 3) 3 4294967296 (by rw [h1, h2, h3])]
  decide

/-- C20, as stated, fails on the reported `used_chunks`: the report computes
`slabs * perslab - sl_curr` in `unsigned int` arithmetic.  After `slabs_init(0)`
and `32768 * 131072 = 2^32` calls `slabs_alloc(8)`, every request granted and no
chunk freed, the caller holds `4294967296` chunks of class 3, the bump region is
empty, and the report shows `used_chunks = 0` for class 3. -/
theorem used_chunks_report_wraps :
    Conserving (alloc_run adjacent_blocks 8 (32768 * 131072) (slabs_init 0 initial))
      (alloc_held adjacent_blocks 8 (32768 * 131072) (slabs_init 0 initial)) ∧
    held_count (alloc_held adjacent_blocks 8 (32768 * 131072) (slabs_init 0 initial)) 3
      = 4294967296 ∧
    ((alloc_run adjacent_blocks 8 (32768 * 131072) (slabs_init 0 initial)).slabclass
      3).end_page_free = 0 ∧
    ∃ r, slabs_stats true (alloc_run adjacent_blocks 8 (32768 * 131072) (slabs_init 0 initial))
        = some r ∧
      ∃ c ∈ r.classes, c.id = 3 ∧ c.used_chunks = 0 :=
  ⟨(many_slabs 32768).1,
    report_wraps _ _ (many_slabs 32768).1 (many_slabs 32768).2.1 (many_slabs 32768).2.2.1
      (many_slabs 32768).2.2.2.1 (many_slabs 32768).2.2.2.2⟩

/-- C20, amended (chunk conservation): in every state reached after `slabs_init`
by `slabs_alloc` and `slabs_free` calls only, in which each free releases a held
chunk with a size of its allocation class and free-list growth never fails, for
every class `id` in `0..20`: held chunks + free-list count + `end_page_free`
equals `slabs * perslab`.  So the free-list count is at most `slabs * perslab`
and `slabs * perslab - sl_curr` is held chunks + `end_page_free`; the
`used_chunks` that `slabs_stats` reports for the class equals that number modulo
`2^32`, and equals it exactly whenever `slabs * perslab < 2^32`; and a
`slabs_alloc` that acquires a new slab for the class starts from a state in which
every chunk of the class is held. -/
theorem chunk_conservation (s : State) (held : List (Nat × Nat)) (h : Conserving s held)
    (id : Nat) (hid : id ≤ POWER_LARGEST) :
    held_count held id + (free_list (s.slabclass id)).length + (s.slabclass id).end_page_free
      = (s.slabclass id).slabs * (s.slabclass id).perslab ∧
    (free_list (s.slabclass id)).length = (s.slabclass id).sl_curr ∧
    (s.slabclass id).sl_curr ≤ (s.slabclass id).slabs * (s.slabclass id).perslab ∧
    (s.slabclass id).slabs * (s.slabclass id).perslab - (s.slabclass id).sl_curr
      = held_count held id + (s.slabclass id).end_page_free ∧
    (∀ r c, slabs_stats true s = some r → c ∈ r.classes → c.id = id →
      c.used_chunks = (held_count held id + (s.slabclass id).end_page_free) % UINT_MOD ∧
      ((s.slabclass id).slabs * (s.slabclass id).perslab < UINT_MOD →
        c.used_chunks = held_count held id + (s.slabclass id).end_page_free)) ∧
    (∀ e size, slabs_clsid size = id → acquires e size s →
      held_count held id = (s.slabclass id).slabs * (s.slabclass id).perslab) := by
  have t3 := (conserving_tally s held h).2.2 id hid
  have hlen : (free_list (s.slabclass id)).length = (s.slabclass id).sl_curr := by
    unfold free_list
    rw [List.length_map, List.length_range]
  refine ⟨by rw [hlen]; exact t3, hlen, by omega, by omega, ?_, ?_⟩
  · intro r c hr hc hcid
    have hu := used_chunks_mod (s.slabclass id) id
      (held_count held id + (s.slabclass id).end_page_free) (by omega)
    rw [stats_line s r c id hr hc hcid]
    refine ⟨hu, fun hlt => ?_⟩
    rw [hu]
    exact Nat.mod_eq_of_lt (by omega)
  · intro e size hsz hacq
    subst hsz
    unfold acquires at hacq
    obtain ⟨_, _, gb⟩ := run_shaped s (conserving_run s held h) _ hid
    by_cases h0 : slabs_clsid size = 0
    · rw [slabs_alloc_unsupported e size s h0] at hacq
      exact absurd rfl hacq
    · by_cases hr : (s.slabclass (slabs_clsid size)).end_page_ptr ≠ 0 ∨
          (s.slabclass (slabs_clsid size)).sl_curr ≠ 0
      · rw [slabs_alloc_ready e size s h0 hr, alloc_serve_slabs] at hacq
        exact absurd rfl hacq
      · have hp0 : (s.slabclass (slabs_clsid size)).end_page_ptr = 0 := by
          by_contra hcon; exact hr (Or.inl hcon)
        have hc0 : (s.slabclass (slabs_clsid size)).sl_curr = 0 := by
          by_contra hcon; exact hr (Or.inr hcon)
        have hf0 : (s.slabclass (slabs_clsid size)).end_page_free = 0 := by
          rcases gb with ⟨_, h1⟩ | ⟨h1, _⟩
          · exact h1
          · exact absurd hp0 h1
        omega

theorem chunk_conservation_witness :
    held_count (hold (slabs_alloc ⟨true, 1048576⟩ 8 (slabs_init 0 initial)).1 8 []) 3
      + (free_list ((slabs_alloc ⟨true, 1048576⟩ 8 (slabs_init 0 initial)).2.slabclass 3)).length
      + ((slabs_alloc ⟨true, 1048576⟩ 8 (slabs_init 0 initial)).2.slabclass 3).end_page_free
    = ((slabs_alloc ⟨true, 1048576⟩ 8 (slabs_init 0 initial)).2.slabclass 3).slabs
      * ((slabs_alloc ⟨true, 1048576⟩ 8 (slabs_init 0 initial)).2.slabclass 3).perslab :=
  (chunk_conservation _ _ (Conserving.alloc ⟨true, 1048576⟩ 8 (Conserving.init 0 initial)) 3
    (by decide)).1

end Slabs
